import Mathlib

/-!
Shallow embedding of `src/src/sksl/SkSLCPPCodeGenerator.cpp`, the SkSL
fragment-processor C++ code generator, together with theorems checking the
natural-language specification against it.

Conventions of the embedding:
* C++ member state (`fFormatArgs`, `fExtraEmitCodeCode`,
  `fWrittenTransformedCoords`, `fVarCount`, `fFunctionHeader`,
  `fNeedColorSpaceHelper`, the error sink, and the current output target
  `fOut`) becomes an explicit `GenState` record threaded through every
  writer.
* `ABORT(...)` and failed `ASSERT(...)` are fatal: writers return
  `Except String GenState` and a fatal abort is `Except.error`.
* `fErrors.error(offset, msg)` (recoverable, reported errors) appends to
  the `errors` list of the state and generation continues.
* A few collaborators live outside `src/` (the generic GLSL printer that
  `INHERITED::...` calls resolve to, `SectionAndParameterHelper`,
  `HCodeGenerator` utilities, builtin-id constants).  Those are modelled
  from the spec; each such definition carries a doc comment starting with
  `Modelled from the spec:`.
-/

set_option maxRecDepth 8192

namespace SkSLCPP

/-! ### Printf-format scanning utilities

The buffered main-body text is used as a `printf`-style format string by
`fragBuilder->codeAppendf`.  `specsAux` extracts the conversion directives
(`%s`, `%f`, `%d`, ...) of a character list, treating `%%` as an escaped
literal percent; `scanEnd` reports whether a scan ends in the middle of a
directive (a dangling `%`). -/

def specsAux : Bool → List Char → List Char
  | _, [] => []
  | true, c :: rest => if c = '%' then specsAux false rest else c :: specsAux false rest
  | false, c :: rest => if c = '%' then specsAux true rest else specsAux false rest

def scanEnd : Bool → List Char → Bool
  | p, [] => p
  | true, _ :: rest => scanEnd false rest
  | false, c :: rest => scanEnd (c == '%') rest

/-- Number of printf conversion directives in a string (with `%%` counting
as an escaped literal percent, not a directive). -/
def specCount (s : String) : Nat := (specsAux false s.data).length

/-- A character list with no `%` character at all. -/
def pfreeL (l : List Char) : Bool := l.all (fun c => !(c == '%'))

/-- A string with no `%` character at all. -/
def pctFree (s : String) : Bool := pfreeL s.data

/-! ### Decimal rendering (C++ `to_string` on integer values) -/

def digitChar (n : Nat) : Char :=
  match n with
  | 0 => '0' | 1 => '1' | 2 => '2' | 3 => '3' | 4 => '4'
  | 5 => '5' | 6 => '6' | 7 => '7' | 8 => '8' | _ => '9'

def natDigitsGo (fuel : Nat) (n : Nat) : List Char :=
  match fuel with
  | 0 => [digitChar n]
  | fuel + 1 =>
    if n < 10 then [digitChar n]
    else natDigitsGo fuel (n / 10) ++ [digitChar (n % 10)]

def natDigits (n : Nat) : List Char := natDigitsGo n n

/-- `to_string` on an integer value, as used by the generator for indices,
sampler slots and the temporary-variable counter. -/
def to_string (i : Int) : String :=
  if i < 0 then ⟨'-' :: natDigits i.natAbs⟩ else ⟨natDigits i.natAbs⟩

/-- The `(int32_t)` narrowing cast applied in `writeIntLiteral`. -/
def wrap32 (value : Int) : Int := ((value + 2 ^ 31) % 2 ^ 32) - 2 ^ 31

/-! ### Data model: types, modifiers, variables -/

inductive TypeKind where
  | scalar | vector | matrix | sampler | other
deriving DecidableEq, Repr

/-- The closed set of SkSL semantic types this backend can meet (the
`fContext.f*_Type` singletons of the source plus the name-compared
`colorSpaceXform` type). -/
inductive SkType where
  | float | half | int | bool
  | float2 | half2 | float4 | half4
  | float4x4 | half4x4
  | colorSpaceXform
  | sampler2D
deriving DecidableEq, Repr

def SkType.name : SkType → String
  | .float => "float"
  | .half => "half"
  | .int => "int"
  | .bool => "bool"
  | .float2 => "float2"
  | .half2 => "half2"
  | .float4 => "float4"
  | .half4 => "half4"
  | .float4x4 => "float4x4"
  | .half4x4 => "half4x4"
  | .colorSpaceXform => "colorSpaceXform"
  | .sampler2D => "sampler2D"

def SkType.kind : SkType → TypeKind
  | .float | .half | .int | .bool => .scalar
  | .float2 | .half2 | .float4 | .half4 => .vector
  | .float4x4 | .half4x4 => .matrix
  | .sampler2D => .sampler
  | .colorSpaceXform => .other

/-- `Type::isFloat()`: true exactly for the floating scalar types. -/
def SkType.isFloat : SkType → Bool
  | .float | .half => true
  | _ => false

/-- The three key-contribution modes of a layout (`Layout::kNo_Key`,
`kKey_Key`, `kIdentity_Key`). -/
inductive KeyMode where
  | kNo | kKey | kIdentity
deriving DecidableEq, Repr

structure SkLayout where
  builtin : Int := -1
  key : KeyMode := .kNo
  when : String := ""
deriving DecidableEq, Repr

structure Flags where
  uniformFlag : Bool := false
  inFlag : Bool := false
  highp : Bool := false
  mediump : Bool := false
  lowp : Bool := false
deriving DecidableEq, Repr

structure Modifiers where
  flags : Flags := {}
  layout : SkLayout := {}
deriving DecidableEq, Repr

inductive Storage where
  | globalStorage | localStorage
deriving DecidableEq, Repr

/-- A declared variable.  `id` stands for the C++ object identity (the
source compares variables by pointer, `&var == param`). -/
structure Variable where
  id : Nat := 0
  name : String := ""
  modifiers : Modifiers := {}
  type : SkType := .float
  storage : Storage := .globalStorage
  offset : Int := 0
deriving DecidableEq, Repr

/-- Modelled from the spec: the builtin-identifier constants
(`SK_TRANSFORMEDCOORDS2D_BUILTIN` and friends) are defined in a header
outside `src/`; only their distinctness matters here. -/
def SK_INCOLOR_BUILTIN : Int := 10003

def SK_OUTCOLOR_BUILTIN : Int := 10004

def SK_TRANSFORMEDCOORDS2D_BUILTIN : Int := 10005

def SK_TEXTURESAMPLERS_BUILTIN : Int := 10006

/-! ### Expressions and statements -/

inductive Operator where
  | percent | plus | minus | star | slash
deriving DecidableEq, Repr

def Operator.opName : Operator → String
  | .percent => "%"
  | .plus => "+"
  | .minus => "-"
  | .star => "*"
  | .slash => "/"

/-- Modelled from the spec: SkSL operator precedence (`GetBinaryPrecedence`
lives outside `src/`); multiplicative binds tighter than additive and
parentheses are inserted when `precedence >= parentPrecedence`. -/
def GetBinaryPrecedence : Operator → Nat
  | .percent | .star | .slash => 4
  | .plus | .minus => 5

def kPostfix_Precedence : Nat := 2

def kSequence_Precedence : Nat := 17

def kTopLevel_Precedence : Nat := 18

mutual
inductive Expr where
  | intLit (offset : Int) (value : Int)
  | varRef (offset : Int) (var : Variable)
  | bin (offset : Int) (op : Operator) (left right : Expr)
  | index (offset : Int) (base idx : Expr)
  | call (offset : Int) (builtin : Bool) (fname : String) (args : ExprList)
  | setting (offset : Int) (sname : String) (ty : SkType)
inductive ExprList where
  | nil
  | cons (head : Expr) (tail : ExprList)
end

def Expr.offset : Expr → Int
  | .intLit off _ => off
  | .varRef off _ => off
  | .bin off _ _ _ => off
  | .index off _ _ => off
  | .call off _ _ _ => off
  | .setting off _ _ => off

/-- The kind test `fKind == kVariableReference_Kind`. -/
def Expr.kindIsVariableReference : Expr → Bool
  | .varRef _ _ => true
  | _ => false

/-- The cast `((VariableReference&) e).fVariable`; only meaningful when the
kind test succeeded (any default otherwise). -/
def Expr.variableOf : Expr → Variable
  | .varRef _ v => v
  | _ => {}

/-- The kind test `fKind == kIntLiteral_Kind`. -/
def Expr.kindIsIntLiteral : Expr → Bool
  | .intLit _ _ => true
  | _ => false

/-- The field read `((IntLiteral&) e).fValue`; only meaningful when the
kind test succeeded. -/
def Expr.intLitValue : Expr → Int
  | .intLit _ v => v
  | _ => 0

mutual

/-- Structural size measure used for the termination of the writers and of
the proofs about them. -/
def Expr.sz : Expr → Nat
  | .intLit _ _ => 1
  | .varRef _ _ => 1
  | .bin _ _ l r => l.sz + r.sz + 1
  | .index _ b i => b.sz + i.sz + 1
  | .call _ _ _ args => args.szL + 1
  | .setting _ _ _ => 1

def ExprList.szL : ExprList → Nat
  | .nil => 1
  | .cons e rest => e.sz + rest.szL + 1

end

mutual
inductive Stmt where
  | exprStmt (e : Expr)
  | block (stmts : StmtList)
  | ifStmt (isStatic : Bool) (cond : Expr) (thenStmt : Stmt)
  | ifElse (isStatic : Bool) (cond : Expr) (thenStmt elseStmt : Stmt)
  | retVoid
  | ret (e : Expr)
  | varDeclStmt (v : Variable)
  | varDeclInit (v : Variable) (value : Expr)
inductive StmtList where
  | nil
  | cons (head : Stmt) (tail : StmtList)
end

mutual

/-- Structural size measure for statements. -/
def Stmt.szS : Stmt → Nat
  | .exprStmt _ => 1
  | .block sts => sts.szSL + 1
  | .ifStmt _ _ t => t.szS + 1
  | .ifElse _ _ t e => t.szS + e.szS + 1
  | .retVoid => 1
  | .ret _ => 1
  | .varDeclStmt _ => 1
  | .varDeclInit _ _ => 1

def StmtList.szSL : StmtList → Nat
  | .nil => 1
  | .cons st rest => st.szS + rest.szSL + 1

end

/-- A top-level program element: an author section, a global
var-declaration group, or a function definition. -/
inductive ProgramElement where
  | sectionElem (sname argName text : String)
  | varDecls (decls : List (Variable × Option Expr))
  | functionDef (fname : String) (body : StmtList)

structure Program where
  elements : List ProgramElement

/-! ### Generator state -/

/-- The mutable per-instance state of `CPPCodeGenerator`: the current
output target `out` (the stream `fOut` points at), the format-argument
list, the extra-setup buffer, the materialized-coordinate set, the
temporary-variable counter, the function prologue buffer, the
color-space-helper flag, and the reported-error sink. -/
structure GenState where
  out : String := ""
  formatArgs : List String := []
  extraEmitCode : String := ""
  writtenTransformedCoords : List Int := []
  varCount : Nat := 0
  functionHeader : String := ""
  needColorSpaceHelper : Bool := false
  errors : List (Int × String) := []
deriving DecidableEq, Repr

def stWrite (s : GenState) (t : String) : GenState := { s with out := s.out ++ t }

def stPushArg (s : GenState) (a : String) : GenState :=
  { s with formatArgs := s.formatArgs ++ [a] }

def stError (s : GenState) (offset : Int) (msg : String) : GenState :=
  { s with errors := s.errors ++ [(offset, msg)] }

/-- `fLineEnding` is set to the two characters `\n` by the constructor (the
generated text is itself a C++ string literal). -/
def fLineEnding : String := "\\n"

def writeLine (s : GenState) : GenState := stWrite s fLineEnding

/-! ### Helpers from outside src/ and small source predicates -/

/-- Modelled from the spec: `HCodeGenerator::FieldName` (declaration →
host-identifier derivation utility, outside `src/`): prefix `f` and
capitalize the first letter. -/
def FieldName (name : String) : String :=
  match name.data with
  | [] => "f"
  | c :: rest => ⟨'f' :: c.toUpper :: rest⟩

/-- Modelled from the spec: `HCodeGenerator::FieldType` (declaration-type →
host-type-name derivation utility, outside `src/`). -/
def FieldType (t : SkType) : String := t.name

/-- Modelled from the spec: the fixed file-header template
`kFragmentProcessorHeader` (outside `src/`), instantiated with the target
class name. -/
def kFragmentProcessorHeader (fullName : String) : String :=
  "/* generated file, do not edit: " ++ fullName ++ " */\n"

/-- Modelled from the spec: `SectionAndParameterHelper::IsParameter`
(outside `src/`): an `in`-flagged declaration with no builtin identifier. -/
def IsParameter (var : Variable) : Bool :=
  var.modifiers.flags.inFlag && var.modifiers.layout.builtin == -1

/-- Modelled from the spec: the parameter list collected by
`SectionAndParameterHelper` — the program's parameter declarations in
declaration order. -/
def getParametersList (p : Program) : List Variable :=
  (p.elements.map fun pe =>
    match pe with
    | .varDecls decls => (decls.map Prod.fst).filter IsParameter
    | _ => []).flatten

/-- Modelled from the spec: section-registry first-match lookup
(`SectionAndParameterHelper::getSection`), returning the bound argument
name and the raw text. -/
def getSection (p : Program) (sname : String) : Option (String × String) :=
  p.elements.findSome? fun pe =>
    match pe with
    | .sectionElem n a t => if n == sname then some (a, t) else none
    | _ => none

/-- Modelled from the spec: section-registry all-matches lookup
(`SectionAndParameterHelper::getSections`). -/
def getSectionsAll (p : Program) (sname : String) : List (String × String) :=
  p.elements.filterMap fun pe =>
    match pe with
    | .sectionElem n a t => if n == sname then some (a, t) else none
    | _ => none

/-- Modelled from the spec: the section-name constants of
`SkSLSectionAndParameterHelper.h` (outside `src/`). -/
def EMIT_CODE_SECTION : String := "emitCode"

def SET_DATA_SECTION : String := "setData"

def TEST_CODE_SECTION : String := "test"

def CLONE_SECTION : String := "clone"

def FIELDS_SECTION : String := "fields"

def CPP_SECTION : String := "cpp"

def CPP_END_SECTION : String := "cppEnd"

def COORD_TRANSFORM_SECTION : String := "coordTransform"

/-- The generation context: the program, the processor base name, the
derived full class name (`Gr` + name) and the parameter list. -/
structure Ctx where
  program : Program
  name : String
  fullName : String
  params : List Variable

def mkCtx (name : String) (p : Program) : Ctx :=
  { program := p, name := name, fullName := "Gr" ++ name, params := getParametersList p }

/-! ### Source functions: small predicates and leaf writers -/

/-- `needs_uniform_var` (source lines 15-18): uniform flag set and the type
name is not `colorSpaceXform`. -/
def needs_uniform_var (var : Variable) : Bool :=
  var.modifiers.flags.uniformFlag && var.type.name != "colorSpaceXform"

/-- `default_value` (source lines 118-128). -/
def default_value (type : SkType) : Except String String :=
  if type.name == "colorSpaceXform" then .ok "float4x4(1.0)"
  else match type.kind with
    | .scalar => .ok "0"
    | .vector => .ok (type.name ++ "(0)")
    | .matrix => .ok (type.name ++ "(1)")
    | _ => .error "abort: unsupported default_value type"

/-- `is_private` (source lines 130-135). -/
def is_private (var : Variable) : Bool :=
  !var.modifiers.flags.uniformFlag && !var.modifiers.flags.inFlag &&
    var.storage == .globalStorage && var.modifiers.layout.builtin == -1

/-- `CPPCodeGenerator::getTypeName` (source lines 58-60). -/
def getTypeName (type : SkType) : String := type.name

/-- `CPPCodeGenerator::writeRuntimeValue` (source lines 137-156).  The
unsupported-type branch writes the type name and aborts; under the `Except`
semantics the abort discards the written text. -/
def writeRuntimeValue (type : SkType) (cppCode : String) (s : GenState) :
    Except String GenState :=
  if type.isFloat then .ok (stPushArg (stWrite s "%f") cppCode)
  else if type == .int then .ok (stPushArg (stWrite s "%d") cppCode)
  else if type == .bool then
    .ok (stPushArg (stWrite s "%s") ("(" ++ cppCode ++ " ? \"true\" : \"false\")"))
  else if type == .float2 || type == .half2 then
    .ok (stPushArg (stPushArg (stWrite s (type.name ++ "(%f, %f)")) (cppCode ++ ".fX"))
      (cppCode ++ ".fY"))
  else .error "abort: unsupported runtime value type"

/-- The loop of `CPPCodeGenerator::getSamplerHandle` (source lines
166-177): scan the parameter list for the variable (by object identity),
counting the sampler-typed parameters passed on the way. -/
def getSamplerHandleLoop (var : Variable) (samplerCount : Nat) :
    List Variable → Except String String
  | [] => .error "abort: should have found sampler in parameters"
  | param :: rest =>
    if var.id == param.id then
      .ok ("args.fTexSamplers[" ++ to_string samplerCount ++ "]")
    else
      getSamplerHandleLoop var
        (if param.type.kind == .sampler then samplerCount + 1 else samplerCount) rest

/-- `CPPCodeGenerator::getSamplerHandle` (source lines 166-177). -/
def getSamplerHandle (params : List Variable) (var : Variable) : Except String String :=
  getSamplerHandleLoop var 0 params

/-- `CPPCodeGenerator::writeIntLiteral` (source lines 179-181). -/
def writeIntLiteral (value : Int) (s : GenState) : GenState :=
  stWrite s (to_string (wrap32 value))

/-- The accessor-expression computation of the uniform branch of
`writeVariableReference` (source lines 202-222); it builds strings only
(the failed `ASSERT(fNeedColorSpaceHelper)` and an unsupported
`default_value` type are fatal). -/
def uniformAccessorCode (ref : Variable) (needColorSpaceHelper : Bool) :
    Except String String := do
  let name := ref.name
  let var ←
    if ref.type == .colorSpaceXform then
      if needColorSpaceHelper then do
        let dv ← default_value ref.type
        pure ("fColorSpaceHelper.isValid() ? args.fUniformHandler->getUniformCStr(fColorSpaceHelper.gamutXformUniform()) : \""
          ++ dv ++ "\"")
      else .error "assert failed: fNeedColorSpaceHelper"
    else
      pure ("args.fUniformHandler->getUniformCStr(" ++ FieldName name ++ "Var)")
  if ref.modifiers.layout.when.length != 0 then do
    let dv ← default_value ref.type
    pure (FieldName name ++ "Var.isValid() ? " ++ var ++ " : \"" ++ dv ++ "\"")
  else pure var

/-- `CPPCodeGenerator::writeVariableReference` (source lines 183-232). -/
def writeVariableReference (ctx : Ctx) (ref : Variable) (s : GenState) :
    Except String GenState :=
  if ref.modifiers.layout.builtin == SK_INCOLOR_BUILTIN then
    .ok (stPushArg (stWrite s "%s") "args.fInputColor ? args.fInputColor : \"half4(1)\"")
  else if ref.modifiers.layout.builtin == SK_OUTCOLOR_BUILTIN then
    .ok (stPushArg (stWrite s "%s") "args.fOutputColor")
  else if ref.type.kind == .sampler then
    match getSamplerHandle ctx.params ref with
    | .error e => .error e
    | .ok handle =>
      .ok (stPushArg (stWrite s "%s")
        ("fragBuilder->getProgramBuilder()->samplerVariable(" ++ handle ++ ").c_str()"))
  else if ref.modifiers.flags.uniformFlag then
    match uniformAccessorCode ref s.needColorSpaceHelper with
    | .error e => .error e
    | .ok code => .ok (stPushArg (stWrite s "%s") code)
  else if IsParameter ref then
    writeRuntimeValue ref.type ("_outer." ++ ref.name ++ "()") s
  else .ok (stWrite s ref.name)

/-- `CPPCodeGenerator::writeSetting` (source lines 294-302): a name with
the `sk_Args.` prefix is lowered as a runtime value of the derived field
name; anything else is printed verbatim. -/
def writeSetting (sname : String) (ty : SkType) (s : GenState) : Except String GenState :=
  if "sk_Args.".isPrefixOf sname then
    writeRuntimeValue ty (FieldName (sname.drop 8)) s
  else .ok (stWrite s sname)

/-! ### The recursive expression writer -/

mutual

/-- The expression dispatch of the printer (the generic
`writeExpression` switch of the base class, modelled from the spec; it
forwards to the specialized methods below). -/
def writeExpression (ctx : Ctx) (e : Expr) (parentPrecedence : Nat) (s : GenState) :
    Except String GenState :=
  match e with
  | .intLit _ value => .ok (writeIntLiteral value s)
  | .varRef _ v => writeVariableReference ctx v s
  | .bin _ op l r => writeBinaryExpression ctx op l r parentPrecedence s
  | .index _ base idx => writeIndexExpression ctx base idx s
  | .call _ builtin fname args => writeFunctionCall ctx builtin fname args s
  | .setting _ sname ty => writeSetting sname ty s
termination_by (e.sz, 1)
decreasing_by
  all_goals try simp only [Expr.sz, ExprList.szL]
  all_goals first
    | (apply Prod.Lex.right; omega)
    | (apply Prod.Lex.left; omega)

/-- `CPPCodeGenerator::writeBinaryExpression` (source lines 62-79): the
modulo operator is escaped as `%%`; other operators take the generic
binary form (modelled from the spec), with the same precedence-driven
parenthesization. -/
def writeBinaryExpression (ctx : Ctx) (op : Operator) (l r : Expr)
    (parentPrecedence : Nat) (s : GenState) : Except String GenState :=
  if op == .percent then do
    let precedence := GetBinaryPrecedence .percent
    let s := if parentPrecedence ≤ precedence then stWrite s "(" else s
    let s ← writeExpression ctx l precedence s
    let s := stWrite s " %% "
    let s ← writeExpression ctx r precedence s
    .ok (if parentPrecedence ≤ precedence then stWrite s ")" else s)
  else do
    let precedence := GetBinaryPrecedence op
    let s := if parentPrecedence ≤ precedence then stWrite s "(" else s
    let s ← writeExpression ctx l precedence s
    let s := stWrite s (" " ++ op.opName ++ " ")
    let s ← writeExpression ctx r precedence s
    .ok (if parentPrecedence ≤ precedence then stWrite s ")" else s)
termination_by (l.sz + r.sz + 1, 0)
decreasing_by
  all_goals try simp only [Expr.sz, ExprList.szL]
  all_goals first
    | (apply Prod.Lex.right; omega)
    | (apply Prod.Lex.left; omega)

/-- `CPPCodeGenerator::writeIndexExpression` (source lines 81-116).  The
two builtin arrays demand a literal index: a `%s` directive is written
before the literal check, so the error path leaves a directive with no
matching argument.  Materialization statements for the coordinates array
are appended to the Extra-Setup Buffer once per distinct index.  Any other
base falls through to generic indexing (modelled from the spec). -/
def writeIndexExpression (ctx : Ctx) (base idx : Expr) (s : GenState) :
    Except String GenState :=
  if base.kindIsVariableReference then
    -- the source binds `int builtin = ...` and shadows `s`; both are
    -- inlined here so that every branch condition mentions only the
    -- original state (the intermediate writes never touch the fields the
    -- conditions read)
    if base.variableOf.modifiers.layout.builtin == SK_TRANSFORMEDCOORDS2D_BUILTIN then
      if !idx.kindIsIntLiteral then
        .ok (stError (stWrite s "%s") idx.offset
          "index into sk_TransformedCoords2D must be an integer literal")
      else if s.writtenTransformedCoords.contains idx.intLitValue then
        .ok (stPushArg (stWrite s "%s")
          ("sk_TransformedCoords2D_" ++ to_string idx.intLitValue ++ ".c_str()"))
      else
        .ok { stPushArg (stWrite s "%s")
                ("sk_TransformedCoords2D_" ++ to_string idx.intLitValue ++ ".c_str()") with
          extraEmitCode := s.extraEmitCode ++
            ("        SkString " ++ ("sk_TransformedCoords2D_" ++ to_string idx.intLitValue) ++
             " = fragBuilder->ensureCoords2D(args.fTransformedCoords[" ++
             to_string idx.intLitValue ++ "]);\n"),
          writtenTransformedCoords := s.writtenTransformedCoords ++ [idx.intLitValue] }
    else if base.variableOf.modifiers.layout.builtin == SK_TEXTURESAMPLERS_BUILTIN then
      if !idx.kindIsIntLiteral then
        .ok (stError (stWrite s "%s") idx.offset
          "index into sk_TextureSamplers must be an integer literal")
      else
        .ok (stPushArg (stWrite s "%s")
          ("        fragBuilder->getProgramBuilder()->samplerVariable(args.fTexSamplers["
           ++ to_string idx.intLitValue ++ "]).c_str()"))
    else do
      -- Modelled from the spec: generic indexing (INHERITED fallthrough).
      let s ← writeExpression ctx base kPostfix_Precedence s
      let s := stWrite s "["
      let s ← writeExpression ctx idx kTopLevel_Precedence s
      .ok (stWrite s "]")
  else do
    -- Modelled from the spec: generic indexing (INHERITED fallthrough).
    let s ← writeExpression ctx base kPostfix_Precedence s
    let s := stWrite s "["
    let s ← writeExpression ctx idx kTopLevel_Precedence s
    .ok (stWrite s "]")
termination_by (base.sz + idx.sz + 1, 0)
decreasing_by
  all_goals try simp only [Expr.sz, ExprList.szL]
  all_goals first
    | (apply Prod.Lex.right; omega)
    | (apply Prod.Lex.left; omega)

/-- `CPPCodeGenerator::writeFunctionCall` (source lines 248-273): the
`COLORSPACE` builtin is rewritten into guarded placeholders with a
synthesized temporary declared in the function prologue; other calls take
the generic form (modelled from the spec), with the `texture` builtin
appending a sampler-swizzle placeholder afterwards. -/
def writeFunctionCall (ctx : Ctx) (builtin : Bool) (fname : String)
    (args : ExprList) (s : GenState) : Except String GenState :=
  if builtin && fname == "COLORSPACE" then
    match args with
    | .cons arg0 (.cons arg1 .nil) =>
      let tmpVar := "_tmpVar" ++ to_string (Int.ofNat (s.varCount + 1))
      let s := { s with varCount := s.varCount + 1,
                        functionHeader := s.functionHeader ++ ("half4 " ++ tmpVar ++ ";") }
      let s := stPushArg (stWrite s "%s")
        ("fColorSpaceHelper.isValid() ? \"(" ++ tmpVar ++ " = \" : \"\"")
      do
        let s ← writeExpression ctx arg0 kTopLevel_Precedence s
        if arg1.kindIsVariableReference then
          let xform := "args.fUniformHandler->getUniformCStr(fColorSpaceHelper.gamutXformUniform())"
          .ok (stPushArg (stWrite s "%s")
            ("fColorSpaceHelper.isValid() ? SkStringPrintf(\", half4(clamp((%s * half4("
             ++ tmpVar ++ ".rgb, 1.0)).rgb, 0.0, " ++ tmpVar ++ ".a), " ++ tmpVar
             ++ ".a))\", " ++ xform ++ ").c_str() : \"\""))
        else .error "assert failed: COLORSPACE argument 1 must be a variable reference"
    | _ => .error "assert failed: COLORSPACE expects 2 arguments"
  else do
    -- Modelled from the spec: the generic printer call form.
    let s := stWrite s (fname ++ "(")
    let s ← writeCallArgs ctx args true s
    let s := stWrite s ")"
    if builtin && fname == "texture" then
      let s := stWrite s ".%s"
      match args with
      | .cons a0 _ =>
        if a0.kindIsVariableReference then
          match getSamplerHandle ctx.params a0.variableOf with
          | .error e => .error e
          | .ok sampler =>
            .ok (stPushArg s
              ("fragBuilder->getProgramBuilder()->samplerSwizzle(" ++ sampler ++ ").c_str()"))
        else .error "assert failed: texture argument 0 must be a variable reference"
      | .nil => .error "assert failed: texture expects at least 1 argument"
    else .ok s
termination_by (args.szL + 1, 0)
decreasing_by
  all_goals try simp only [Expr.sz, ExprList.szL]
  all_goals first
    | (apply Prod.Lex.right; omega)
    | (apply Prod.Lex.left; omega)

/-- Modelled from the spec: the generic printer comma-separated
argument-list form. -/
def writeCallArgs (ctx : Ctx) (args : ExprList) (first : Bool) (s : GenState) :
    Except String GenState :=
  match args with
  | .nil => .ok s
  | .cons e rest => do
    let s := if first then s else stWrite s ", "
    let s ← writeExpression ctx e kSequence_Precedence s
    writeCallArgs ctx rest false s
termination_by (args.szL, 1)
decreasing_by
  all_goals try simp only [Expr.sz, ExprList.szL]
  all_goals first
    | (apply Prod.Lex.right; omega)
    | (apply Prod.Lex.left; omega)

end

/-- `CPPCodeGenerator::writeVarInitializer` (source lines 158-164). -/
def writeVarInitializer (ctx : Ctx) (var : Variable) (value : Expr) (s : GenState) :
    Except String GenState :=
  if is_private var then writeRuntimeValue var.type var.name s
  else writeExpression ctx value kTopLevel_Precedence s

/-! ### Statements -/

mutual

def writeStatement (ctx : Ctx) (st : Stmt) (s : GenState) : Except String GenState :=
  match st with
  | .exprStmt e => do
    let s ← writeExpression ctx e kTopLevel_Precedence s
    .ok (stWrite s ";")
  | .block stmts => do
    -- Modelled from the spec: the generic block printer.
    let s := writeLine (stWrite s "\x7b")
    let s ← writeStmtList ctx stmts s
    .ok (stWrite s "\x7d")
  | .ifStmt isStatic cond thenStmt => do
    -- CPPCodeGenerator::writeIfStatement (source lines 234-239) plus the
    -- generic if form, modelled from the spec.
    let s := if isStatic then stWrite s "@" else s
    let s := stWrite s "if ("
    let s ← writeExpression ctx cond kTopLevel_Precedence s
    let s := stWrite s ") "
    writeStatement ctx thenStmt s
  | .ifElse isStatic cond thenStmt elseStmt => do
    let s := if isStatic then stWrite s "@" else s
    let s := stWrite s "if ("
    let s ← writeExpression ctx cond kTopLevel_Precedence s
    let s := stWrite s ") "
    let s ← writeStatement ctx thenStmt s
    let s := stWrite s " else "
    writeStatement ctx elseStmt s
  | .retVoid => .ok (stWrite s "return;")
  | .ret e => do
    -- Modelled from the spec: the generic return form.
    let s := stWrite s "return "
    let s ← writeExpression ctx e kTopLevel_Precedence s
    .ok (stWrite s ";")
  | .varDeclStmt v =>
    -- Modelled from the spec: the generic var-declaration form.
    .ok (stWrite s (getTypeName v.type ++ " " ++ v.name ++ ";"))
  | .varDeclInit v value => do
    let s := stWrite s (getTypeName v.type ++ " " ++ v.name ++ " = ")
    let s ← writeVarInitializer ctx v value s
    .ok (stWrite s ";")

def writeStmtList (ctx : Ctx) (sts : StmtList) (s : GenState) : Except String GenState :=
  match sts with
  | .nil => .ok s
  | .cons st rest => do
    let s ← writeStatement ctx st s
    let s := writeLine s
    writeStmtList ctx rest s

end

/-! ### AST description (used by `writePrivateVarValues`) -/

mutual

/-- Modelled from the spec: `Expression::description()` (AST plain-text
rendering, outside `src/`). -/
def Expr.description : Expr → String
  | .intLit _ v => to_string v
  | .varRef _ v => v.name
  | .bin _ op l r => "(" ++ l.description ++ " " ++ op.opName ++ " " ++ r.description ++ ")"
  | .index _ b i => b.description ++ "[" ++ i.description ++ "]"
  | .call _ _ f args => f ++ "(" ++ args.descriptionList ++ ")"
  | .setting _ n _ => n

def ExprList.descriptionList : ExprList → String
  | .nil => ""
  | .cons e .nil => e.description
  | .cons e rest => e.description ++ ", " ++ rest.descriptionList

end

/-! ### Function definitions and program elements -/

/-- `CPPCodeGenerator::writeFunction` (source lines 275-292): the body of
`main` is generated into a detached buffer, after which the accumulated
function prologue (`fFunctionHeader`) is written followed by the buffered
body; other functions delegate to the generic printer. -/
def writeFunction (ctx : Ctx) (fname : String) (body : StmtList) (s : GenState) :
    Except String GenState :=
  if fname == "main" then do
    let oldOut := s.out
    let s := { s with functionHeader := "", out := "" }
    let s ← writeStmtList ctx body s
    let buffer := s.out
    let s := { s with out := oldOut }
    let s := stWrite s s.functionHeader
    .ok (stWrite s buffer)
  else do
    -- Modelled from the spec: the generic function printer.
    let s := stWrite s ("void " ++ fname ++ "() ")
    let s := writeLine (stWrite s "\x7b")
    let s ← writeStmtList ctx body s
    .ok (writeLine (stWrite s "\x7d"))

/-- Modelled from the spec: the generic printer's var-declaration group
form, which calls back into the specialized `writeVarInitializer`. -/
def glslWriteVarDeclsLoop (ctx : Ctx) (decls : List (Variable × Option Expr))
    (s : GenState) : Except String GenState :=
  match decls with
  | [] => .ok s
  | (v, initv) :: rest => do
    let s := stWrite s (getTypeName v.type ++ " " ++ v.name)
    let s ←
      match initv with
      | some value => do
        let s := stWrite s " = "
        writeVarInitializer ctx v value s
      | none => pure s
    let s := writeLine (stWrite s ";")
    glslWriteVarDeclsLoop ctx rest s

/-- `CPPCodeGenerator::writeProgramElement` (source lines 313-329):
sections are skipped; a var group whose first variable is `in`/`uniform` or
builtin is skipped; everything else goes to the generic printer. -/
def writeProgramElement (ctx : Ctx) (pe : ProgramElement) (s : GenState) :
    Except String GenState :=
  match pe with
  | .sectionElem _ _ _ => .ok s
  | .varDecls decls =>
    match decls with
    | [] => .ok s
    | (v, _) :: _ =>
      if v.modifiers.flags.inFlag || v.modifiers.flags.uniformFlag ||
          !(v.modifiers.layout.builtin == -1) then .ok s
      else glslWriteVarDeclsLoop ctx decls s
  | .functionDef fname body => writeFunction ctx fname body s

def glslGenerateCodeLoop (ctx : Ctx) (elems : List ProgramElement) (s : GenState) :
    Except String GenState :=
  match elems with
  | [] => .ok s
  | pe :: rest => do
    let s ← writeProgramElement ctx pe s
    glslGenerateCodeLoop ctx rest s

/-- Modelled from the spec: `INHERITED::generateCode()` — the generic
printer's whole-program drive over the elements (dispatching through the
specialized `writeProgramElement`), whose boolean result is success =
zero accumulated errors. -/
def glslGenerateCode (ctx : Ctx) (s : GenState) : Except String (Bool × GenState) := do
  let s ← glslGenerateCodeLoop ctx ctx.program.elements s
  .ok (s.errors.isEmpty, s)

/-! ### The emission method and its collaborators -/

/-- `CPPCodeGenerator::writePrivateVarValues` (source lines 395-409). -/
def writePrivateVarValues (ctx : Ctx) (s : GenState) : GenState :=
  ctx.program.elements.foldl
    (fun s pe =>
      match pe with
      | .varDecls decls =>
        decls.foldl
          (fun s pr =>
            if is_private pr.1 then
              match pr.2 with
              | some value => stWrite s (pr.1.name ++ " = " ++ value.description ++ ";\n")
              | none => s
            else s) s
      | _ => s) s

/-- `CPPCodeGenerator::writePrivateVars` (source lines 379-393). -/
def writePrivateVars (ctx : Ctx) (s : GenState) : GenState :=
  ctx.program.elements.foldl
    (fun s pe =>
      match pe with
      | .varDecls decls =>
        decls.foldl
          (fun s pr =>
            if is_private pr.1 then
              stWrite s (FieldType pr.1.type ++ " " ++ pr.1.name ++ ";\n")
            else s) s
      | _ => s) s

/-- `CPPCodeGenerator::addUniform` (source lines 331-377). -/
def addUniform (var : Variable) (s : GenState) : Except String GenState :=
  if !needs_uniform_var var then .ok s
  else
    let precision :=
      if var.modifiers.flags.highp then "kHigh_GrSLPrecision"
      else if var.modifiers.flags.mediump then "kMedium_GrSLPrecision"
      else if var.modifiers.flags.lowp then "kLow_GrSLPrecision"
      else "kDefault_GrSLPrecision"
    do
    let type ←
      if var.type == .float then pure "kFloat_GrSLType"
      else if var.type == .half then pure "kHalf_GrSLType"
      else if var.type == .float2 then pure "kFloat2_GrSLType"
      else if var.type == .half2 then pure "kHalf2_GrSLType"
      else if var.type == .float4 then pure "kFloat4_GrSLType"
      else if var.type == .half4 then pure "kHalf4_GrSLType"
      else if var.type == .float4x4 || var.type == .colorSpaceXform then
        pure "kFloat4x4_GrSLType"
      else if var.type == .half4x4 then pure "kHalf4x4_GrSLType"
      else .error "abort: unsupported uniform type"
    let s :=
      if var.modifiers.layout.when.length != 0 then
        stWrite s ("        if (" ++ var.modifiers.layout.when ++ ") \x7b\n    ")
      else s
    let s := stWrite s ("        " ++ FieldName var.name ++
      "Var = args.fUniformHandler->addUniform(kFragment_GrShaderFlag, " ++ type ++
      ", " ++ precision ++ ", \"" ++ var.name ++ "\");\n")
    let s :=
      if var.modifiers.layout.when.length != 0 then stWrite s "        \x7d\n" else s
    .ok s

/-- One iteration of the uniforms loop of `writeEmitCode` (source lines
418-429): register the uniform, then special-case `colorSpaceXform` — a
second such uniform is a reported (recoverable) error at its offset, the
helper-needed flag is set, and the helper's emit-code call is written. -/
def processEmitUniform (u : Variable) (s : GenState) : Except String GenState := do
  let s ← addUniform u s
  if u.type == .colorSpaceXform then
    let s :=
      if s.needColorSpaceHelper then
        stError s u.offset "only a single ColorSpaceXform is supported"
      else s
    let s := { s with needColorSpaceHelper := true }
    .ok (stWrite s ("        fColorSpaceHelper.emitCode(args.fUniformHandler, _outer." ++
      u.name ++ "().get());\n"))
  else .ok s

def processEmitUniforms (uniforms : List Variable) (s : GenState) :
    Except String GenState :=
  match uniforms with
  | [] => .ok s
  | u :: rest => do
    let s ← processEmitUniform u s
    processEmitUniforms rest s

/-- `CPPCodeGenerator::writeSection` (source lines 304-311). -/
def writeSection (ctx : Ctx) (sname : String) (pfx : String) (s : GenState) :
    Bool × GenState :=
  match getSection ctx.program sname with
  | some (_, text) => (true, stWrite s (pfx ++ text))
  | none => (false, s)

/-- The output-target redirection of `writeEmitCode` (source lines
431-435): generate the whole program into a detached buffer, returning the
generic drive's result, the captured buffer, and the state with the
original output target restored. -/
def emitMainBody (ctx : Ctx) (s : GenState) : Except String (Bool × String × GenState) :=
  match glslGenerateCodeLoop ctx ctx.program.elements { s with out := "" } with
  | .error e => .error e
  | .ok s2 => .ok (s2.errors.isEmpty, s2.out, { s2 with out := s.out })

/-- `CPPCodeGenerator::writeEmitCode` (source lines 411-444). -/
def writeEmitCode (ctx : Ctx) (uniforms : List Variable) (s : GenState) :
    Except String (Bool × GenState) := do
  let s := stWrite s "    void emitCode(EmitArgs& args) override \x7b\n        GrGLSLFPFragmentBuilder* fragBuilder = args.fFragBuilder;\n"
  let s := stWrite s ("        const " ++ ctx.fullName ++ "& _outer = args.fFp.cast<" ++
    ctx.fullName ++ ">();\n        (void) _outer;\n")
  let s := writePrivateVarValues ctx s
  let s ← processEmitUniforms uniforms s
  let s := (writeSection ctx EMIT_CODE_SECTION "" s).2
  let (result, mainBuffer, s) ← emitMainBody ctx s
  let s := stWrite s (s.extraEmitCode ++ "        fragBuilder->codeAppendf(\"" ++
    mainBuffer ++ "\"")
  let s := s.formatArgs.foldl (fun acc a => stWrite acc (", " ++ a)) s
  let s := stWrite s ");\n    \x7d\n"
  .ok (result, s)

/-! ### The per-draw update method -/

/-- One iteration of the uniforms loop of `writeSetData` (source lines
454-485), threading the `wroteProcessor` flag. -/
def setDataUniformCase (pdman fullName : String) (u : Variable)
    (acc : Bool × GenState) : Except String (Bool × GenState) :=
  let (wroteProcessor, s) := acc
  if u.modifiers.flags.inFlag then
    let (wroteProcessor, s) :=
      if !wroteProcessor then
        (true, stWrite (stWrite s ("        const " ++ fullName ++ "& _outer = _proc.cast<"
          ++ fullName ++ ">();\n")) "        \x7b\n")
      else (wroteProcessor, s)
    let name := u.name
    if u.type == .float4 || u.type == .half4 then
      .ok (wroteProcessor, stWrite s ("        const SkRect " ++ name ++ "Value = _outer."
        ++ name ++ "();\n        " ++ pdman ++ ".set4fv(" ++ FieldName name ++
        "Var, 1, (float*) &" ++ name ++ "Value);\n"))
    else if u.type == .float4x4 || u.type == .half4x4 then
      .ok (wroteProcessor, stWrite s ("        float " ++ name ++ "Value[16];\n        _outer."
        ++ name ++ "().asColMajorf(" ++ name ++ "Value);\n        " ++ pdman ++
        ".setMatrix4f(" ++ FieldName name ++ "Var, " ++ name ++ "Value);\n"))
    else if u.type == .colorSpaceXform then
      if !s.needColorSpaceHelper then .error "assert failed: fNeedColorSpaceHelper"
      else
        .ok (wroteProcessor, stWrite s ("        if (fColorSpaceHelper.isValid()) \x7b\n            fColorSpaceHelper.setData("
          ++ pdman ++ ", _outer." ++ name ++ "().get());\n        \x7d\n"))
    else
      .ok (wroteProcessor, stWrite s ("        " ++ pdman ++ ".set1f(" ++ FieldName name ++
        "Var, _outer." ++ name ++ "());\n"))
  else .ok (wroteProcessor, s)

def setDataUniformsLoop (pdman fullName : String) (uniforms : List Variable)
    (acc : Bool × GenState) : Except String (Bool × GenState) :=
  match uniforms with
  | [] => .ok acc
  | u :: rest => do
    let acc ← setDataUniformCase pdman fullName u acc
    setDataUniformsLoop pdman fullName rest acc

/-- The section-alias loop of `writeSetData` (source lines 489-513). -/
def setDataSectionDecls (ctx : Ctx) (fullName : String)
    (acc : Bool × GenState) : Bool × GenState :=
  ctx.program.elements.foldl
    (fun acc pe =>
      match pe with
      | .varDecls decls =>
        decls.foldl
          (fun (acc : Bool × GenState) pr =>
            let (wroteProcessor, s) := acc
            let name := pr.1.name
            if needs_uniform_var pr.1 then
              (wroteProcessor, stWrite s ("        UniformHandle& " ++ name ++ " = " ++
                FieldName name ++ "Var;\n        (void) " ++ name ++ ";\n"))
            else if IsParameter pr.1 then
              let (wroteProcessor, s) :=
                if !wroteProcessor then
                  (true, stWrite s ("        const " ++ fullName ++ "& _outer = _proc.cast<"
                    ++ fullName ++ ">();\n"))
                else (wroteProcessor, s)
              (wroteProcessor, stWrite s ("        auto " ++ name ++ " = _outer." ++ name ++
                "();\n        (void) " ++ name ++ ";\n"))
            else acc) acc
      | _ => acc) acc

/-- `CPPCodeGenerator::writeSetData` (source lines 446-517). -/
def writeSetData (ctx : Ctx) (uniforms : List Variable) (s : GenState) :
    Except String GenState := do
  let fullName := ctx.fullName
  let sec := getSection ctx.program SET_DATA_SECTION
  let pdman := match sec with | some (arg, _) => arg | none => "pdman"
  let s := stWrite s ("    void onSetData(const GrGLSLProgramDataManager& " ++ pdman ++
    ", const GrFragmentProcessor& _proc) override \x7b\n")
  let (wroteProcessor, s) ← setDataUniformsLoop pdman fullName uniforms (false, s)
  let s := if wroteProcessor then stWrite s "        \x7d\n" else s
  let s ←
    match sec with
    | some _ =>
      let (_, s) := setDataSectionDecls ctx fullName (wroteProcessor, s)
      pure (writeSection ctx SET_DATA_SECTION "" s).2
    | none => pure s
  .ok (stWrite s "    \x7d\n")

/-! ### The key-builder method -/

/-- The per-parameter body of the `writeGetKey` loop (source lines
579-626). -/
def writeGetKeyParam (p : Variable) (s : GenState) : Except String GenState :=
  let name := p.name
  if p.type == .colorSpaceXform then
    .ok (stWrite s ("    b->add32(GrColorSpaceXform::XformKey(" ++ FieldName name ++
      ".get()));\n"))
  else
    let s :=
      if p.modifiers.layout.key != .kNo && p.modifiers.flags.uniformFlag then
        stError s p.offset "layout(key) may not be specified on uniforms"
      else s
    match p.modifiers.layout.key with
    | .kKey =>
      if p.type == .float4x4 then .error "abort: no automatic key handling for float4x4"
      else if p.type == .float2 then
        .ok (stWrite s ("    b->add32(" ++ FieldName name ++ ".fX);\n    b->add32(" ++
          FieldName name ++ ".fY);\n"))
      else if p.type == .float4 then
        .ok (stWrite s ("    b->add32(" ++ FieldName name ++ ".x());\n    b->add32(" ++
          FieldName name ++ ".y());\n    b->add32(" ++ FieldName name ++
          ".width());\n    b->add32(" ++ FieldName name ++ ".height());\n"))
      else
        .ok (stWrite s ("    b->add32(" ++ FieldName name ++ ");\n"))
    | .kIdentity =>
      let s :=
        if p.type.kind != .matrix then
          stError s p.offset "layout(key=identity) requires matrix type"
        else s
      .ok (stWrite s ("    b->add32(" ++ FieldName name ++ ".isIdentity() ? 1 : 0);\n"))
    | .kNo => .ok s

def getKeyLoop (params : List Variable) (s : GenState) : Except String GenState :=
  match params with
  | [] => .ok s
  | p :: rest => do
    let s ← writeGetKeyParam p s
    getKeyLoop rest s

/-- `CPPCodeGenerator::writeGetKey` (source lines 575-628). -/
def writeGetKey (ctx : Ctx) (s : GenState) : Except String GenState := do
  let s := stWrite s ("void " ++ ctx.fullName ++
    "::onGetGLSLProcessorKey(const GrShaderCaps& caps, GrProcessorKeyBuilder* b) const \x7b\n")
  let s ← getKeyLoop ctx.params s
  .ok (stWrite s "\x7d\n")

/-! ### Clone, test factory, and the top-level drive -/

/-- `CPPCodeGenerator::writeClone` (source lines 519-557). -/
def writeClone (ctx : Ctx) (s : GenState) : GenState :=
  let (found, s) := writeSection ctx CLONE_SECTION "" s
  if found then s
  else
    let fullName := ctx.fullName
    let s :=
      if (getSection ctx.program FIELDS_SECTION).isSome then
        stError s 0 "fragment processors with custom @fields must also have a custom@clone"
      else s
    let s := stWrite s (fullName ++ "::" ++ fullName ++ "(const " ++ fullName ++
      "& src)\n: INHERITED(k" ++ fullName ++ "_ClassID, src.optimizationFlags())")
    let s := ctx.params.foldl
      (fun s param => stWrite s ("\n, " ++ FieldName param.name ++ "(src." ++
        FieldName param.name ++ ")")) s
    let s := (getSectionsAll ctx.program COORD_TRANSFORM_SECTION).foldl
      (fun s sec => stWrite s ("\n, " ++ FieldName sec.1 ++ "CoordTransform(src." ++
        FieldName sec.1 ++ "CoordTransform)")) s
    let s := stWrite s " \x7b\n"
    let s := ctx.params.foldl
      (fun s param =>
        if param.type.kind == .sampler then
          stWrite s ("    this->addTextureSampler(&" ++ FieldName param.name ++ ");\n")
        else s) s
    let s := (getSectionsAll ctx.program COORD_TRANSFORM_SECTION).foldl
      (fun s sec => stWrite s ("    this->addCoordTransform(&" ++ FieldName sec.1 ++
        "CoordTransform);\n")) s
    let s := stWrite s "\x7d\n"
    let s := stWrite s ("std::unique_ptr<GrFragmentProcessor> " ++ fullName ++
      "::clone() const \x7b\n")
    let s := stWrite s ("    return std::unique_ptr<GrFragmentProcessor>(new " ++ fullName
      ++ "(*this));\n")
    stWrite s "\x7d\n"

/-- `CPPCodeGenerator::writeTest` (source lines 559-573). -/
def writeTest (ctx : Ctx) (s : GenState) : GenState :=
  match getSection ctx.program TEST_CODE_SECTION with
  | some (arg, _) =>
    let s := stWrite s ("GR_DEFINE_FRAGMENT_PROCESSOR_TEST(" ++ ctx.fullName ++
      ");\n#if GR_TEST_UTILS\nstd::unique_ptr<GrFragmentProcessor> " ++ ctx.fullName ++
      "::TestCreate(GrProcessorTestData* " ++ arg ++ ") \x7b\n")
    let s := (writeSection ctx TEST_CODE_SECTION "" s).2
    stWrite s "\x7d\n#endif\n"
  | none => s

/-- The uniform-collection loop of `generateCode` (source lines 631-643):
uniform-flagged, non-sampler declarations, in declaration order. -/
def collectUniforms (p : Program) : List Variable :=
  (p.elements.map fun pe =>
    match pe with
    | .varDecls decls =>
      (decls.map Prod.fst).filter fun v =>
        v.modifiers.flags.uniformFlag && !(v.type.kind == .sampler)
    | _ => []).flatten

/-- `CPPCodeGenerator::generateCode` (source lines 630-704). -/
def generateCode (ctx : Ctx) (s : GenState) : Except String (Bool × GenState) := do
  let uniforms := collectUniforms ctx.program
  let baseName := ctx.name
  let fullName := ctx.fullName
  let s := stWrite s (kFragmentProcessorHeader fullName)
  let s := stWrite s ("#include \"" ++ fullName ++ ".h\"\n#if SK_SUPPORT_GPU\n")
  let s := (writeSection ctx CPP_SECTION "" s).2
  let s := stWrite s ("#include \"glsl/GrGLSLColorSpaceXformHelper.h\"\n#include \"glsl/GrGLSLFragmentProcessor.h\"\n#include \"glsl/GrGLSLFragmentShaderBuilder.h\"\n#include \"glsl/GrGLSLProgramBuilder.h\"\n#include \"SkSLCPP.h\"\n#include \"SkSLUtil.h\"\nclass GrGLSL"
    ++ baseName ++ " : public GrGLSLFragmentProcessor \x7b\npublic:\n    GrGLSL" ++
    baseName ++ "() \x7b\x7d\n")
  let (result, s) ← writeEmitCode ctx uniforms s
  let s := stWrite s "private:\n"
  let s ← writeSetData ctx uniforms s
  let s := writePrivateVars ctx s
  let s := uniforms.foldl
    (fun s u =>
      if needs_uniform_var u && !u.modifiers.flags.inFlag then
        stWrite s ("    UniformHandle " ++ FieldName u.name ++ "Var;\n")
      else s) s
  let s := ctx.params.foldl
    (fun s param =>
      if needs_uniform_var param then
        stWrite s ("    UniformHandle " ++ FieldName param.name ++ "Var;\n")
      else s) s
  let s :=
    if s.needColorSpaceHelper then
      stWrite s "    GrGLSLColorSpaceXformHelper fColorSpaceHelper;\n"
    else s
  let s := stWrite s ("\x7d;\nGrGLSLFragmentProcessor* " ++ fullName ++
    "::onCreateGLSLInstance() const \x7b\n    return new GrGLSL" ++ baseName ++
    "();\n\x7d\n")
  let s ← writeGetKey ctx s
  let s := stWrite s ("bool " ++ fullName ++
    "::onIsEqual(const GrFragmentProcessor& other) const \x7b\n    const " ++ fullName ++
    "& that = other.cast<" ++ fullName ++ ">();\n    (void) that;\n")
  let s := ctx.params.foldl
    (fun s param => stWrite s ("    if (" ++ FieldName param.name ++ " != that." ++
      FieldName param.name ++ ") return false;\n")) s
  let s := stWrite s "    return true;\n\x7d\n"
  let s := writeClone ctx s
  let s := writeTest ctx s
  let s := (writeSection ctx CPP_END_SECTION "" s).2
  let s := stWrite s "#endif\n"
  let result := result && s.errors.isEmpty
  .ok (result, s)

/-- The state a freshly constructed generator starts from (constructor,
source lines 20-27): every mutable field at its default. -/
def initialState : GenState := {}

/-- One full generation run with a fresh generator instance. -/
def generateProgram (name : String) (p : Program) : Except String (Bool × GenState) :=
  generateCode (mkCtx name p) initialState

/-! ### Well-formedness: identifiers of a program contain no `%`

SkSL identifiers come out of the lexer and cannot contain a percent
character; the balance theorems about the buffered format text assume
this of every name the printer may echo verbatim. -/

mutual

def Expr.pfree : Expr → Bool
  | .intLit _ _ => true
  | .varRef _ v => pctFree v.name
  | .bin _ _ l r => l.pfree && r.pfree
  | .index _ b i => b.pfree && i.pfree
  | .call _ _ fname args => pctFree fname && args.pfreeList
  | .setting _ sname _ => pctFree sname

def ExprList.pfreeList : ExprList → Bool
  | .nil => true
  | .cons e rest => e.pfree && rest.pfreeList

end

mutual

def Stmt.pfree : Stmt → Bool
  | .exprStmt e => e.pfree
  | .block sts => sts.pfreeList
  | .ifStmt _ c t => c.pfree && t.pfree
  | .ifElse _ c t e => c.pfree && t.pfree && e.pfree
  | .retVoid => true
  | .ret e => e.pfree
  | .varDeclStmt v => pctFree v.name
  | .varDeclInit v e => pctFree v.name && e.pfree

def StmtList.pfreeList : StmtList → Bool
  | .nil => true
  | .cons st rest => st.pfree && rest.pfreeList

end

def declPairPfree (pr : Variable × Option Expr) : Bool :=
  pctFree pr.1.name &&
    (match pr.2 with
     | some e => e.pfree
     | none => true)

def ProgramElement.pfree : ProgramElement → Bool
  | .sectionElem _ _ _ => true
  | .varDecls decls => decls.all declPairPfree
  | .functionDef fname body => pctFree fname && body.pfreeList

def Program.pfree (p : Program) : Bool := p.elements.all ProgramElement.pfree

/-! ### The balance invariant

`cleanCount t n` says the string `t` holds exactly `n` printf directives
and does not end inside one.  `StOk s t` relates a state to a later state
of the same nested pass: the output grew by a clean chunk whose directive
count is the number of appended format arguments plus the number of
appended reported errors (the two index-error paths each write a dangling
`%s`), and the function prologue grew by percent-free text. -/

def cleanCount (t : String) (n : Nat) : Prop :=
  scanEnd false t.data = false ∧ (specsAux false t.data).length = n

instance (t : String) (n : Nat) : Decidable (cleanCount t n) := by
  unfold cleanCount; infer_instance

def StOk (s t : GenState) : Prop :=
  ∃ dOut dArgs dErrs dHdr,
    t.out = s.out ++ dOut ∧
    t.formatArgs = s.formatArgs ++ dArgs ∧
    t.errors = s.errors ++ dErrs ∧
    t.functionHeader = s.functionHeader ++ dHdr ∧
    cleanCount dOut (dArgs.length + dErrs.length) ∧
    pctFree dHdr = true

/-- Like `StOk` but with no constraint on the function prologue; this is
the invariant at program-element granularity, where `writeFunction` resets
and flushes `fFunctionHeader`. -/
def ElemOk (s t : GenState) : Prop :=
  ∃ dOut dArgs dErrs,
    t.out = s.out ++ dOut ∧
    t.formatArgs = s.formatArgs ++ dArgs ∧
    t.errors = s.errors ++ dErrs ∧
    cleanCount dOut (dArgs.length + dErrs.length)

/-! ### Concrete inputs used by witnesses and counterexamples -/

/-- The builtin transformed-coordinates array variable. -/
def coordsVar : Variable :=
  { id := 101, name := "sk_TransformedCoords2D",
    modifiers := { layout := { builtin := SK_TRANSFORMEDCOORDS2D_BUILTIN } } }

/-- The builtin output-color variable. -/
def outColorVar : Variable :=
  { id := 102, name := "sk_OutColor",
    modifiers := { layout := { builtin := SK_OUTCOLOR_BUILTIN } } }

/-- A plain local variable (no builtin, no flags). -/
def localVar : Variable := { id := 103, name := "x", storage := .localStorage }

/-- `sk_TransformedCoords2D[i]` with a literal index. -/
def coordIndexExpr (i : Int) : Expr := .index 0 (.varRef 0 coordsVar) (.intLit 0 i)

/-- A program whose `main` reads the output color and indexes coordinate
slot 0 twice and slot 1 once, all with literal indices. -/
def progGood : Program :=
  { elements := [ .functionDef "main"
      (.cons (.exprStmt (.varRef 5 outColorVar))
        (.cons (.exprStmt (coordIndexExpr 0))
          (.cons (.exprStmt (coordIndexExpr 0))
            (.cons (.exprStmt (coordIndexExpr 1)) .nil)))) ] }

/-- A program whose `main` indexes the coordinate array with a non-literal
index — the recoverable-error path of `writeIndexExpression`. -/
def progBad : Program :=
  { elements := [ .functionDef "main"
      (.cons (.exprStmt (.index 0 (.varRef 0 coordsVar) (.varRef 7 localVar))) .nil) ] }

/-- A `colorSpaceXform` uniform declaration with a given identity and
source offset. -/
def csxUniform (idn : Nat) (off : Int) : Variable :=
  { id := idn, name := "xform" ++ to_string (Int.ofNat idn), type := .colorSpaceXform,
    offset := off, modifiers := { flags := { uniformFlag := true } } }

/-- A program declaring exactly two `colorSpaceXform` uniforms and an empty
`main`. -/
def progTwoCsx : Program :=
  { elements := [ .varDecls [(csxUniform 1 11, none)],
                  .varDecls [(csxUniform 2 22, none)],
                  .functionDef "main" .nil ] }

/-- A `half2` parameter with raw (`key`) key mode — a 2-component float
vector of the half precision tier. -/
def half2KeyParam : Variable :=
  { id := 201, name := "p", type := .half2,
    modifiers := { flags := { inFlag := true }, layout := { key := .kKey } } }

/-- A `float2` parameter with raw (`key`) key mode. -/
def float2KeyParam : Variable :=
  { id := 202, name := "p", type := .float2,
    modifiers := { flags := { inFlag := true }, layout := { key := .kKey } } }

/-- A `colorSpaceXform`-typed parameter carrying both a non-`none` key mode
and the uniform flag. -/
def csxKeyUniformParam : Variable :=
  { id := 203, name := "xf", type := .colorSpaceXform, offset := 33,
    modifiers := { flags := { inFlag := true, uniformFlag := true },
                   layout := { key := .kKey } } }

/-- A plain float parameter carrying both a raw key mode and the uniform
flag. -/
def floatKeyUniformParam : Variable :=
  { id := 204, name := "q", type := .float, offset := 44,
    modifiers := { flags := { inFlag := true, uniformFlag := true },
                   layout := { key := .kKey } } }

/-! ### Spec-side characterizations and counting utilities -/

/-- Concatenation of a list of strings (used to state per-statement
decompositions of emitted text). -/
def joinStrs : List String → String
  | [] => ""
  | a :: rest => a ++ joinStrs rest

/-- Number of (possibly overlapping) occurrences of a pattern in a
character list. -/
def countOccs (pat : List Char) : List Char → Nat
  | [] => 0
  | c :: rest => (if pat.isPrefixOf (c :: rest) then 1 else 0) + countOccs pat rest

/-- The text of one key-contribution statement pattern. -/
def add32Pat : List Char := "b->add32(".data

/-- Characterization of the Runtime-Value Lowerer following the claim: the
directive text written and the arguments appended, per semantic type
(floating scalar, integer, boolean, 2-component float vector of either
precision tier), everything else fatal. -/
def runtimeValueSpec (type : SkType) (cppCode : String) :
    Except String (String × List String) :=
  if type.isFloat then .ok ("%f", [cppCode])
  else if type == .int then .ok ("%d", [cppCode])
  else if type == .bool then
    .ok ("%s", ["(" ++ cppCode ++ " ? \"true\" : \"false\")"])
  else if type == .float2 || type == .half2 then
    .ok (type.name ++ "(%f, %f)", [cppCode ++ ".fX", cppCode ++ ".fY"])
  else .error "abort: unsupported runtime value type"

/-- Characterization of the per-parameter key contributions (for
non-color-space-transform parameters), as a list of emitted statements:
raw key mode expands `float2` to two and `float4` to four component
contributions, aborts on `float4x4`, and emits one contribution otherwise;
identity key mode emits the identity test; key mode none emits nothing. -/
def keyContribSpec (p : Variable) : Except String (List String) :=
  match p.modifiers.layout.key with
  | .kNo => .ok []
  | .kKey =>
    if p.type == .float4x4 then .error "abort: no automatic key handling for float4x4"
    else if p.type == .float2 then
      .ok ["    b->add32(" ++ FieldName p.name ++ ".fX);\n",
           "    b->add32(" ++ FieldName p.name ++ ".fY);\n"]
    else if p.type == .float4 then
      .ok ["    b->add32(" ++ FieldName p.name ++ ".x());\n",
           "    b->add32(" ++ FieldName p.name ++ ".y());\n",
           "    b->add32(" ++ FieldName p.name ++ ".width());\n",
           "    b->add32(" ++ FieldName p.name ++ ".height());\n"]
    else .ok ["    b->add32(" ++ FieldName p.name ++ ");\n"]
  | .kIdentity =>
    .ok ["    b->add32(" ++ FieldName p.name ++ ".isIdentity() ? 1 : 0);\n"]

/-- The fixed key contribution of the color-space-transform type. -/
def xformKeyLine (name : String) : String :=
  "    b->add32(GrColorSpaceXform::XformKey(" ++ FieldName name ++ ".get()));\n"

/-- The materialization (cache-population) statement appended to the
Extra-Setup Buffer for one coordinates-array index. -/
def cacheStmt (i : Int) : String :=
  "        SkString " ++ ("sk_TransformedCoords2D_" ++ to_string i) ++
  " = fragBuilder->ensureCoords2D(args.fTransformedCoords[" ++ to_string i ++ "]);\n"

/-- The format argument appended for one coordinates-array access. -/
def coordArgStr (i : Int) : String :=
  "sk_TransformedCoords2D_" ++ to_string i ++ ".c_str()"

/-- The indices of a list not yet seen, in first-occurrence order. -/
def newIndices (seen : List Int) : List Int → List Int
  | [] => []
  | i :: rest =>
    if seen.contains i then newIndices seen rest
    else i :: newIndices (seen ++ [i]) rest

/-- A sequence of literal-index accesses to the transformed-coordinates
builtin array, each through `writeIndexExpression`. -/
def runCoordIndices (ctx : Ctx) : List Int → GenState → Except String GenState
  | [], s => .ok s
  | i :: rest, s =>
    match writeIndexExpression ctx (.varRef 0 coordsVar) (.intLit 0 i) s with
    | .error e => .error e
    | .ok s2 => runCoordIndices ctx rest s2

/-- The color-space helper's emit-code call written for each
`colorSpaceXform` uniform encounter. -/
def csxEmitCall (name : String) : String :=
  "        fColorSpaceHelper.emitCode(args.fUniformHandler, _outer." ++ name ++
  "().get());\n"

/-- A sampler-typed parameter. -/
def samplerParam : Variable :=
  { id := 301, name := "tex", type := .sampler2D,
    modifiers := { flags := { inFlag := true } } }

/-- A plain float parameter. -/
def floatParam : Variable :=
  { id := 302, name := "scale", type := .float,
    modifiers := { flags := { inFlag := true } } }

/-- A second sampler-typed parameter, used as a lookup target. -/
def samplerParam2 : Variable :=
  { id := 303, name := "tex2", type := .sampler2D,
    modifiers := { flags := { inFlag := true } } }


/-! ### The emission-trace reference (placeholder/argument order)

The writers defer values: a site writes a printf directive into the out
stream and pushes the matching value onto the Format-Argument List in
the same action.  "The arguments appear in the same order as their
placeholders" is made precise by a reference trace: each writer's
emission is a sequence of atomic items — plain percent-free text, an
escaped `%%`, a directive paired with its own argument, or an error
path's orphan `%s`.  The deferred flattening of a trace is the written
text, its argument projection is the pushed argument list, and the
inline flattening puts each item's own value at its placeholder's
position.  The order property is that printf-style substitution of the
argument list into the deferred text reproduces the inline flattening;
a generator that pushed its arguments out of order would violate it. -/

inductive EmitItem where
  | txt (t : String)
  | escPct
  | arg (d : Char) (value : String)
  | errPh (offset : Int) (msg : String)
deriving DecidableEq, Repr

def EmitItem.defText : EmitItem → String
  | .txt t => t
  | .escPct => "%%"
  | .arg d _ => String.mk ['%', d]
  | .errPh _ _ => "%s"

def EmitItem.inlText : EmitItem → String
  | .txt t => t
  | .escPct => "%"
  | .arg _ v => v
  | .errPh _ _ => "%s"

def EmitItem.argVals : EmitItem → List String
  | .arg _ v => [v]
  | _ => []

def EmitItem.errVals : EmitItem → List (Int × String)
  | .errPh off msg => [(off, msg)]
  | _ => []

/-- Well-formed item: plain text holds no percent at all, and a directive
character is never the escape character. -/
def EmitItem.wfItem : EmitItem → Bool
  | .txt t => pctFree t
  | .escPct => true
  | .arg d _ => !(d == '%')
  | .errPh _ _ => true

def traceDef : List EmitItem → String
  | [] => ""
  | it :: rest => it.defText ++ traceDef rest

def traceInl : List EmitItem → String
  | [] => ""
  | it :: rest => it.inlText ++ traceInl rest

def traceArgs : List EmitItem → List String
  | [] => []
  | it :: rest => it.argVals ++ traceArgs rest

def traceErrs : List EmitItem → List (Int × String)
  | [] => []
  | it :: rest => it.errVals ++ traceErrs rest

def traceWf (tr : List EmitItem) : Bool := tr.all EmitItem.wfItem

/-- `printf`-style rendering: substitute the argument list into the
directives left to right; `%%` renders as a literal percent, every other
`%`-directive consumes the next argument (the dangling and underfed cases
never arise for well-formed balanced traces). -/
def render : List Char → List String → List Char
  | [], _ => []
  | ['%'], _ => ['%']
  | '%' :: c2 :: rest2, args =>
    if c2 = '%' then '%' :: render rest2 args
    else
      match args with
      | a :: as => a.data ++ render rest2 as
      | [] => render rest2 []
  | c :: rest, args => c :: render rest args

/-- Trace reference for `writeRuntimeValue`: the deferred flattening is
the text it writes, and each directive carries the argument pushed with
it. -/
def writeRuntimeValueTrace (type : SkType) (cppCode : String) :
    Except String (List EmitItem) :=
  if type.isFloat then .ok [.arg 'f' cppCode]
  else if type == .int then .ok [.arg 'd' cppCode]
  else if type == .bool then
    .ok [.arg 's' ("(" ++ cppCode ++ " ? \"true\" : \"false\")")]
  else if type == .float2 || type == .half2 then
    .ok [.txt (type.name ++ "("), .arg 'f' (cppCode ++ ".fX"), .txt ", ",
         .arg 'f' (cppCode ++ ".fY"), .txt ")"]
  else .error "abort: unsupported runtime value type"

/-- Trace reference for `writeVariableReference`; `ncs` is the (constant
during body generation) color-space-helper flag the uniform accessor
reads. -/
def writeVariableReferenceTrace (ctx : Ctx) (ref : Variable) (ncs : Bool) :
    Except String (List EmitItem) :=
  if ref.modifiers.layout.builtin == SK_INCOLOR_BUILTIN then
    .ok [.arg 's' "args.fInputColor ? args.fInputColor : \"half4(1)\""]
  else if ref.modifiers.layout.builtin == SK_OUTCOLOR_BUILTIN then
    .ok [.arg 's' "args.fOutputColor"]
  else if ref.type.kind == .sampler then
    match getSamplerHandle ctx.params ref with
    | .error e => .error e
    | .ok handle =>
      .ok [.arg 's'
        ("fragBuilder->getProgramBuilder()->samplerVariable(" ++ handle ++ ").c_str()")]
  else if ref.modifiers.flags.uniformFlag then
    match uniformAccessorCode ref ncs with
    | .error e => .error e
    | .ok code => .ok [.arg 's' code]
  else if IsParameter ref then
    writeRuntimeValueTrace ref.type ("_outer." ++ ref.name ++ "()")
  else .ok [.txt ref.name]

/-- Trace reference for `writeSetting`. -/
def writeSettingTrace (sname : String) (ty : SkType) : Except String (List EmitItem) :=
  if "sk_Args.".isPrefixOf sname then
    writeRuntimeValueTrace ty (FieldName (sname.drop 8))
  else .ok [.txt sname]

mutual

/-- Trace reference for the expression dispatch; `vc` and `hdr` thread the
temporary-variable counter and the function prologue exactly as the
writers do. -/
def writeExpressionTrace (ctx : Ctx) (e : Expr) (parentPrecedence : Nat)
    (ncs : Bool) (vc : Nat) (hdr : String) :
    Except String (List EmitItem × Nat × String) :=
  match e with
  | .intLit _ value => .ok ([.txt (to_string (wrap32 value))], vc, hdr)
  | .varRef _ v =>
    match writeVariableReferenceTrace ctx v ncs with
    | .error err => .error err
    | .ok tr => .ok (tr, vc, hdr)
  | .bin _ op l r => writeBinaryExpressionTrace ctx op l r parentPrecedence ncs vc hdr
  | .index _ base idx => writeIndexExpressionTrace ctx base idx ncs vc hdr
  | .call _ builtin fname args => writeFunctionCallTrace ctx builtin fname args ncs vc hdr
  | .setting _ sname ty =>
    match writeSettingTrace sname ty with
    | .error err => .error err
    | .ok tr => .ok (tr, vc, hdr)
termination_by (e.sz, 1)
decreasing_by
  all_goals try simp only [Expr.sz, ExprList.szL]
  all_goals first
    | (apply Prod.Lex.right; omega)
    | (apply Prod.Lex.left; omega)

/-- Trace reference for `writeBinaryExpression`: the escaped modulo
separator contributes the `%%` escape item, no argument. -/
def writeBinaryExpressionTrace (ctx : Ctx) (op : Operator) (l r : Expr)
    (parentPrecedence : Nat) (ncs : Bool) (vc : Nat) (hdr : String) :
    Except String (List EmitItem × Nat × String) :=
  if op == .percent then
    match writeExpressionTrace ctx l (GetBinaryPrecedence .percent) ncs vc hdr with
    | .error err => .error err
    | .ok (ltr, vc1, hdr1) =>
      match writeExpressionTrace ctx r (GetBinaryPrecedence .percent) ncs vc1 hdr1 with
      | .error err => .error err
      | .ok (rtr, vc2, hdr2) =>
        .ok ((if parentPrecedence ≤ GetBinaryPrecedence .percent
              then [EmitItem.txt "("] else []) ++
          ltr ++ [.txt " ", .escPct, .txt " "] ++ rtr ++
          (if parentPrecedence ≤ GetBinaryPrecedence .percent
           then [EmitItem.txt ")"] else []), vc2, hdr2)
  else
    match writeExpressionTrace ctx l (GetBinaryPrecedence op) ncs vc hdr with
    | .error err => .error err
    | .ok (ltr, vc1, hdr1) =>
      match writeExpressionTrace ctx r (GetBinaryPrecedence op) ncs vc1 hdr1 with
      | .error err => .error err
      | .ok (rtr, vc2, hdr2) =>
        .ok ((if parentPrecedence ≤ GetBinaryPrecedence op
              then [EmitItem.txt "("] else []) ++
          ltr ++ [.txt (" " ++ op.opName ++ " ")] ++ rtr ++
          (if parentPrecedence ≤ GetBinaryPrecedence op
           then [EmitItem.txt ")"] else []), vc2, hdr2)
termination_by (l.sz + r.sz + 1, 0)
decreasing_by
  all_goals try simp only [Expr.sz, ExprList.szL]
  all_goals first
    | (apply Prod.Lex.right; omega)
    | (apply Prod.Lex.left; omega)

/-- Trace reference for `writeIndexExpression`: the cached and uncached
coordinate accesses contribute the same directive-with-argument item (the
materialization goes to the extra-setup buffer, not to the captured
text); the non-literal-index error paths contribute an orphan `%s`. -/
def writeIndexExpressionTrace (ctx : Ctx) (base idx : Expr) (ncs : Bool) (vc : Nat)
    (hdr : String) : Except String (List EmitItem × Nat × String) :=
  if base.kindIsVariableReference then
    if base.variableOf.modifiers.layout.builtin == SK_TRANSFORMEDCOORDS2D_BUILTIN then
      if !idx.kindIsIntLiteral then
        .ok ([.errPh idx.offset "index into sk_TransformedCoords2D must be an integer literal"],
          vc, hdr)
      else
        .ok ([.arg 's' ("sk_TransformedCoords2D_" ++ to_string idx.intLitValue ++ ".c_str()")],
          vc, hdr)
    else if base.variableOf.modifiers.layout.builtin == SK_TEXTURESAMPLERS_BUILTIN then
      if !idx.kindIsIntLiteral then
        .ok ([.errPh idx.offset "index into sk_TextureSamplers must be an integer literal"],
          vc, hdr)
      else
        .ok ([.arg 's'
          ("        fragBuilder->getProgramBuilder()->samplerVariable(args.fTexSamplers["
           ++ to_string idx.intLitValue ++ "]).c_str()")], vc, hdr)
    else
      match writeExpressionTrace ctx base kPostfix_Precedence ncs vc hdr with
      | .error err => .error err
      | .ok (btr, vc1, hdr1) =>
        match writeExpressionTrace ctx idx kTopLevel_Precedence ncs vc1 hdr1 with
        | .error err => .error err
        | .ok (itr, vc2, hdr2) => .ok (btr ++ [.txt "["] ++ itr ++ [.txt "]"], vc2, hdr2)
  else
    match writeExpressionTrace ctx base kPostfix_Precedence ncs vc hdr with
    | .error err => .error err
    | .ok (btr, vc1, hdr1) =>
      match writeExpressionTrace ctx idx kTopLevel_Precedence ncs vc1 hdr1 with
      | .error err => .error err
      | .ok (itr, vc2, hdr2) => .ok (btr ++ [.txt "["] ++ itr ++ [.txt "]"], vc2, hdr2)
termination_by (base.sz + idx.sz + 1, 0)
decreasing_by
  all_goals try simp only [Expr.sz, ExprList.szL]
  all_goals first
    | (apply Prod.Lex.right; omega)
    | (apply Prod.Lex.left; omega)

/-- Trace reference for `writeFunctionCall`: the `COLORSPACE` rewrite
synthesizes its temporary from the threaded counter, declares it in the
prologue, and brackets the first argument's trace between its two guarded
placeholders; the `texture` suffix follows the argument list. -/
def writeFunctionCallTrace (ctx : Ctx) (builtin : Bool) (fname : String)
    (args : ExprList) (ncs : Bool) (vc : Nat) (hdr : String) :
    Except String (List EmitItem × Nat × String) :=
  if builtin && fname == "COLORSPACE" then
    match args with
    | .cons arg0 (.cons arg1 .nil) =>
      match writeExpressionTrace ctx arg0 kTopLevel_Precedence ncs (vc + 1)
          (hdr ++ ("half4 " ++ ("_tmpVar" ++ to_string (Int.ofNat (vc + 1))) ++ ";")) with
      | .error err => .error err
      | .ok (atr, vc1, hdr1) =>
        if arg1.kindIsVariableReference then
          .ok (EmitItem.arg 's'
              ("fColorSpaceHelper.isValid() ? \"(" ++
               ("_tmpVar" ++ to_string (Int.ofNat (vc + 1))) ++ " = \" : \"\"") ::
            (atr ++ [.arg 's'
              ("fColorSpaceHelper.isValid() ? SkStringPrintf(\", half4(clamp((%s * half4("
               ++ ("_tmpVar" ++ to_string (Int.ofNat (vc + 1))) ++ ".rgb, 1.0)).rgb, 0.0, "
               ++ ("_tmpVar" ++ to_string (Int.ofNat (vc + 1))) ++ ".a), "
               ++ ("_tmpVar" ++ to_string (Int.ofNat (vc + 1)))
               ++ ".a))\", "
               ++ "args.fUniformHandler->getUniformCStr(fColorSpaceHelper.gamutXformUniform())"
               ++ ").c_str() : \"\"")]), vc1, hdr1)
        else .error "assert failed: COLORSPACE argument 1 must be a variable reference"
    | _ => .error "assert failed: COLORSPACE expects 2 arguments"
  else
    match writeCallArgsTrace ctx args true ncs vc hdr with
    | .error err => .error err
    | .ok (atr, vc1, hdr1) =>
      if builtin && fname == "texture" then
        match args with
        | .cons a0 _ =>
          if a0.kindIsVariableReference then
            match getSamplerHandle ctx.params a0.variableOf with
            | .error err => .error err
            | .ok sampler =>
              .ok ([EmitItem.txt (fname ++ "(")] ++ atr ++ [.txt ")", .txt ".",
                .arg 's' ("fragBuilder->getProgramBuilder()->samplerSwizzle(" ++ sampler
                  ++ ").c_str()")], vc1, hdr1)
          else .error "assert failed: texture argument 0 must be a variable reference"
        | .nil => .error "assert failed: texture expects at least 1 argument"
      else .ok ([EmitItem.txt (fname ++ "(")] ++ atr ++ [.txt ")"], vc1, hdr1)
termination_by (args.szL + 1, 0)
decreasing_by
  all_goals try simp only [Expr.sz, ExprList.szL]
  all_goals first
    | (apply Prod.Lex.right; omega)
    | (apply Prod.Lex.left; omega)

/-- Trace reference for `writeCallArgs`. -/
def writeCallArgsTrace (ctx : Ctx) (args : ExprList) (first : Bool) (ncs : Bool)
    (vc : Nat) (hdr : String) : Except String (List EmitItem × Nat × String) :=
  match args with
  | .nil => .ok ([], vc, hdr)
  | .cons e rest =>
    match writeExpressionTrace ctx e kSequence_Precedence ncs vc hdr with
    | .error err => .error err
    | .ok (etr, vc1, hdr1) =>
      match writeCallArgsTrace ctx rest false ncs vc1 hdr1 with
      | .error err => .error err
      | .ok (rtr, vc2, hdr2) =>
        .ok ((if first then [] else [EmitItem.txt ", "]) ++ etr ++ rtr, vc2, hdr2)
termination_by (args.szL, 1)
decreasing_by
  all_goals try simp only [Expr.sz, ExprList.szL]
  all_goals first
    | (apply Prod.Lex.right; omega)
    | (apply Prod.Lex.left; omega)

end

/-- Trace reference for `writeVarInitializer`. -/
def writeVarInitializerTrace (ctx : Ctx) (var : Variable) (value : Expr) (ncs : Bool)
    (vc : Nat) (hdr : String) : Except String (List EmitItem × Nat × String) :=
  if is_private var then
    match writeRuntimeValueTrace var.type var.name with
    | .error err => .error err
    | .ok tr => .ok (tr, vc, hdr)
  else writeExpressionTrace ctx value kTopLevel_Precedence ncs vc hdr

mutual

/-- Trace reference for `writeStatement`. -/
def writeStatementTrace (ctx : Ctx) (st : Stmt) (ncs : Bool) (vc : Nat) (hdr : String) :
    Except String (List EmitItem × Nat × String) :=
  match st with
  | .exprStmt e =>
    match writeExpressionTrace ctx e kTopLevel_Precedence ncs vc hdr with
    | .error err => .error err
    | .ok (etr, vc1, hdr1) => .ok (etr ++ [.txt ";"], vc1, hdr1)
  | .block stmts =>
    match writeStmtListTrace ctx stmts ncs vc hdr with
    | .error err => .error err
    | .ok (btr, vc1, hdr1) =>
      .ok ([EmitItem.txt "\x7b", .txt fLineEnding] ++ btr ++ [.txt "\x7d"], vc1, hdr1)
  | .ifStmt isStatic cond thenStmt =>
    match writeExpressionTrace ctx cond kTopLevel_Precedence ncs vc hdr with
    | .error err => .error err
    | .ok (ctr, vc1, hdr1) =>
      match writeStatementTrace ctx thenStmt ncs vc1 hdr1 with
      | .error err => .error err
      | .ok (ttr, vc2, hdr2) =>
        .ok ((if isStatic then [EmitItem.txt "@"] else []) ++ [.txt "if ("] ++ ctr ++
          [.txt ") "] ++ ttr, vc2, hdr2)
  | .ifElse isStatic cond thenStmt elseStmt =>
    match writeExpressionTrace ctx cond kTopLevel_Precedence ncs vc hdr with
    | .error err => .error err
    | .ok (ctr, vc1, hdr1) =>
      match writeStatementTrace ctx thenStmt ncs vc1 hdr1 with
      | .error err => .error err
      | .ok (ttr, vc2, hdr2) =>
        match writeStatementTrace ctx elseStmt ncs vc2 hdr2 with
        | .error err => .error err
        | .ok (etr, vc3, hdr3) =>
          .ok ((if isStatic then [EmitItem.txt "@"] else []) ++ [.txt "if ("] ++ ctr ++
            [.txt ") "] ++ ttr ++ [.txt " else "] ++ etr, vc3, hdr3)
  | .retVoid => .ok ([.txt "return;"], vc, hdr)
  | .ret e =>
    match writeExpressionTrace ctx e kTopLevel_Precedence ncs vc hdr with
    | .error err => .error err
    | .ok (etr, vc1, hdr1) => .ok ([EmitItem.txt "return "] ++ etr ++ [.txt ";"], vc1, hdr1)
  | .varDeclStmt v => .ok ([.txt (getTypeName v.type ++ " " ++ v.name ++ ";")], vc, hdr)
  | .varDeclInit v value =>
    match writeVarInitializerTrace ctx v value ncs vc hdr with
    | .error err => .error err
    | .ok (itr, vc1, hdr1) =>
      .ok ([EmitItem.txt (getTypeName v.type ++ " " ++ v.name ++ " = ")] ++ itr ++
        [.txt ";"], vc1, hdr1)

/-- Trace reference for `writeStmtList`. -/
def writeStmtListTrace (ctx : Ctx) (sts : StmtList) (ncs : Bool) (vc : Nat)
    (hdr : String) : Except String (List EmitItem × Nat × String) :=
  match sts with
  | .nil => .ok ([], vc, hdr)
  | .cons st rest =>
    match writeStatementTrace ctx st ncs vc hdr with
    | .error err => .error err
    | .ok (str, vc1, hdr1) =>
      match writeStmtListTrace ctx rest ncs vc1 hdr1 with
      | .error err => .error err
      | .ok (rtr, vc2, hdr2) => .ok (str ++ [.txt fLineEnding] ++ rtr, vc2, hdr2)

end

/-- Trace reference for `writeFunction`: the `main` branch generates the
body's trace with a reset prologue and prepends the accumulated prologue
(pure text) to the body's items, mirroring the buffered capture. -/
def writeFunctionTrace (ctx : Ctx) (fname : String) (body : StmtList) (ncs : Bool)
    (vc : Nat) (hdr : String) : Except String (List EmitItem × Nat × String) :=
  if fname == "main" then
    match writeStmtListTrace ctx body ncs vc "" with
    | .error err => .error err
    | .ok (btr, vc1, hdr1) => .ok (EmitItem.txt hdr1 :: btr, vc1, hdr1)
  else
    match writeStmtListTrace ctx body ncs vc hdr with
    | .error err => .error err
    | .ok (btr, vc1, hdr1) =>
      .ok ([EmitItem.txt ("void " ++ fname ++ "() "), .txt "\x7b", .txt fLineEnding] ++
        btr ++ [.txt "\x7d", .txt fLineEnding], vc1, hdr1)

/-- Trace reference for `glslWriteVarDeclsLoop`. -/
def varDeclHeadTrace (ctx : Ctx) (v : Variable) (initv : Option Expr) (ncs : Bool)
    (vc : Nat) (hdr : String) : Except String (List EmitItem × Nat × String) :=
  match initv with
  | some value =>
    match writeVarInitializerTrace ctx v value ncs vc hdr with
    | .error err => .error err
    | .ok (itr, vc1, hdr1) =>
      .ok (([EmitItem.txt (getTypeName v.type ++ " " ++ v.name), .txt " = "] ++ itr :
        List EmitItem), vc1, hdr1)
  | none => .ok ([EmitItem.txt (getTypeName v.type ++ " " ++ v.name)], vc, hdr)

def glslWriteVarDeclsLoopTrace (ctx : Ctx) (decls : List (Variable × Option Expr))
    (ncs : Bool) (vc : Nat) (hdr : String) :
    Except String (List EmitItem × Nat × String) :=
  match decls with
  | [] => .ok ([], vc, hdr)
  | (v, initv) :: rest =>
    match varDeclHeadTrace ctx v initv ncs vc hdr with
    | .error err => .error err
    | .ok (htr, vc1, hdr1) =>
      match glslWriteVarDeclsLoopTrace ctx rest ncs vc1 hdr1 with
      | .error err => .error err
      | .ok (rtr, vc2, hdr2) =>
        .ok (htr ++ [.txt ";", .txt fLineEnding] ++ rtr, vc2, hdr2)

/-- Trace reference for `writeProgramElement`. -/
def writeProgramElementTrace (ctx : Ctx) (pe : ProgramElement) (ncs : Bool) (vc : Nat)
    (hdr : String) : Except String (List EmitItem × Nat × String) :=
  match pe with
  | .sectionElem _ _ _ => .ok ([], vc, hdr)
  | .varDecls decls =>
    match decls with
    | [] => .ok ([], vc, hdr)
    | (v, _) :: _ =>
      if v.modifiers.flags.inFlag || v.modifiers.flags.uniformFlag ||
          !(v.modifiers.layout.builtin == -1) then .ok ([], vc, hdr)
      else glslWriteVarDeclsLoopTrace ctx decls ncs vc hdr
  | .functionDef fname body => writeFunctionTrace ctx fname body ncs vc hdr

/-- Trace reference for `glslGenerateCodeLoop`: the trace of the whole
main-body capture. -/
def glslGenerateCodeLoopTrace (ctx : Ctx) (elems : List ProgramElement) (ncs : Bool)
    (vc : Nat) (hdr : String) : Except String (List EmitItem × Nat × String) :=
  match elems with
  | [] => .ok ([], vc, hdr)
  | pe :: rest =>
    match writeProgramElementTrace ctx pe ncs vc hdr with
    | .error err => .error err
    | .ok (ptr, vc1, hdr1) =>
      match glslGenerateCodeLoopTrace ctx rest ncs vc1 hdr1 with
      | .error err => .error err
      | .ok (rtr, vc2, hdr2) => .ok (ptr ++ rtr, vc2, hdr2)


/-- Correspondence between one writer step and its trace: the appended
output, argument, and error deltas are the trace's flattenings, the
color-space flag is untouched, prologue percent-freeness is preserved,
and the trace is well-formed. -/
def TCorr (tr : List EmitItem) (s t : GenState) : Prop :=
  t.out = s.out ++ traceDef tr ∧
  t.formatArgs = s.formatArgs ++ traceArgs tr ∧
  t.errors = s.errors ++ traceErrs tr ∧
  t.needColorSpaceHelper = s.needColorSpaceHelper ∧
  (pctFree s.functionHeader = true → pctFree t.functionHeader = true) ∧
  traceWf tr = true

/-! ## Theorems

First the format-scanner algebra, then the balance invariant for every
writer, then the claim theorems. -/

theorem scanEnd_append (b : List Char) :
    ∀ (a : List Char) (p : Bool), scanEnd p (a ++ b) = scanEnd (scanEnd p a) b := by
  intro a
  induction a with
  | nil => intro p; simp [scanEnd]
  | cons c rest ih =>
    intro p
    cases p with
    | true => simpa [scanEnd] using ih false
    | false => simpa [scanEnd] using ih (c == '%')

theorem specsAux_append (b : List Char) :
    ∀ (a : List Char) (p : Bool), scanEnd p a = false →
      specsAux p (a ++ b) = specsAux p a ++ specsAux false b := by
  intro a
  induction a with
  | nil =>
    intro p hp
    simp only [scanEnd] at hp
    subst hp
    simp [specsAux]
  | cons c rest ih =>
    intro p hp
    cases p with
    | true =>
      simp only [scanEnd] at hp
      by_cases hc : c = '%' <;> simp [specsAux, hc, ih false hp]
    | false =>
      simp only [scanEnd] at hp
      by_cases hc : c = '%'
      · subst hc
        simp only [beq_self_eq_true] at hp
        simp [specsAux, ih true hp]
      · have hcb : (c == '%') = false := by simpa using hc
        rw [hcb] at hp
        simp [specsAux, hc, ih false hp]

theorem pfreeL_scan (l : List Char) (h : pfreeL l = true) :
    specsAux false l = [] ∧ scanEnd false l = false := by
  induction l with
  | nil => exact ⟨rfl, rfl⟩
  | cons c rest ih =>
    simp only [pfreeL, List.all_cons, Bool.and_eq_true] at h
    have hc : (c == '%') = false := by
      have := h.1
      simpa using this
    have hrest := ih (by simpa [pfreeL] using h.2)
    have hc2 : ¬ (c = '%') := by simpa using hc
    constructor
    · simp [specsAux, hc2, hrest.1]
    · simp [scanEnd, hc, hrest.2]

theorem cleanCount_pctFree {t : String} (h : pctFree t = true) : cleanCount t 0 := by
  have := pfreeL_scan t.data h
  exact ⟨this.2, by simp [this.1]⟩

theorem cleanCount_append {a b : String} {m n : Nat}
    (ha : cleanCount a m) (hb : cleanCount b n) : cleanCount (a ++ b) (m + n) := by
  obtain ⟨ha1, ha2⟩ := ha
  obtain ⟨hb1, hb2⟩ := hb
  constructor
  · rw [String.data_append, scanEnd_append, ha1, hb1]
  · rw [String.data_append, specsAux_append _ _ _ ha1, List.length_append, ha2, hb2]

theorem pctFree_append {a b : String} (ha : pctFree a = true) (hb : pctFree b = true) :
    pctFree (a ++ b) = true := by
  simp only [pctFree, pfreeL, String.data_append, List.all_append, Bool.and_eq_true]
  exact ⟨ha, hb⟩

theorem digitChar_ne (n : Nat) : (!(digitChar n == '%')) = true := by
  unfold digitChar
  rcases n with _|_|_|_|_|_|_|_|_|n <;> rfl

theorem natDigitsGo_pfree (fuel n : Nat) : pfreeL (natDigitsGo fuel n) = true := by
  induction fuel generalizing n with
  | zero => simp [natDigitsGo, pfreeL, digitChar_ne]
  | succ fuel ih =>
    unfold natDigitsGo
    split
    · simp [pfreeL, digitChar_ne]
    · have hdiv := ih (n / 10)
      simp only [pfreeL, List.all_append, List.all_cons, List.all_nil,
        Bool.and_eq_true] at hdiv ⊢
      exact ⟨hdiv, by simp [digitChar_ne], trivial⟩

theorem natDigits_pfree (n : Nat) : pfreeL (natDigits n) = true := by
  simpa [natDigits] using natDigitsGo_pfree n n

theorem to_string_pctFree (i : Int) : pctFree (to_string i) = true := by
  unfold to_string pctFree
  split
  · simpa [pfreeL] using natDigits_pfree i.natAbs
  · simpa [pfreeL] using natDigits_pfree i.natAbs

theorem skTypeName_pctFree (t : SkType) : pctFree t.name = true := by
  cases t <;> decide

/-! ### StOk algebra -/

theorem stOk_refl (s : GenState) : StOk s s :=
  ⟨"", [], [], "", by simp, by simp, by simp, by simp, by decide, by decide⟩

theorem stOk_trans {a b c : GenState} (h1 : StOk a b) (h2 : StOk b c) : StOk a c := by
  obtain ⟨o1, a1, e1, f1, ho1, ha1, he1, hf1, hc1, hp1⟩ := h1
  obtain ⟨o2, a2, e2, f2, ho2, ha2, he2, hf2, hc2, hp2⟩ := h2
  refine ⟨o1 ++ o2, a1 ++ a2, e1 ++ e2, f1 ++ f2, ?_, ?_, ?_, ?_, ?_, ?_⟩
  · rw [ho2, ho1, String.append_assoc]
  · rw [ha2, ha1, List.append_assoc]
  · rw [he2, he1, List.append_assoc]
  · rw [hf2, hf1, String.append_assoc]
  · have := cleanCount_append hc1 hc2
    simpa [List.length_append, Nat.add_assoc, Nat.add_left_comm] using this
  · exact pctFree_append hp1 hp2

theorem stOk_build {s t : GenState} (dOut : String) (dArgs : List String)
    (dErrs : List (Int × String)) (dHdr : String)
    (h1 : t.out = s.out ++ dOut) (h2 : t.formatArgs = s.formatArgs ++ dArgs)
    (h3 : t.errors = s.errors ++ dErrs) (h4 : t.functionHeader = s.functionHeader ++ dHdr)
    (h5 : cleanCount dOut (dArgs.length + dErrs.length)) (h6 : pctFree dHdr = true) :
    StOk s t := ⟨dOut, dArgs, dErrs, dHdr, h1, h2, h3, h4, h5, h6⟩

/-- Writing percent-free text preserves the balance. -/
theorem stOk_write {s : GenState} (t : String) (h : pctFree t = true) :
    StOk s (stWrite s t) :=
  stOk_build t [] [] "" rfl (by simp [stWrite]) (by simp [stWrite]) (by simp [stWrite])
    (by simpa using cleanCount_pctFree h) (by decide)

/-- A one-directive chunk paired with one pushed argument. -/
theorem stOk_write_arg {s : GenState} (t a : String) (h : cleanCount t 1) :
    StOk s (stPushArg (stWrite s t) a) :=
  stOk_build t [a] [] "" (by simp [stWrite, stPushArg]) (by simp [stWrite, stPushArg])
    (by simp [stWrite, stPushArg]) (by simp [stWrite, stPushArg]) (by simpa using h)
    (by decide)

/-- The index-error paths: a dangling `%s` paired with one reported
error. -/
theorem stOk_write_err {s : GenState} (off : Int) (msg : String) :
    StOk s (stError (stWrite s "%s") off msg) :=
  stOk_build "%s" ([] : List String) [(off, msg)] "" (by simp [stWrite, stError])
    (by simp [stWrite, stError]) (by simp [stWrite, stError])
    (by simp [stWrite, stError])
    (by have h1 : cleanCount "%s" 1 := by decide
        simpa using h1)
    (by decide)

/-- Writing a directive-free chunk (possibly containing escaped `%%`). -/
theorem stOk_write0 {s : GenState} (t : String) (h : cleanCount t 0) :
    StOk s (stWrite s t) :=
  stOk_build t [] [] "" rfl (by simp [stWrite]) (by simp [stWrite]) (by simp [stWrite])
    (by simpa using h) (by decide)

theorem except_bind_ok {α β : Type} (a : α) (f : α → Except String β) :
    (Except.ok a >>= f) = f a := rfl

theorem except_bind_error {α β : Type} (e : String) (f : α → Except String β) :
    ((Except.error e : Except String α) >>= f) = Except.error e := rfl

theorem except_pure {α : Type} (a : α) : (pure a : Except String α) = Except.ok a := rfl

/-! ### Balance of the leaf writers -/

theorem writeRuntimeValue_stOk (type : SkType) (code : String) (s t : GenState)
    (h : writeRuntimeValue type code s = .ok t) : StOk s t := by
  unfold writeRuntimeValue at h
  split at h
  · cases h
    exact stOk_write_arg _ _ (by decide)
  · split at h
    · cases h
      exact stOk_write_arg _ _ (by decide)
    · split at h
      · cases h
        exact stOk_write_arg _ _ (by decide)
      · split at h
        · cases h
          refine stOk_build (type.name ++ "(%f, %f)")
            [code ++ ".fX", code ++ ".fY"] ([] : List (Int × String)) ""
            (by simp [stWrite, stPushArg]) (by simp [stWrite, stPushArg])
            (by simp [stWrite, stPushArg]) (by simp [stWrite, stPushArg]) ?_ (by decide)
          have h2 : cleanCount "(%f, %f)" 2 := by decide
          simpa using cleanCount_append (cleanCount_pctFree (skTypeName_pctFree type)) h2
        · exact absurd h (by simp)

theorem writeVariableReference_stOk (ctx : Ctx) (ref : Variable) (s t : GenState)
    (hn : pctFree ref.name = true) (h : writeVariableReference ctx ref s = .ok t) :
    StOk s t := by
  unfold writeVariableReference at h
  split at h
  · cases h
    exact stOk_write_arg _ _ (by decide)
  · split at h
    · cases h
      exact stOk_write_arg _ _ (by decide)
    · split at h
      · -- sampler-typed reference
        split at h
        · exact absurd h (by simp)
        · cases h
          exact stOk_write_arg _ _ (by decide)
      · split at h
        · -- uniform-flagged reference: whatever the accessor code turns
          -- out to be, the output gains `%s` and one argument.
          split at h
          · exact absurd h (by simp)
          · cases h
            exact stOk_write_arg _ _ (by decide)
        · split at h
          · exact writeRuntimeValue_stOk _ _ _ _ h
          · cases h
            exact stOk_write _ hn

theorem writeSetting_stOk (sname : String) (ty : SkType) (s t : GenState)
    (hn : pctFree sname = true) (h : writeSetting sname ty s = .ok t) : StOk s t := by
  unfold writeSetting at h
  split at h
  · exact writeRuntimeValue_stOk _ _ _ _ h
  · cases h
    exact stOk_write _ hn

/-- The balance invariant composes along a monadic bind. -/
theorem stOk_bind {s t : GenState} {X : Except String GenState}
    {k : GenState → Except String GenState}
    (hX : ∀ b, X = .ok b → StOk s b) (hk : ∀ a b, k a = .ok b → StOk a b)
    (h : (X >>= k) = .ok t) : StOk s t := by
  cases X with
  | error e => rw [except_bind_error] at h; exact absurd h (by simp)
  | ok b => rw [except_bind_ok] at h; exact stOk_trans (hX b rfl) (hk b t h)

/-- Balance of the parenthesize-left-separator-right shape shared by the
binary-expression writers. -/
theorem stOk_binShape {s t : GenState} (c : Prop) [Decidable c] (sep : String)
    (hsep : cleanCount sep 0) (wl wr : GenState → Except String GenState)
    (IHl : ∀ a b, wl a = .ok b → StOk a b) (IHr : ∀ a b, wr a = .ok b → StOk a b)
    (h : (wl (if c then stWrite s "(" else s) >>= fun s1 =>
          wr (stWrite s1 sep) >>= fun s2 =>
          Except.ok (if c then stWrite s2 ")" else s2)) = .ok t) : StOk s t := by
  refine stOk_bind (fun b hb => ?_) (fun a b hab => ?_) h
  · refine stOk_trans ?_ (IHl _ b hb)
    split
    · exact stOk_write0 _ (by decide)
    · exact stOk_refl _
  · refine stOk_bind (fun b2 hb2 => ?_) (fun a2 b2 hab2 => ?_) hab
    · exact stOk_trans (stOk_write0 _ hsep) (IHr _ _ hb2)
    · cases hab2
      split
      · exact stOk_write0 _ (by decide)
      · exact stOk_refl _

/-- Balance of the generic `base[index]` fallthrough shape. -/
theorem stOk_idxShape {s t : GenState} (wb wi : GenState → Except String GenState)
    (IHb : ∀ a b, wb a = .ok b → StOk a b) (IHi : ∀ a b, wi a = .ok b → StOk a b)
    (h : (wb s >>= fun s1 =>
          wi (stWrite s1 "[") >>= fun s2 =>
          Except.ok (stWrite s2 "]")) = .ok t) : StOk s t := by
  refine stOk_bind (fun b hb => IHb _ b hb) (fun a b hab => ?_) h
  refine stOk_bind (fun b2 hb2 => stOk_trans (stOk_write0 _ (by decide)) (IHi _ _ hb2))
    (fun a2 b2 hab2 => ?_) hab
  cases hab2
  exact stOk_write0 _ (by decide)

theorem Expr.sz_pos (e : Expr) : 0 < e.sz := by
  cases e <;> simp only [Expr.sz] <;> omega

theorem ExprList.szL_pos (args : ExprList) : 0 < args.szL := by
  cases args <;> simp only [ExprList.szL] <;> omega

/-- Joint balance invariant for all expression writers, by strong
induction on the structural size. -/
theorem stOkAll : ∀ n : Nat,
    (∀ (ctx : Ctx) (e : Expr) (prec : Nat) (s t : GenState), e.sz ≤ n →
       e.pfree = true → writeExpression ctx e prec s = .ok t → StOk s t) ∧
    (∀ (ctx : Ctx) (op : Operator) (l r : Expr) (prec : Nat) (s t : GenState),
       l.sz + r.sz ≤ n → l.pfree = true → r.pfree = true →
       writeBinaryExpression ctx op l r prec s = .ok t → StOk s t) ∧
    (∀ (ctx : Ctx) (base idx : Expr) (s t : GenState),
       base.sz + idx.sz ≤ n → base.pfree = true → idx.pfree = true →
       writeIndexExpression ctx base idx s = .ok t → StOk s t) ∧
    (∀ (ctx : Ctx) (builtin : Bool) (fname : String) (args : ExprList) (s t : GenState),
       args.szL ≤ n → pctFree fname = true → args.pfreeList = true →
       writeFunctionCall ctx builtin fname args s = .ok t → StOk s t) ∧
    (∀ (ctx : Ctx) (args : ExprList) (first : Bool) (s t : GenState),
       args.szL ≤ n → args.pfreeList = true →
       writeCallArgs ctx args first s = .ok t → StOk s t) := by
  intro n
  induction n with
  | zero =>
    refine ⟨fun ctx e prec s t hle _ _ => ?_, fun ctx op l r prec s t hle _ _ _ => ?_,
      fun ctx base idx s t hle _ _ _ => ?_, fun ctx builtin fname args s t hle _ _ _ => ?_,
      fun ctx args first s t hle _ _ => ?_⟩
    · exact absurd hle (by have := Expr.sz_pos e; omega)
    · exact absurd hle (by have := Expr.sz_pos l; omega)
    · exact absurd hle (by have := Expr.sz_pos base; omega)
    · exact absurd hle (by have := ExprList.szL_pos args; omega)
    · exact absurd hle (by have := ExprList.szL_pos args; omega)
  | succ n ih =>
    obtain ⟨ihE, _, _, _, ihA⟩ := ih
    -- binary expressions
    have hB : ∀ (ctx : Ctx) (op : Operator) (l r : Expr) (prec : Nat) (s t : GenState),
        l.sz + r.sz ≤ n + 1 → l.pfree = true → r.pfree = true →
        writeBinaryExpression ctx op l r prec s = .ok t → StOk s t := by
      intro ctx op l r prec s t hle hl hr h
      have hlp := Expr.sz_pos l
      have hrp := Expr.sz_pos r
      unfold writeBinaryExpression at h
      split at h
      · exact stOk_binShape _ " %% " (by decide) _ _
          (fun a b hab => ihE ctx l _ a b (by omega) hl hab)
          (fun a b hab => ihE ctx r _ a b (by omega) hr hab) h
      · cases op with
        | percent => simp_all
        | plus =>
          exact stOk_binShape _ _ (by decide) _ _
            (fun a b hab => ihE ctx l _ a b (by omega) hl hab)
            (fun a b hab => ihE ctx r _ a b (by omega) hr hab) h
        | minus =>
          exact stOk_binShape _ _ (by decide) _ _
            (fun a b hab => ihE ctx l _ a b (by omega) hl hab)
            (fun a b hab => ihE ctx r _ a b (by omega) hr hab) h
        | star =>
          exact stOk_binShape _ _ (by decide) _ _
            (fun a b hab => ihE ctx l _ a b (by omega) hl hab)
            (fun a b hab => ihE ctx r _ a b (by omega) hr hab) h
        | slash =>
          exact stOk_binShape _ _ (by decide) _ _
            (fun a b hab => ihE ctx l _ a b (by omega) hl hab)
            (fun a b hab => ihE ctx r _ a b (by omega) hr hab) h
    -- index expressions
    have hI : ∀ (ctx : Ctx) (base idx : Expr) (s t : GenState),
        base.sz + idx.sz ≤ n + 1 → base.pfree = true → idx.pfree = true →
        writeIndexExpression ctx base idx s = .ok t → StOk s t := by
      intro ctx base idx s t hle hb hi h
      have hbp := Expr.sz_pos base
      have hip := Expr.sz_pos idx
      unfold writeIndexExpression at h
      split at h
      · -- base is a variable reference
        split at h
        · -- transformed-coordinates builtin
          split at h
          · cases h
            exact stOk_write_err _ _
          · split at h
            · cases h
              exact stOk_write_arg _ _ (by decide)
            · cases h
              refine stOk_build "%s"
                ["sk_TransformedCoords2D_" ++ to_string idx.intLitValue ++ ".c_str()"]
                ([] : List (Int × String)) "" ?_ ?_ ?_ ?_ ?_ (by decide)
              · simp [stWrite, stPushArg]
              · simp [stWrite, stPushArg]
              · simp [stWrite, stPushArg]
              · simp [stWrite, stPushArg]
              · have h1 : cleanCount "%s" 1 := by decide
                simpa using h1
        · split at h
          · -- texture-samplers builtin
            split at h
            · cases h
              exact stOk_write_err _ _
            · cases h
              exact stOk_write_arg _ _ (by decide)
          · exact stOk_idxShape _ _
              (fun a b hab => ihE ctx base _ a b (by omega) hb hab)
              (fun a b hab => ihE ctx idx _ a b (by omega) hi hab) h
      · exact stOk_idxShape _ _
          (fun a b hab => ihE ctx base _ a b (by omega) hb hab)
          (fun a b hab => ihE ctx idx _ a b (by omega) hi hab) h
    -- call-argument lists
    have hA : ∀ (ctx : Ctx) (args : ExprList) (first : Bool) (s t : GenState),
        args.szL ≤ n + 1 → args.pfreeList = true →
        writeCallArgs ctx args first s = .ok t → StOk s t := by
      intro ctx args first s t hle ha h
      cases args with
      | nil =>
        simp only [writeCallArgs] at h
        cases h
        exact stOk_refl _
      | cons e rest =>
        simp only [ExprList.szL] at hle
        simp only [ExprList.pfreeList, Bool.and_eq_true] at ha
        simp only [writeCallArgs] at h
        refine stOk_bind (fun b hb => ?_)
          (fun a b hab => ihA ctx rest false a b (by omega) ha.2 hab) h
        refine stOk_trans ?_ (ihE ctx e _ _ b (by omega) ha.1 hb)
        split
        · exact stOk_refl _
        · exact stOk_write0 ", " (by decide)
    -- function calls
    have hC : ∀ (ctx : Ctx) (builtin : Bool) (fname : String) (args : ExprList)
        (s t : GenState), args.szL ≤ n + 1 → pctFree fname = true →
        args.pfreeList = true → writeFunctionCall ctx builtin fname args s = .ok t →
        StOk s t := by
      intro ctx builtin fname args s t hle hf ha h
      unfold writeFunctionCall at h
      split at h
      · -- COLORSPACE rewrite
        split at h
        · rename_i arg0 arg1
          simp only [ExprList.szL] at hle
          simp only [ExprList.pfreeList, Bool.and_eq_true] at ha
          refine stOk_bind (fun b hb => ?_) (fun a b hab => ?_) h
          · refine stOk_trans ?_ (ihE ctx arg0 _ _ b (by omega) ha.1 hb)
            refine stOk_build "%s"
              ["fColorSpaceHelper.isValid() ? \"(" ++
                ("_tmpVar" ++ to_string (Int.ofNat (s.varCount + 1))) ++ " = \" : \"\""]
              ([] : List (Int × String))
              ("half4 " ++ ("_tmpVar" ++ to_string (Int.ofNat (s.varCount + 1))) ++ ";")
              ?_ ?_ ?_ ?_ ?_ ?_
            · simp [stWrite, stPushArg]
            · simp [stWrite, stPushArg]
            · simp [stWrite, stPushArg]
            · simp [stWrite, stPushArg]
            · have h1 : cleanCount "%s" 1 := by decide
              simpa using h1
            · exact pctFree_append (pctFree_append (by decide)
                (pctFree_append (by decide) (to_string_pctFree _))) (by decide)
          · split at hab
            · cases hab
              exact stOk_write_arg _ _ (by decide)
            · exact absurd hab (by simp)
        · exact absurd h (by simp)
      · -- generic call, possibly followed by the texture-sampler suffix
        refine stOk_bind (fun b hb => ?_) (fun a b hab => ?_) h
        · exact stOk_trans (stOk_write _ (pctFree_append hf (by decide)))
            (hA ctx args true _ b hle ha hb)
        · split at hab
          · split at hab
            · split at hab
              · split at hab
                · exact absurd hab (by simp)
                · cases hab
                  exact stOk_trans (stOk_write0 ")" (by decide))
                    (stOk_write_arg ".%s" _ (by decide))
              · exact absurd hab (by simp)
            · exact absurd hab (by simp)
          · cases hab
            exact stOk_write0 ")" (by decide)
    -- the dispatch
    have hE : ∀ (ctx : Ctx) (e : Expr) (prec : Nat) (s t : GenState), e.sz ≤ n + 1 →
        e.pfree = true → writeExpression ctx e prec s = .ok t → StOk s t := by
      intro ctx e prec s t hle hw h
      cases e with
      | intLit off v =>
        simp only [writeExpression] at h
        cases h
        unfold writeIntLiteral
        exact stOk_write _ (to_string_pctFree _)
      | varRef off v =>
        simp only [writeExpression] at h
        simp only [Expr.pfree] at hw
        exact writeVariableReference_stOk ctx v s t hw h
      | setting off sname ty =>
        simp only [writeExpression] at h
        simp only [Expr.pfree] at hw
        exact writeSetting_stOk sname ty s t hw h
      | bin off op l r =>
        simp only [writeExpression] at h
        simp only [Expr.pfree, Bool.and_eq_true] at hw
        simp only [Expr.sz] at hle
        exact hB ctx op l r prec s t (by omega) hw.1 hw.2 h
      | index off base idx =>
        simp only [writeExpression] at h
        simp only [Expr.pfree, Bool.and_eq_true] at hw
        simp only [Expr.sz] at hle
        exact hI ctx base idx s t (by omega) hw.1 hw.2 h
      | call off builtin fname args =>
        simp only [writeExpression] at h
        simp only [Expr.pfree, Bool.and_eq_true] at hw
        simp only [Expr.sz] at hle
        exact hC ctx builtin fname args s t (by omega) hw.1 hw.2 h
    exact ⟨hE, hB, hI, hC, hA⟩

/-- Balance of the expression dispatch: a successful write of any
percent-free expression extends the output by a clean chunk whose
directive count matches the appended arguments plus appended errors. -/
theorem writeExpression_stOk (ctx : Ctx) (e : Expr) (prec : Nat) (s t : GenState)
    (hw : e.pfree = true) (h : writeExpression ctx e prec s = .ok t) : StOk s t :=
  (stOkAll e.sz).1 ctx e prec s t le_rfl hw h

theorem writeVarInitializer_stOk (ctx : Ctx) (var : Variable) (value : Expr)
    (s t : GenState) (hv : value.pfree = true)
    (h : writeVarInitializer ctx var value s = .ok t) : StOk s t := by
  unfold writeVarInitializer at h
  split at h
  · exact writeRuntimeValue_stOk _ _ _ _ h
  · exact writeExpression_stOk ctx value _ s t hv h

theorem Stmt.szS_pos (st : Stmt) : 0 < st.szS := by
  cases st <;> simp only [Stmt.szS] <;> omega

theorem StmtList.szSL_pos (sts : StmtList) : 0 < sts.szSL := by
  cases sts <;> simp only [StmtList.szSL] <;> omega

/-- Joint balance invariant for the statement writers. -/
theorem stOkAllStmt : ∀ n : Nat,
    (∀ (ctx : Ctx) (st : Stmt) (s t : GenState), st.szS ≤ n → st.pfree = true →
       writeStatement ctx st s = .ok t → StOk s t) ∧
    (∀ (ctx : Ctx) (sts : StmtList) (s t : GenState), sts.szSL ≤ n →
       sts.pfreeList = true → writeStmtList ctx sts s = .ok t → StOk s t) := by
  intro n
  induction n with
  | zero =>
    refine ⟨fun ctx st s t hle _ _ => ?_, fun ctx sts s t hle _ _ => ?_⟩
    · exact absurd hle (by have := Stmt.szS_pos st; omega)
    · exact absurd hle (by have := StmtList.szSL_pos sts; omega)
  | succ n ih =>
    obtain ⟨ihS, ihL⟩ := ih
    have hS : ∀ (ctx : Ctx) (st : Stmt) (s t : GenState), st.szS ≤ n + 1 →
        st.pfree = true → writeStatement ctx st s = .ok t → StOk s t := by
      intro ctx st s t hle hw h
      cases st with
      | exprStmt e =>
        simp only [Stmt.pfree] at hw
        simp only [writeStatement] at h
        refine stOk_bind (fun b hb => writeExpression_stOk ctx e _ s b hw hb)
          (fun a b hab => ?_) h
        cases hab
        exact stOk_write0 ";" (by decide)
      | block stmts =>
        simp only [Stmt.pfree] at hw
        simp only [Stmt.szS] at hle
        simp only [writeStatement] at h
        refine stOk_bind (fun b hb => ?_) (fun a b hab => ?_) h
        · refine stOk_trans (stOk_trans (stOk_write0 "\x7b" (by decide)) ?_)
            (ihL ctx stmts _ b (by omega) hw hb)
          exact stOk_write0 fLineEnding (by decide)
        · cases hab
          exact stOk_write0 "\x7d" (by decide)
      | ifStmt isStatic cond thenStmt =>
        simp only [Stmt.pfree, Bool.and_eq_true] at hw
        simp only [Stmt.szS] at hle
        simp only [writeStatement] at h
        refine stOk_bind (fun b hb => ?_) (fun a b hab => ?_) h
        · refine stOk_trans (stOk_trans ?_ (stOk_write0 "if (" (by decide)))
            (writeExpression_stOk ctx cond _ _ b hw.1 hb)
          split
          · exact stOk_write0 "@" (by decide)
          · exact stOk_refl _
        · exact stOk_trans (stOk_write0 ") " (by decide))
            (ihS ctx thenStmt _ b (by omega) hw.2 hab)
      | ifElse isStatic cond thenStmt elseStmt =>
        simp only [Stmt.pfree, Bool.and_eq_true] at hw
        simp only [Stmt.szS] at hle
        simp only [writeStatement] at h
        refine stOk_bind (fun b hb => ?_) (fun a b hab => ?_) h
        · refine stOk_trans (stOk_trans ?_ (stOk_write0 "if (" (by decide)))
            (writeExpression_stOk ctx cond _ _ b hw.1.1 hb)
          split
          · exact stOk_write0 "@" (by decide)
          · exact stOk_refl _
        · refine stOk_bind (fun b2 hb2 => ?_) (fun a2 b2 hab2 => ?_) hab
          · exact stOk_trans (stOk_write0 ") " (by decide))
              (ihS ctx thenStmt _ b2 (by omega) hw.1.2 hb2)
          · exact stOk_trans (stOk_write0 " else " (by decide))
              (ihS ctx elseStmt _ b2 (by omega) hw.2 hab2)
      | retVoid =>
        simp only [writeStatement] at h
        cases h
        exact stOk_write0 "return;" (by decide)
      | ret e =>
        simp only [Stmt.pfree] at hw
        simp only [writeStatement] at h
        refine stOk_bind (fun b hb => stOk_trans (stOk_write0 "return " (by decide))
          (writeExpression_stOk ctx e _ _ b hw hb)) (fun a b hab => ?_) h
        cases hab
        exact stOk_write0 ";" (by decide)
      | varDeclStmt v =>
        simp only [Stmt.pfree] at hw
        simp only [writeStatement] at h
        cases h
        refine stOk_write _ ?_
        have hty : pctFree (getTypeName v.type) = true := by
          simpa [getTypeName] using skTypeName_pctFree v.type
        exact pctFree_append (pctFree_append (pctFree_append hty (by decide)) hw)
          (by decide)
      | varDeclInit v value =>
        simp only [Stmt.pfree, Bool.and_eq_true] at hw
        simp only [writeStatement] at h
        refine stOk_bind (fun b hb => ?_) (fun a b hab => ?_) h
        · refine stOk_trans (stOk_write _ ?_) (writeVarInitializer_stOk ctx v value _ b hw.2 hb)
          have hty : pctFree (getTypeName v.type) = true := by
            simpa [getTypeName] using skTypeName_pctFree v.type
          exact pctFree_append (pctFree_append (pctFree_append hty (by decide)) hw.1)
            (by decide)
        · cases hab
          exact stOk_write0 ";" (by decide)
    have hL : ∀ (ctx : Ctx) (sts : StmtList) (s t : GenState), sts.szSL ≤ n + 1 →
        sts.pfreeList = true → writeStmtList ctx sts s = .ok t → StOk s t := by
      intro ctx sts s t hle hw h
      cases sts with
      | nil =>
        simp only [writeStmtList] at h
        cases h
        exact stOk_refl _
      | cons st rest =>
        simp only [StmtList.pfreeList, Bool.and_eq_true] at hw
        simp only [StmtList.szSL] at hle
        simp only [writeStmtList] at h
        refine stOk_bind (fun b hb => hS ctx st s b (by omega) hw.1 hb)
          (fun a b hab => ?_) h
        exact stOk_trans (stOk_write0 fLineEnding (by decide))
          (ihL ctx rest _ b (by omega) hw.2 hab)
    exact ⟨hS, hL⟩

theorem writeStmtList_stOk (ctx : Ctx) (sts : StmtList) (s t : GenState)
    (hw : sts.pfreeList = true) (h : writeStmtList ctx sts s = .ok t) : StOk s t :=
  (stOkAllStmt sts.szSL).2 ctx sts s t le_rfl hw h

/-! ### Element-level balance -/

theorem strEmpty_append (a : String) : "" ++ a = a := rfl

theorem elemOk_refl (s : GenState) : ElemOk s s :=
  ⟨"", [], [], by simp, by simp, by simp, by decide⟩

theorem elemOk_of_stOk {s t : GenState} (h : StOk s t) : ElemOk s t := by
  obtain ⟨o, a, e, f, ho, ha, he, _, hc, _⟩ := h
  exact ⟨o, a, e, ho, ha, he, hc⟩

theorem elemOk_trans {a b c : GenState} (h1 : ElemOk a b) (h2 : ElemOk b c) : ElemOk a c := by
  obtain ⟨o1, a1, e1, ho1, ha1, he1, hc1⟩ := h1
  obtain ⟨o2, a2, e2, ho2, ha2, he2, hc2⟩ := h2
  refine ⟨o1 ++ o2, a1 ++ a2, e1 ++ e2, ?_, ?_, ?_, ?_⟩
  · rw [ho2, ho1, String.append_assoc]
  · rw [ha2, ha1, List.append_assoc]
  · rw [he2, he1, List.append_assoc]
  · have := cleanCount_append hc1 hc2
    simpa [List.length_append, Nat.add_assoc, Nat.add_left_comm] using this

theorem elemOk_bind {s t : GenState} {X : Except String GenState}
    {k : GenState → Except String GenState}
    (hX : ∀ b, X = .ok b → ElemOk s b) (hk : ∀ a b, k a = .ok b → ElemOk a b)
    (h : (X >>= k) = .ok t) : ElemOk s t := by
  cases X with
  | error e => rw [except_bind_error] at h; exact absurd h (by simp)
  | ok b => rw [except_bind_ok] at h; exact elemOk_trans (hX b rfl) (hk b t h)

/-- The buffered-capture shape of the `main` branch of `writeFunction`:
the body goes into a detached buffer, then the accumulated prologue is
flushed followed by the buffer; the prologue is percent-free, so the
element-level balance survives the reordering. -/
theorem mainCapture_elemOk (ctx : Ctx) (body : StmtList) (s t : GenState)
    (hb : body.pfreeList = true)
    (h : (writeStmtList ctx body { s with functionHeader := "", out := "" } >>= fun s2 =>
          Except.ok (stWrite (stWrite { s2 with out := s.out } s2.functionHeader) s2.out))
         = .ok t) : ElemOk s t := by
  cases hs : writeStmtList ctx body { s with functionHeader := "", out := "" } with
  | error e =>
    rw [hs, except_bind_error] at h
    exact absurd h (by simp)
  | ok s2 =>
    rw [hs, except_bind_ok] at h
    cases h
    obtain ⟨Δ, da, de, dh, hout, hargs, herrs, hhdr, hcc, hpf⟩ :=
      writeStmtList_stOk ctx body _ s2 hb hs
    simp only [strEmpty_append] at hout hhdr
    refine ⟨dh ++ Δ, da, de, ?_, ?_, ?_, ?_⟩
    · simp only [stWrite]
      rw [hhdr, hout, String.append_assoc]
    · simpa [stWrite] using hargs
    · simpa [stWrite] using herrs
    · have := cleanCount_append (cleanCount_pctFree hpf) hcc
      simpa using this

theorem writeFunction_elemOk (ctx : Ctx) (fname : String) (body : StmtList)
    (s t : GenState) (hf : pctFree fname = true) (hb : body.pfreeList = true)
    (h : writeFunction ctx fname body s = .ok t) : ElemOk s t := by
  unfold writeFunction at h
  split at h
  · -- the main function: body into a detached buffer
    exact mainCapture_elemOk ctx body s t hb h
  · -- other functions: generic signature plus body, in place
    refine elemOk_of_stOk ?_
    refine stOk_bind (fun b hbk => ?_) (fun a b hab => ?_) h
    · refine stOk_trans (stOk_trans (stOk_write _ (pctFree_append (pctFree_append
        (by decide) hf) (by decide))) (stOk_trans (stOk_write0 "\x7b" (by decide))
        (stOk_write0 fLineEnding (by decide)))) (writeStmtList_stOk ctx body _ b hb hbk)
    · cases hab
      exact stOk_trans (stOk_write0 "\x7d" (by decide)) (stOk_write0 fLineEnding (by decide))

theorem glslWriteVarDeclsLoop_stOk (ctx : Ctx) (decls : List (Variable × Option Expr))
    (s t : GenState) (hw : decls.all declPairPfree = true)
    (h : glslWriteVarDeclsLoop ctx decls s = .ok t) : StOk s t := by
  induction decls generalizing s t with
  | nil =>
    simp only [glslWriteVarDeclsLoop] at h
    cases h
    exact stOk_refl _
  | cons pr rest ih =>
    obtain ⟨v, initv⟩ := pr
    simp only [List.all_cons, Bool.and_eq_true] at hw
    simp only [declPairPfree, Bool.and_eq_true] at hw
    have hty : pctFree (getTypeName v.type) = true := by
      simpa [getTypeName] using skTypeName_pctFree v.type
    have hpre : pctFree (getTypeName v.type ++ " " ++ v.name) = true :=
      pctFree_append (pctFree_append hty (by decide)) hw.1.1
    cases initv with
    | some value =>
      simp only [glslWriteVarDeclsLoop] at h
      refine stOk_bind (fun b hbk => ?_) (fun a b hab => ?_) h
      · refine stOk_trans (stOk_trans (stOk_write _ hpre) (stOk_write0 " = " (by decide)))
          (writeVarInitializer_stOk ctx v value _ b ?_ hbk)
        simpa using hw.1.2
      · exact stOk_trans (stOk_trans (stOk_write0 ";" (by decide))
          (stOk_write0 fLineEnding (by decide))) (ih _ _ hw.2 hab)
    | none =>
      simp only [glslWriteVarDeclsLoop, except_pure, except_bind_ok] at h
      exact stOk_trans (stOk_trans (stOk_trans (stOk_write _ hpre)
        (stOk_write0 ";" (by decide))) (stOk_write0 fLineEnding (by decide)))
        (ih _ _ hw.2 h)

theorem writeProgramElement_elemOk (ctx : Ctx) (pe : ProgramElement) (s t : GenState)
    (hw : pe.pfree = true) (h : writeProgramElement ctx pe s = .ok t) : ElemOk s t := by
  cases pe with
  | sectionElem n a txt =>
    simp only [writeProgramElement] at h
    cases h
    exact elemOk_refl _
  | varDecls decls =>
    simp only [ProgramElement.pfree] at hw
    cases decls with
    | nil =>
      simp only [writeProgramElement] at h
      cases h
      exact elemOk_refl _
    | cons pr rest =>
      simp only [writeProgramElement] at h
      split at h
      · cases h
        exact elemOk_refl _
      · exact elemOk_of_stOk (glslWriteVarDeclsLoop_stOk ctx _ s t hw h)
  | functionDef fname body =>
    simp only [ProgramElement.pfree, Bool.and_eq_true] at hw
    simp only [writeProgramElement] at h
    exact writeFunction_elemOk ctx fname body s t hw.1 hw.2 h

theorem glslGenerateCodeLoop_elemOk (ctx : Ctx) (elems : List ProgramElement)
    (s t : GenState) (hw : elems.all ProgramElement.pfree = true)
    (h : glslGenerateCodeLoop ctx elems s = .ok t) : ElemOk s t := by
  induction elems generalizing s t with
  | nil =>
    simp only [glslGenerateCodeLoop] at h
    cases h
    exact elemOk_refl _
  | cons pe rest ih =>
    simp only [List.all_cons, Bool.and_eq_true] at hw
    simp only [glslGenerateCodeLoop] at h
    exact elemOk_bind (fun b hbk => writeProgramElement_elemOk ctx pe s b hw.1 hbk)
      (fun a b hab => ih _ _ hw.2 hab) h

/-- The balance of the whole buffered main-body capture: the number of
printf directives in the captured text equals the number of format
arguments appended during the capture plus the number of errors reported
during it. -/
theorem emitMainBody_balance (ctx : Ctx) (s : GenState)
    (hw : ctx.program.pfree = true) (r : Bool × String × GenState)
    (h : emitMainBody ctx s = .ok r) :
    ∃ da de, r.2.2.formatArgs = s.formatArgs ++ da ∧ r.2.2.errors = s.errors ++ de ∧
      specCount r.2.1 = da.length + de.length := by
  unfold emitMainBody at h
  cases hl : glslGenerateCodeLoop ctx ctx.program.elements { s with out := "" } with
  | error e =>
    rw [hl] at h
    exact absurd h (by simp)
  | ok s2 =>
    rw [hl] at h
    cases h
    obtain ⟨Δ, da, de, hout, hargs, herrs, hcc⟩ :=
      glslGenerateCodeLoop_elemOk ctx _ _ s2 hw hl
    refine ⟨da, de, ?_, ?_, ?_⟩
    · simpa using hargs
    · simpa using herrs
    · have h2 : s2.out = Δ := by simpa [strEmpty_append] using hout
      simp only [specCount, h2]
      exact hcc.2


/-! ### Trace algebra and printf rendering -/

theorem traceDef_append (a b : List EmitItem) :
    traceDef (a ++ b) = traceDef a ++ traceDef b := by
  induction a with
  | nil => simp [traceDef]
  | cons it rest ih => simp [traceDef, ih, String.append_assoc]

theorem traceInl_append (a b : List EmitItem) :
    traceInl (a ++ b) = traceInl a ++ traceInl b := by
  induction a with
  | nil => simp [traceInl]
  | cons it rest ih => simp [traceInl, ih, String.append_assoc]

theorem traceArgs_append (a b : List EmitItem) :
    traceArgs (a ++ b) = traceArgs a ++ traceArgs b := by
  induction a with
  | nil => simp [traceArgs]
  | cons it rest ih => simp [traceArgs, ih]

theorem traceErrs_append (a b : List EmitItem) :
    traceErrs (a ++ b) = traceErrs a ++ traceErrs b := by
  induction a with
  | nil => simp [traceErrs]
  | cons it rest ih => simp [traceErrs, ih]

theorem traceWf_append (a b : List EmitItem) :
    traceWf (a ++ b) = (traceWf a && traceWf b) := by
  simp [traceWf, List.all_append]

/-- Each well-formed item is a clean chunk whose directive count is its
argument count plus its error count. -/
theorem itemClean (it : EmitItem) (h : it.wfItem = true) :
    cleanCount it.defText (it.argVals.length + it.errVals.length) := by
  cases it with
  | txt t =>
    have ht : pctFree t = true := by simpa [EmitItem.wfItem] using h
    simpa [EmitItem.defText, EmitItem.argVals, EmitItem.errVals]
      using cleanCount_pctFree ht
  | escPct =>
    have : cleanCount "%%" 0 := by decide
    simpa [EmitItem.defText, EmitItem.argVals, EmitItem.errVals] using this
  | arg d v =>
    have hd : ¬ (d = '%') := by simpa [EmitItem.wfItem] using h
    constructor
    · show scanEnd false (String.mk ['%', d]).data = false
      simp [scanEnd]
    · show (specsAux false (String.mk ['%', d]).data).length = _
      simp [specsAux, hd, EmitItem.argVals, EmitItem.errVals]
  | errPh off msg =>
    have : cleanCount "%s" 1 := by decide
    simpa [EmitItem.defText, EmitItem.argVals, EmitItem.errVals] using this

/-- A well-formed trace's deferred text is clean with one directive per
argument or error. -/
theorem traceClean (tr : List EmitItem) (h : traceWf tr = true) :
    cleanCount (traceDef tr) ((traceArgs tr).length + (traceErrs tr).length) := by
  induction tr with
  | nil =>
    have : cleanCount "" 0 := by decide
    simpa [traceDef, traceArgs, traceErrs] using this
  | cons it rest ih =>
    simp only [traceWf, List.all_cons, Bool.and_eq_true] at h
    have h1 := itemClean it h.1
    have h2 := ih (by simpa [traceWf] using h.2)
    have h3 := cleanCount_append h1 h2
    obtain ⟨c1, c2⟩ := h3
    constructor
    · simpa [traceDef] using c1
    · simp only [traceDef, traceArgs, traceErrs, List.length_append] at c2 ⊢
      omega

theorem render_cons_ne (c : Char) (rest : List Char) (args : List String)
    (hc : ¬ (c = '%')) : render (c :: rest) args = c :: render rest args := by
  rcases rest with _ | ⟨c2, rest2⟩ <;> simp [render, hc]

theorem render_pfree_append (t l : List Char) (args : List String)
    (h : pfreeL t = true) : render (t ++ l) args = t ++ render l args := by
  induction t with
  | nil => simp
  | cons c rest ih =>
    simp only [pfreeL, List.all_cons, Bool.and_eq_true] at h
    have hc : ¬ (c = '%') := by simpa using h.1
    rw [List.cons_append, render_cons_ne _ _ _ hc,
      ih (by simpa [pfreeL] using h.2), List.cons_append]

theorem render_esc (l : List Char) (args : List String) :
    render ('%' :: '%' :: l) args = '%' :: render l args := by
  simp [render]

theorem render_dir (d : Char) (l : List Char) (a : String) (args : List String)
    (hd : ¬ (d = '%')) :
    render ('%' :: d :: l) (a :: args) = a.data ++ render l args := by
  simp [render, hd]

/-- The order property of well-formed, error-free traces: printf-style
substitution of the trace's argument list into its deferred text yields
exactly its inline flattening — every argument lands at its own
placeholder, in order. -/
theorem renderTrace (tr : List EmitItem) (hw : traceWf tr = true)
    (he : traceErrs tr = []) :
    render (traceDef tr).data (traceArgs tr) = (traceInl tr).data := by
  induction tr with
  | nil => simp [traceDef, traceInl, traceArgs, render]
  | cons it rest ih =>
    simp only [traceWf, List.all_cons, Bool.and_eq_true] at hw
    have hw2 : traceWf rest = true := by simpa [traceWf] using hw.2
    cases it with
    | txt t =>
      have ht : pctFree t = true := by simpa [EmitItem.wfItem] using hw.1
      have hrest : traceErrs rest = [] := by
        simpa [traceErrs, EmitItem.errVals] using he
      simp only [traceDef, traceInl, traceArgs, EmitItem.defText, EmitItem.inlText,
        EmitItem.argVals, String.data_append, List.nil_append]
      rw [render_pfree_append _ _ _ ht, ih hw2 hrest]
    | escPct =>
      have hrest : traceErrs rest = [] := by
        simpa [traceErrs, EmitItem.errVals] using he
      simp only [traceDef, traceInl, traceArgs, EmitItem.defText, EmitItem.inlText,
        EmitItem.argVals, String.data_append, List.nil_append]
      show render ('%' :: '%' :: (traceDef rest).data) (traceArgs rest) =
        '%' :: (traceInl rest).data
      rw [render_esc, ih hw2 hrest]
    | arg d v =>
      have hd : ¬ (d = '%') := by simpa [EmitItem.wfItem] using hw.1
      have hrest : traceErrs rest = [] := by
        simpa [traceErrs, EmitItem.errVals] using he
      simp only [traceDef, traceInl, traceArgs, EmitItem.defText, EmitItem.inlText,
        EmitItem.argVals, String.data_append, List.cons_append, List.nil_append]
      show render ('%' :: d :: (traceDef rest).data) (v :: traceArgs rest) =
        v.data ++ (traceInl rest).data
      rw [render_dir _ _ _ _ hd, ih hw2 hrest]
    | errPh off msg =>
      simp [traceErrs, EmitItem.errVals] at he

/-! ### Trace correspondence: builders -/

theorem tcorr_build {s t : GenState} (tr : List EmitItem)
    (h1 : t.out = s.out ++ traceDef tr)
    (h2 : t.formatArgs = s.formatArgs ++ traceArgs tr)
    (h3 : t.errors = s.errors ++ traceErrs tr)
    (h4 : t.needColorSpaceHelper = s.needColorSpaceHelper)
    (h5 : pctFree s.functionHeader = true → pctFree t.functionHeader = true)
    (h6 : traceWf tr = true) : TCorr tr s t := ⟨h1, h2, h3, h4, h5, h6⟩

theorem tcorr_nil (s : GenState) : TCorr [] s s :=
  tcorr_build [] (by simp [traceDef]) (by simp [traceArgs]) (by simp [traceErrs])
    rfl (fun h => h) (by decide)

theorem tcorr_trans {tr1 tr2 : List EmitItem} {a b c : GenState}
    (h1 : TCorr tr1 a b) (h2 : TCorr tr2 b c) : TCorr (tr1 ++ tr2) a c := by
  obtain ⟨o1, a1, e1, n1, f1, w1⟩ := h1
  obtain ⟨o2, a2, e2, n2, f2, w2⟩ := h2
  refine tcorr_build _ ?_ ?_ ?_ ?_ ?_ ?_
  · rw [traceDef_append, o2, o1, String.append_assoc]
  · rw [traceArgs_append, a2, a1, List.append_assoc]
  · rw [traceErrs_append, e2, e1, List.append_assoc]
  · rw [n2, n1]
  · exact fun h => f2 (f1 h)
  · simp [traceWf_append, w1, w2, traceWf]
    constructor
    · simpa [traceWf] using w1
    · simpa [traceWf] using w2

theorem tcorr_txt {s : GenState} (t : String) (h : pctFree t = true) :
    TCorr [.txt t] s (stWrite s t) :=
  tcorr_build _ (by simp [stWrite, traceDef, EmitItem.defText])
    (by simp [stWrite, traceArgs, EmitItem.argVals])
    (by simp [stWrite, traceErrs, EmitItem.errVals]) (by simp [stWrite])
    (by simp [stWrite])
    (by simp [traceWf, EmitItem.wfItem, h])

theorem tcorr_arg {s : GenState} (d : Char) (dirStr v : String)
    (hd : (d == '%') = false) (hts : (String.mk ['%', d] : String) = dirStr) :
    TCorr [.arg d v] s (stPushArg (stWrite s dirStr) v) :=
  tcorr_build _
    (by simp [stWrite, stPushArg, traceDef, EmitItem.defText, hts])
    (by simp [stWrite, stPushArg, traceArgs, EmitItem.argVals])
    (by simp [stWrite, stPushArg, traceErrs, EmitItem.errVals])
    (by simp [stWrite, stPushArg])
    (by simp [stWrite, stPushArg])
    (by simp [traceWf, EmitItem.wfItem, hd])

theorem tcorr_err {s : GenState} (off : Int) (msg : String) :
    TCorr [.errPh off msg] s (stError (stWrite s "%s") off msg) :=
  tcorr_build _
    (by simp [stWrite, stError, traceDef, EmitItem.defText])
    (by simp [stWrite, stError, traceArgs, EmitItem.argVals])
    (by simp [stWrite, stError, traceErrs, EmitItem.errVals])
    (by simp [stWrite, stError])
    (by simp [stWrite, stError])
    (by simp [traceWf, EmitItem.wfItem])


/-! ### Trace correspondence: leaf writers -/

theorem writeRuntimeValue_tcorr (type : SkType) (code : String) (s t : GenState)
    (h : writeRuntimeValue type code s = .ok t) :
    ∃ tr, writeRuntimeValueTrace type code = .ok tr ∧ TCorr tr s t ∧
      t.varCount = s.varCount ∧ t.functionHeader = s.functionHeader := by
  unfold writeRuntimeValue at h
  unfold writeRuntimeValueTrace
  split at h
  · rename_i hf
    rw [if_pos hf]
    cases h
    exact ⟨_, rfl, tcorr_arg 'f' "%f" code (by decide) rfl,
      by simp [stWrite, stPushArg], by simp [stWrite, stPushArg]⟩
  · rename_i hf
    rw [if_neg hf]
    split at h
    · rename_i hi
      rw [if_pos hi]
      cases h
      exact ⟨_, rfl, tcorr_arg 'd' "%d" code (by decide) rfl,
        by simp [stWrite, stPushArg], by simp [stWrite, stPushArg]⟩
    · rename_i hi
      rw [if_neg hi]
      split at h
      · rename_i hb
        rw [if_pos hb]
        cases h
        exact ⟨_, rfl, tcorr_arg 's' "%s" _ (by decide) rfl,
          by simp [stWrite, stPushArg], by simp [stWrite, stPushArg]⟩
      · rename_i hb
        rw [if_neg hb]
        split at h
        · rename_i h2
          rw [if_pos h2]
          cases h
          refine ⟨_, rfl, tcorr_build _ ?_ ?_ ?_ ?_ ?_ ?_,
            by simp [stWrite, stPushArg], by simp [stWrite, stPushArg]⟩
          · simp [stWrite, stPushArg, traceDef, EmitItem.defText, String.append_assoc]
          · simp [stWrite, stPushArg, traceArgs, EmitItem.argVals]
          · simp [stWrite, stPushArg, traceErrs, EmitItem.errVals]
          · simp [stWrite, stPushArg]
          · simp [stWrite, stPushArg]
          · have hpa : pctFree (type.name ++ "(") = true :=
              pctFree_append (skTypeName_pctFree type) (by decide)
            simp [traceWf, EmitItem.wfItem, hpa]
            exact ⟨by decide, by decide⟩
        · exact absurd h (by simp)

theorem writeVariableReference_tcorr (ctx : Ctx) (ref : Variable) (s t : GenState)
    (hn : pctFree ref.name = true) (h : writeVariableReference ctx ref s = .ok t) :
    ∃ tr, writeVariableReferenceTrace ctx ref s.needColorSpaceHelper = .ok tr ∧
      TCorr tr s t ∧ t.varCount = s.varCount ∧ t.functionHeader = s.functionHeader := by
  unfold writeVariableReference at h
  unfold writeVariableReferenceTrace
  split at h
  · rename_i hc
    rw [if_pos hc]
    cases h
    exact ⟨_, rfl, tcorr_arg 's' "%s" _ (by decide) rfl,
      by simp [stWrite, stPushArg], by simp [stWrite, stPushArg]⟩
  · rename_i hc
    rw [if_neg hc]
    split at h
    · rename_i hc2
      rw [if_pos hc2]
      cases h
      exact ⟨_, rfl, tcorr_arg 's' "%s" _ (by decide) rfl,
        by simp [stWrite, stPushArg], by simp [stWrite, stPushArg]⟩
    · rename_i hc2
      rw [if_neg hc2]
      split at h
      · rename_i hc3
        rw [if_pos hc3]
        split at h
        · exact absurd h (by simp)
        · rename_i handle hgs
          cases h
          exact ⟨_, rfl, tcorr_arg 's' "%s" _ (by decide) rfl,
            by simp [stWrite, stPushArg], by simp [stWrite, stPushArg]⟩
      · rename_i hc3
        rw [if_neg hc3]
        split at h
        · rename_i hu
          rw [if_pos hu]
          split at h
          · exact absurd h (by simp)
          · rename_i code hac
            cases h
            exact ⟨_, rfl, tcorr_arg 's' "%s" _ (by decide) rfl,
              by simp [stWrite, stPushArg], by simp [stWrite, stPushArg]⟩
        · rename_i hu
          rw [if_neg hu]
          split at h
          · rename_i hp
            rw [if_pos hp]
            exact writeRuntimeValue_tcorr _ _ _ _ h
          · rename_i hp
            rw [if_neg hp]
            cases h
            exact ⟨_, rfl, tcorr_txt _ hn, by simp [stWrite], by simp [stWrite]⟩

theorem writeSetting_tcorr (sname : String) (ty : SkType) (s t : GenState)
    (hn : pctFree sname = true) (h : writeSetting sname ty s = .ok t) :
    ∃ tr, writeSettingTrace sname ty = .ok tr ∧ TCorr tr s t ∧
      t.varCount = s.varCount ∧ t.functionHeader = s.functionHeader := by
  unfold writeSetting at h
  unfold writeSettingTrace
  split at h
  · rename_i hp
    rw [if_pos hp]
    exact writeRuntimeValue_tcorr _ _ _ _ h
  · rename_i hp
    rw [if_neg hp]
    cases h
    exact ⟨_, rfl, tcorr_txt _ hn, by simp [stWrite], by simp [stWrite]⟩

/-! ### Trace correspondence: composition shapes -/

theorem tcorr_binShape {s t : GenState} (c : Prop) [Decidable c] (sep : String)
    (sepTr : List EmitItem) (hsD : traceDef sepTr = sep) (hsA : traceArgs sepTr = [])
    (hsE : traceErrs sepTr = []) (hsW : traceWf sepTr = true)
    (wl wr : GenState → Except String GenState)
    (wlT wrT : Nat → String → Except String (List EmitItem × Nat × String))
    (IHl : ∀ a b, a.needColorSpaceHelper = s.needColorSpaceHelper → wl a = .ok b →
        ∃ tr, wlT a.varCount a.functionHeader
        = .ok (tr, b.varCount, b.functionHeader) ∧ TCorr tr a b)
    (IHr : ∀ a b, a.needColorSpaceHelper = s.needColorSpaceHelper → wr a = .ok b →
        ∃ tr, wrT a.varCount a.functionHeader
        = .ok (tr, b.varCount, b.functionHeader) ∧ TCorr tr a b)
    (h : (wl (if c then stWrite s "(" else s) >>= fun s1 =>
          wr (stWrite s1 sep) >>= fun s2 =>
          Except.ok (if c then stWrite s2 ")" else s2)) = .ok t) :
    ∃ ltr vc1 hdr1 rtr,
      wlT s.varCount s.functionHeader = .ok (ltr, vc1, hdr1) ∧
      wrT vc1 hdr1 = .ok (rtr, t.varCount, t.functionHeader) ∧
      TCorr ((if c then [EmitItem.txt "("] else []) ++ (ltr ++ (sepTr ++ (rtr ++
        (if c then [EmitItem.txt ")"] else []))))) s t := by
  cases hl : wl (if c then stWrite s "(" else s) with
  | error e =>
    rw [hl, except_bind_error] at h
    exact absurd h (by simp)
  | ok s1 =>
    rw [hl, except_bind_ok] at h
    cases hr : wr (stWrite s1 sep) with
    | error e =>
      rw [hr, except_bind_error] at h
      exact absurd h (by simp)
    | ok s2 =>
      rw [hr, except_bind_ok] at h
      cases h
      have en1 : (if c then stWrite s "(" else s).needColorSpaceHelper =
          s.needColorSpaceHelper := by
        split <;> simp [stWrite]
      obtain ⟨ltr, hlT, hlC⟩ := IHl _ _ en1 hl
      have en2 : (stWrite s1 sep).needColorSpaceHelper = s.needColorSpaceHelper := by
        rw [show (stWrite s1 sep).needColorSpaceHelper = s1.needColorSpaceHelper
          from by simp [stWrite], hlC.2.2.2.1, en1]
      obtain ⟨rtr, hrT, hrC⟩ := IHr _ _ en2 hr
      have e1 : (if c then stWrite s "(" else s).varCount = s.varCount := by
        split <;> simp [stWrite]
      have e2 : (if c then stWrite s "(" else s).functionHeader = s.functionHeader := by
        split <;> simp [stWrite]
      have e3 : (stWrite s1 sep).varCount = s1.varCount := by simp [stWrite]
      have e4 : (stWrite s1 sep).functionHeader = s1.functionHeader := by simp [stWrite]
      rw [e1, e2] at hlT
      rw [e3, e4] at hrT
      have e5 : (if c then stWrite s2 ")" else s2).varCount = s2.varCount := by
        split <;> simp [stWrite]
      have e6 : (if c then stWrite s2 ")" else s2).functionHeader = s2.functionHeader := by
        split <;> simp [stWrite]
      refine ⟨ltr, s1.varCount, s1.functionHeader, rtr, hlT, ?_, ?_⟩
      · rw [e5, e6]
        exact hrT
      · refine tcorr_trans ?_ (tcorr_trans hlC (tcorr_trans ?_ (tcorr_trans hrC ?_)))
        · by_cases hc : c
          · simp only [if_pos hc]
            exact tcorr_txt "(" (by decide)
          · simp only [if_neg hc]
            exact tcorr_nil s
        · refine tcorr_build sepTr ?_ ?_ ?_ ?_ ?_ hsW
          · simp [stWrite, hsD]
          · simp [stWrite, hsA]
          · simp [stWrite, hsE]
          · simp [stWrite]
          · simp [stWrite]
        · by_cases hc : c
          · simp only [if_pos hc]
            exact tcorr_txt ")" (by decide)
          · simp only [if_neg hc]
            exact tcorr_nil s2

theorem tcorr_idxShape {s t : GenState}
    (wb wi : GenState → Except String GenState)
    (wbT wiT : Nat → String → Except String (List EmitItem × Nat × String))
    (IHb : ∀ a b, a.needColorSpaceHelper = s.needColorSpaceHelper → wb a = .ok b →
        ∃ tr, wbT a.varCount a.functionHeader
        = .ok (tr, b.varCount, b.functionHeader) ∧ TCorr tr a b)
    (IHi : ∀ a b, a.needColorSpaceHelper = s.needColorSpaceHelper → wi a = .ok b →
        ∃ tr, wiT a.varCount a.functionHeader
        = .ok (tr, b.varCount, b.functionHeader) ∧ TCorr tr a b)
    (h : (wb s >>= fun s1 =>
          wi (stWrite s1 "[") >>= fun s2 =>
          Except.ok (stWrite s2 "]")) = .ok t) :
    ∃ btr vc1 hdr1 itr,
      wbT s.varCount s.functionHeader = .ok (btr, vc1, hdr1) ∧
      wiT vc1 hdr1 = .ok (itr, t.varCount, t.functionHeader) ∧
      TCorr (btr ++ ([EmitItem.txt "["] ++ (itr ++ [EmitItem.txt "]"]))) s t := by
  cases hb : wb s with
  | error e =>
    rw [hb, except_bind_error] at h
    exact absurd h (by simp)
  | ok s1 =>
    rw [hb, except_bind_ok] at h
    cases hi : wi (stWrite s1 "[") with
    | error e =>
      rw [hi, except_bind_error] at h
      exact absurd h (by simp)
    | ok s2 =>
      rw [hi, except_bind_ok] at h
      cases h
      obtain ⟨btr, hbT, hbC⟩ := IHb _ _ rfl hb
      have en2 : (stWrite s1 "[").needColorSpaceHelper = s.needColorSpaceHelper := by
        rw [show (stWrite s1 "[").needColorSpaceHelper = s1.needColorSpaceHelper
          from by simp [stWrite], hbC.2.2.2.1]
      obtain ⟨itr, hiT, hiC⟩ := IHi _ _ en2 hi
      have e3 : (stWrite s1 "[").varCount = s1.varCount := by simp [stWrite]
      have e4 : (stWrite s1 "[").functionHeader = s1.functionHeader := by simp [stWrite]
      rw [e3, e4] at hiT
      refine ⟨btr, s1.varCount, s1.functionHeader, itr, hbT, ?_, ?_⟩
      · simpa [stWrite] using hiT
      · exact tcorr_trans hbC (tcorr_trans (tcorr_txt "[" (by decide))
          (tcorr_trans hiC (tcorr_txt "]" (by decide))))


theorem except_bind_inv {α β : Type} {X : Except String α} {k : α → Except String β}
    {t : β} (h : (X >>= k) = .ok t) : ∃ a, X = .ok a ∧ k a = .ok t := by
  cases X with
  | error e => rw [except_bind_error] at h; exact absurd h (by simp)
  | ok a => rw [except_bind_ok] at h; exact ⟨a, rfl, h⟩

theorem mk_ps : (String.mk ['%', 's'] : String) = "%s" := rfl

theorem mk_pf : (String.mk ['%', 'f'] : String) = "%f" := rfl

theorem mk_pd : (String.mk ['%', 'd'] : String) = "%d" := rfl

/-- Joint trace correspondence for all expression writers, by strong
induction on the structural size: a successful write appends exactly the
trace's flattenings and leaves the final counter and prologue of the
trace. -/
theorem tcorrAll : ∀ n : Nat,
    (∀ (ctx : Ctx) (e : Expr) (prec : Nat) (s t : GenState), e.sz ≤ n →
       e.pfree = true → writeExpression ctx e prec s = .ok t →
       ∃ tr, writeExpressionTrace ctx e prec s.needColorSpaceHelper s.varCount
           s.functionHeader = .ok (tr, t.varCount, t.functionHeader) ∧ TCorr tr s t) ∧
    (∀ (ctx : Ctx) (op : Operator) (l r : Expr) (prec : Nat) (s t : GenState),
       l.sz + r.sz ≤ n → l.pfree = true → r.pfree = true →
       writeBinaryExpression ctx op l r prec s = .ok t →
       ∃ tr, writeBinaryExpressionTrace ctx op l r prec s.needColorSpaceHelper
           s.varCount s.functionHeader = .ok (tr, t.varCount, t.functionHeader) ∧
         TCorr tr s t) ∧
    (∀ (ctx : Ctx) (base idx : Expr) (s t : GenState),
       base.sz + idx.sz ≤ n → base.pfree = true → idx.pfree = true →
       writeIndexExpression ctx base idx s = .ok t →
       ∃ tr, writeIndexExpressionTrace ctx base idx s.needColorSpaceHelper
           s.varCount s.functionHeader = .ok (tr, t.varCount, t.functionHeader) ∧
         TCorr tr s t) ∧
    (∀ (ctx : Ctx) (builtin : Bool) (fname : String) (args : ExprList) (s t : GenState),
       args.szL ≤ n → pctFree fname = true → args.pfreeList = true →
       writeFunctionCall ctx builtin fname args s = .ok t →
       ∃ tr, writeFunctionCallTrace ctx builtin fname args s.needColorSpaceHelper
           s.varCount s.functionHeader = .ok (tr, t.varCount, t.functionHeader) ∧
         TCorr tr s t) ∧
    (∀ (ctx : Ctx) (args : ExprList) (first : Bool) (s t : GenState),
       args.szL ≤ n → args.pfreeList = true →
       writeCallArgs ctx args first s = .ok t →
       ∃ tr, writeCallArgsTrace ctx args first s.needColorSpaceHelper
           s.varCount s.functionHeader = .ok (tr, t.varCount, t.functionHeader) ∧
         TCorr tr s t) := by
  intro n
  induction n with
  | zero =>
    refine ⟨fun ctx e prec s t hle _ _ => ?_, fun ctx op l r prec s t hle _ _ _ => ?_,
      fun ctx base idx s t hle _ _ _ => ?_, fun ctx builtin fname args s t hle _ _ _ => ?_,
      fun ctx args first s t hle _ _ => ?_⟩
    · exact absurd hle (by have := Expr.sz_pos e; omega)
    · exact absurd hle (by have := Expr.sz_pos l; omega)
    · exact absurd hle (by have := Expr.sz_pos base; omega)
    · exact absurd hle (by have := ExprList.szL_pos args; omega)
    · exact absurd hle (by have := ExprList.szL_pos args; omega)
  | succ n ih =>
    obtain ⟨ihE, _, _, _, ihA⟩ := ih
    -- binary expressions
    have hB : ∀ (ctx : Ctx) (op : Operator) (l r : Expr) (prec : Nat) (s t : GenState),
        l.sz + r.sz ≤ n + 1 → l.pfree = true → r.pfree = true →
        writeBinaryExpression ctx op l r prec s = .ok t →
        ∃ tr, writeBinaryExpressionTrace ctx op l r prec s.needColorSpaceHelper
            s.varCount s.functionHeader = .ok (tr, t.varCount, t.functionHeader) ∧
          TCorr tr s t := by
      intro ctx op l r prec s t hle hl hr h
      have hlp := Expr.sz_pos l
      have hrp := Expr.sz_pos r
      unfold writeBinaryExpression at h
      unfold writeBinaryExpressionTrace
      split at h
      · rename_i hop
        rw [if_pos hop]
        obtain ⟨ltr, vc1, hdr1, rtr, hlT, hrT, hC⟩ :=
          tcorr_binShape (prec ≤ GetBinaryPrecedence .percent) " %% "
            [EmitItem.txt " ", .escPct, .txt " "] (by decide) (by decide) (by decide)
            (by decide)
            (writeExpression ctx l (GetBinaryPrecedence .percent))
            (writeExpression ctx r (GetBinaryPrecedence .percent))
            (fun vc hdr => writeExpressionTrace ctx l (GetBinaryPrecedence .percent)
              s.needColorSpaceHelper vc hdr)
            (fun vc hdr => writeExpressionTrace ctx r (GetBinaryPrecedence .percent)
              s.needColorSpaceHelper vc hdr)
            (fun a b hans hab => by
              have hres := ihE ctx l (GetBinaryPrecedence .percent) a b (by omega) hl hab
              rwa [hans] at hres)
            (fun a b hans hab => by
              have hres := ihE ctx r (GetBinaryPrecedence .percent) a b (by omega) hr hab
              rwa [hans] at hres)
            h
        refine ⟨_, ?_, hC⟩
        simp only [hlT, hrT]
        simp [List.append_assoc]
      · rename_i hop
        rw [if_neg hop]
        have hopn : pctFree (" " ++ op.opName ++ " ") = true := by
          cases op with
          | percent => exact absurd (by decide) hop
          | plus => decide
          | minus => decide
          | star => decide
          | slash => decide
        obtain ⟨ltr, vc1, hdr1, rtr, hlT, hrT, hC⟩ :=
          tcorr_binShape (prec ≤ GetBinaryPrecedence op) (" " ++ op.opName ++ " ")
            [EmitItem.txt (" " ++ op.opName ++ " ")]
            (by simp [traceDef, EmitItem.defText])
            (by simp [traceArgs, EmitItem.argVals])
            (by simp [traceErrs, EmitItem.errVals])
            (by simp [traceWf, EmitItem.wfItem, hopn])
            (writeExpression ctx l (GetBinaryPrecedence op))
            (writeExpression ctx r (GetBinaryPrecedence op))
            (fun vc hdr => writeExpressionTrace ctx l (GetBinaryPrecedence op)
              s.needColorSpaceHelper vc hdr)
            (fun vc hdr => writeExpressionTrace ctx r (GetBinaryPrecedence op)
              s.needColorSpaceHelper vc hdr)
            (fun a b hans hab => by
              have hres := ihE ctx l (GetBinaryPrecedence op) a b (by omega) hl hab
              rwa [hans] at hres)
            (fun a b hans hab => by
              have hres := ihE ctx r (GetBinaryPrecedence op) a b (by omega) hr hab
              rwa [hans] at hres)
            h
        refine ⟨_, ?_, hC⟩
        simp only [hlT, hrT]
        simp [List.append_assoc]
    -- index expressions
    have hI : ∀ (ctx : Ctx) (base idx : Expr) (s t : GenState),
        base.sz + idx.sz ≤ n + 1 → base.pfree = true → idx.pfree = true →
        writeIndexExpression ctx base idx s = .ok t →
        ∃ tr, writeIndexExpressionTrace ctx base idx s.needColorSpaceHelper
            s.varCount s.functionHeader = .ok (tr, t.varCount, t.functionHeader) ∧
          TCorr tr s t := by
      intro ctx base idx s t hle hbw hiw h
      have hbp := Expr.sz_pos base
      have hip := Expr.sz_pos idx
      unfold writeIndexExpression at h
      unfold writeIndexExpressionTrace
      split at h
      · rename_i hbv
        rw [if_pos hbv]
        split at h
        · rename_i hco
          rw [if_pos hco]
          split at h
          · rename_i hnl
            rw [if_pos hnl]
            cases h
            exact ⟨_, rfl, tcorr_err _ _⟩
          · rename_i hnl
            rw [if_neg hnl]
            split at h
            · cases h
              exact ⟨_, rfl, tcorr_arg 's' "%s" _ (by decide) rfl⟩
            · cases h
              refine ⟨_, rfl, tcorr_build _ ?_ ?_ ?_ ?_ ?_ ?_⟩
              · simp [stWrite, stPushArg, traceDef, EmitItem.defText, mk_ps]
              · simp [stWrite, stPushArg, traceArgs, EmitItem.argVals]
              · simp [stWrite, stPushArg, traceErrs, EmitItem.errVals]
              · simp [stWrite, stPushArg]
              · simp [stWrite, stPushArg]
              · simp [traceWf, EmitItem.wfItem]
        · rename_i hco
          rw [if_neg hco]
          split at h
          · rename_i hts
            rw [if_pos hts]
            split at h
            · rename_i hnl
              rw [if_pos hnl]
              cases h
              exact ⟨_, rfl, tcorr_err _ _⟩
            · rename_i hnl
              rw [if_neg hnl]
              cases h
              exact ⟨_, rfl, tcorr_arg 's' "%s" _ (by decide) rfl⟩
          · rename_i hts
            rw [if_neg hts]
            obtain ⟨btr, vc1, hdr1, itr, hbT, hiT, hC⟩ :=
              tcorr_idxShape
                (writeExpression ctx base kPostfix_Precedence)
                (writeExpression ctx idx kTopLevel_Precedence)
                (fun vc hdr => writeExpressionTrace ctx base kPostfix_Precedence
                  s.needColorSpaceHelper vc hdr)
                (fun vc hdr => writeExpressionTrace ctx idx kTopLevel_Precedence
                  s.needColorSpaceHelper vc hdr)
                (fun a b hans hab => by
                  have hres := ihE ctx base kPostfix_Precedence a b (by omega) hbw hab
                  rwa [hans] at hres)
                (fun a b hans hab => by
                  have hres := ihE ctx idx kTopLevel_Precedence a b (by omega) hiw hab
                  rwa [hans] at hres)
                h
            refine ⟨_, ?_, hC⟩
            simp only [hbT, hiT]
            simp [List.append_assoc]
      · rename_i hbv
        rw [if_neg hbv]
        obtain ⟨btr, vc1, hdr1, itr, hbT, hiT, hC⟩ :=
          tcorr_idxShape
            (writeExpression ctx base kPostfix_Precedence)
            (writeExpression ctx idx kTopLevel_Precedence)
            (fun vc hdr => writeExpressionTrace ctx base kPostfix_Precedence
              s.needColorSpaceHelper vc hdr)
            (fun vc hdr => writeExpressionTrace ctx idx kTopLevel_Precedence
              s.needColorSpaceHelper vc hdr)
            (fun a b hans hab => by
              have hres := ihE ctx base kPostfix_Precedence a b (by omega) hbw hab
              rwa [hans] at hres)
            (fun a b hans hab => by
              have hres := ihE ctx idx kTopLevel_Precedence a b (by omega) hiw hab
              rwa [hans] at hres)
            h
        refine ⟨_, ?_, hC⟩
        simp only [hbT, hiT]
        simp [List.append_assoc]
    -- call-argument lists
    have hA : ∀ (ctx : Ctx) (args : ExprList) (first : Bool) (s t : GenState),
        args.szL ≤ n + 1 → args.pfreeList = true →
        writeCallArgs ctx args first s = .ok t →
        ∃ tr, writeCallArgsTrace ctx args first s.needColorSpaceHelper
            s.varCount s.functionHeader = .ok (tr, t.varCount, t.functionHeader) ∧
          TCorr tr s t := by
      intro ctx args first s t hle ha h
      cases args with
      | nil =>
        simp only [writeCallArgs] at h
        cases h
        unfold writeCallArgsTrace
        exact ⟨_, rfl, tcorr_nil s⟩
      | cons e rest =>
        simp only [ExprList.szL] at hle
        simp only [ExprList.pfreeList, Bool.and_eq_true] at ha
        simp only [writeCallArgs] at h
        unfold writeCallArgsTrace
        obtain ⟨s1, hE, h⟩ := except_bind_inv h
        have en1 : (if first then s else stWrite s ", ").needColorSpaceHelper =
            s.needColorSpaceHelper := by split <;> simp [stWrite]
        have ev1 : (if first then s else stWrite s ", ").varCount = s.varCount := by
          split <;> simp [stWrite]
        have eh1 : (if first then s else stWrite s ", ").functionHeader =
            s.functionHeader := by split <;> simp [stWrite]
        obtain ⟨etr, hET, hEC⟩ := ihE ctx e kSequence_Precedence _ s1 (by omega) ha.1 hE
        rw [en1, ev1, eh1] at hET
        obtain ⟨rtr, hRT, hRC⟩ := ihA ctx rest false s1 t (by omega) ha.2 h
        have en2 : s1.needColorSpaceHelper = s.needColorSpaceHelper := by
          rw [hEC.2.2.2.1, en1]
        rw [en2] at hRT
        refine ⟨(if first then [] else [EmitItem.txt ", "]) ++ (etr ++ rtr), ?_, ?_⟩
        · simp only [hET, hRT]
          simp [List.append_assoc]
        · refine tcorr_trans ?_ (tcorr_trans hEC hRC)
          by_cases hfq : first
          · simp only [if_pos hfq]
            exact tcorr_nil s
          · simp only [if_neg hfq]
            exact tcorr_txt ", " (by decide)
    -- function calls
    have hC : ∀ (ctx : Ctx) (builtin : Bool) (fname : String) (args : ExprList)
        (s t : GenState), args.szL ≤ n + 1 → pctFree fname = true →
        args.pfreeList = true → writeFunctionCall ctx builtin fname args s = .ok t →
        ∃ tr, writeFunctionCallTrace ctx builtin fname args s.needColorSpaceHelper
            s.varCount s.functionHeader = .ok (tr, t.varCount, t.functionHeader) ∧
          TCorr tr s t := by
      intro ctx builtin fname args s t hle hf ha h
      unfold writeFunctionCall at h
      unfold writeFunctionCallTrace
      split at h
      · rename_i hcs
        rw [if_pos hcs]
        split at h
        · rename_i arg0 arg1
          simp only [ExprList.szL] at hle
          simp only [ExprList.pfreeList, Bool.and_eq_true] at ha
          obtain ⟨s3, hA0, h⟩ := except_bind_inv h
          obtain ⟨atr, hAT, hAC⟩ :=
            ihE ctx arg0 kTopLevel_Precedence _ s3 (by omega) ha.1 hA0
          simp only [stWrite, stPushArg] at hAT
          split at h
          · rename_i hk
            cases h
            refine ⟨EmitItem.arg 's'
                ("fColorSpaceHelper.isValid() ? \"(" ++
                 ("_tmpVar" ++ to_string (Int.ofNat (s.varCount + 1))) ++ " = \" : \"\"") ::
              (atr ++ [EmitItem.arg 's'
                ("fColorSpaceHelper.isValid() ? SkStringPrintf(\", half4(clamp((%s * half4("
                 ++ ("_tmpVar" ++ to_string (Int.ofNat (s.varCount + 1))) ++ ".rgb, 1.0)).rgb, 0.0, "
                 ++ ("_tmpVar" ++ to_string (Int.ofNat (s.varCount + 1))) ++ ".a), "
                 ++ ("_tmpVar" ++ to_string (Int.ofNat (s.varCount + 1)))
                 ++ ".a))\", "
                 ++ "args.fUniformHandler->getUniformCStr(fColorSpaceHelper.gamutXformUniform())"
                 ++ ").c_str() : \"\"")]), ?_, ?_⟩
            · simp only [hAT]
              rw [if_pos hk]
              simp [stWrite, stPushArg, List.append_assoc]
            · refine tcorr_trans (tcorr_build [EmitItem.arg 's'
                  ("fColorSpaceHelper.isValid() ? \"(" ++
                   ("_tmpVar" ++ to_string (Int.ofNat (s.varCount + 1))) ++ " = \" : \"\"")]
                  ?_ ?_ ?_ ?_ ?_ ?_)
                (tcorr_trans hAC (tcorr_arg 's' "%s" _ (by decide) rfl))
              · simp [stWrite, stPushArg, traceDef, EmitItem.defText, mk_ps]
              · simp [stWrite, stPushArg, traceArgs, EmitItem.argVals]
              · simp [stWrite, stPushArg, traceErrs, EmitItem.errVals]
              · simp [stWrite, stPushArg]
              · intro hpf
                simp only [stWrite, stPushArg]
                exact pctFree_append hpf (pctFree_append (pctFree_append (by decide)
                  (pctFree_append (by decide) (to_string_pctFree _))) (by decide))
              · simp [traceWf, EmitItem.wfItem]
          · exact absurd h (by simp)
        · exact absurd h (by simp)
      · rename_i hcs
        rw [if_neg hcs]
        obtain ⟨s1, hCA, h⟩ := except_bind_inv h
        obtain ⟨atr, hAT, hAC⟩ := hA ctx args true _ s1 hle ha hCA
        simp only [stWrite] at hAT
        split at h
        · rename_i htex
          split at h
          · rename_i a0 arest
            split at h
            · rename_i hk
              split at h
              · exact absurd h (by simp)
              · rename_i sampler hgs
                cases h
                refine ⟨[EmitItem.txt (fname ++ "(")] ++ (atr ++ [EmitItem.txt ")",
                  .txt ".", .arg 's'
                    ("fragBuilder->getProgramBuilder()->samplerSwizzle(" ++ sampler
                      ++ ").c_str()")]), ?_, ?_⟩
                · simp only [hAT]
                  rw [if_pos htex, if_pos hk]
                  simp [stWrite, stPushArg, List.append_assoc]
                · refine tcorr_trans (tcorr_txt (fname ++ "(")
                    (pctFree_append hf (by decide)))
                    (tcorr_trans hAC (tcorr_build
                      [EmitItem.txt ")", .txt ".", .arg 's'
                        ("fragBuilder->getProgramBuilder()->samplerSwizzle(" ++ sampler
                          ++ ").c_str()")] ?_ ?_ ?_ ?_ ?_ ?_))
                  · simp [stWrite, stPushArg, traceDef, EmitItem.defText, mk_ps,
                      String.append_assoc]
                  · simp [stWrite, stPushArg, traceArgs, EmitItem.argVals]
                  · simp [stWrite, stPushArg, traceErrs, EmitItem.errVals]
                  · simp [stWrite, stPushArg]
                  · simp [stWrite, stPushArg]
                  · simp [traceWf, EmitItem.wfItem]
                    exact ⟨by decide, by decide⟩
            · exact absurd h (by simp)
          · exact absurd h (by simp)
        · rename_i htex
          cases h
          refine ⟨[EmitItem.txt (fname ++ "(")] ++ (atr ++ [EmitItem.txt ")"]), ?_, ?_⟩
          · simp only [hAT]
            rw [if_neg htex]
            simp [stWrite, List.append_assoc]
          · exact tcorr_trans (tcorr_txt (fname ++ "(") (pctFree_append hf (by decide)))
              (tcorr_trans hAC (tcorr_txt ")" (by decide)))
    -- the dispatch
    have hE : ∀ (ctx : Ctx) (e : Expr) (prec : Nat) (s t : GenState), e.sz ≤ n + 1 →
        e.pfree = true → writeExpression ctx e prec s = .ok t →
        ∃ tr, writeExpressionTrace ctx e prec s.needColorSpaceHelper s.varCount
            s.functionHeader = .ok (tr, t.varCount, t.functionHeader) ∧ TCorr tr s t := by
      intro ctx e prec s t hle hw h
      cases e with
      | intLit off v =>
        simp only [writeExpression] at h
        cases h
        simp only [writeExpressionTrace]
        exact ⟨_, rfl, by
          unfold writeIntLiteral
          exact tcorr_txt _ (to_string_pctFree _)⟩
      | varRef off v =>
        simp only [writeExpression] at h
        simp only [Expr.pfree] at hw
        obtain ⟨tr, hT, hC, hv, hh⟩ := writeVariableReference_tcorr ctx v s t hw h
        refine ⟨tr, ?_, hC⟩
        simp only [writeExpressionTrace, hT, hv, hh]
      | setting off sname ty =>
        simp only [writeExpression] at h
        simp only [Expr.pfree] at hw
        obtain ⟨tr, hT, hC, hv, hh⟩ := writeSetting_tcorr sname ty s t hw h
        refine ⟨tr, ?_, hC⟩
        simp only [writeExpressionTrace, hT, hv, hh]
      | bin off op l r =>
        simp only [writeExpression] at h
        simp only [Expr.pfree, Bool.and_eq_true] at hw
        simp only [Expr.sz] at hle
        obtain ⟨tr, hT, hC⟩ := hB ctx op l r prec s t (by omega) hw.1 hw.2 h
        refine ⟨tr, ?_, hC⟩
        simp only [writeExpressionTrace]
        exact hT
      | index off base idx =>
        simp only [writeExpression] at h
        simp only [Expr.pfree, Bool.and_eq_true] at hw
        simp only [Expr.sz] at hle
        obtain ⟨tr, hT, hC⟩ := hI ctx base idx s t (by omega) hw.1 hw.2 h
        refine ⟨tr, ?_, hC⟩
        simp only [writeExpressionTrace]
        exact hT
      | call off builtin fname args =>
        simp only [writeExpression] at h
        simp only [Expr.pfree, Bool.and_eq_true] at hw
        simp only [Expr.sz] at hle
        obtain ⟨tr, hT, hC⟩ := hC ctx builtin fname args s t (by omega) hw.1 hw.2 h
        refine ⟨tr, ?_, hC⟩
        simp only [writeExpressionTrace]
        exact hT
    exact ⟨hE, hB, hI, hC, hA⟩

/-- Trace correspondence of the expression dispatch. -/
theorem writeExpression_tcorr (ctx : Ctx) (e : Expr) (prec : Nat) (s t : GenState)
    (hw : e.pfree = true) (h : writeExpression ctx e prec s = .ok t) :
    ∃ tr, writeExpressionTrace ctx e prec s.needColorSpaceHelper s.varCount
        s.functionHeader = .ok (tr, t.varCount, t.functionHeader) ∧ TCorr tr s t :=
  (tcorrAll e.sz).1 ctx e prec s t le_rfl hw h


theorem writeVarInitializer_tcorr (ctx : Ctx) (var : Variable) (value : Expr)
    (s t : GenState) (hv : value.pfree = true)
    (h : writeVarInitializer ctx var value s = .ok t) :
    ∃ tr, writeVarInitializerTrace ctx var value s.needColorSpaceHelper s.varCount
        s.functionHeader = .ok (tr, t.varCount, t.functionHeader) ∧ TCorr tr s t := by
  unfold writeVarInitializer at h
  unfold writeVarInitializerTrace
  split at h
  · rename_i hp
    rw [if_pos hp]
    obtain ⟨tr, hT, hC, hvc, hhd⟩ := writeRuntimeValue_tcorr _ _ _ _ h
    refine ⟨tr, ?_, hC⟩
    simp only [hT, hvc, hhd]
  · rename_i hp
    rw [if_neg hp]
    exact writeExpression_tcorr ctx value _ s t hv h

/-- Joint trace correspondence for the statement writers. -/
theorem tcorrAllStmt : ∀ n : Nat,
    (∀ (ctx : Ctx) (st : Stmt) (s t : GenState), st.szS ≤ n → st.pfree = true →
       writeStatement ctx st s = .ok t →
       ∃ tr, writeStatementTrace ctx st s.needColorSpaceHelper s.varCount
           s.functionHeader = .ok (tr, t.varCount, t.functionHeader) ∧ TCorr tr s t) ∧
    (∀ (ctx : Ctx) (sts : StmtList) (s t : GenState), sts.szSL ≤ n →
       sts.pfreeList = true → writeStmtList ctx sts s = .ok t →
       ∃ tr, writeStmtListTrace ctx sts s.needColorSpaceHelper s.varCount
           s.functionHeader = .ok (tr, t.varCount, t.functionHeader) ∧ TCorr tr s t) := by
  intro n
  induction n with
  | zero =>
    refine ⟨fun ctx st s t hle _ _ => ?_, fun ctx sts s t hle _ _ => ?_⟩
    · exact absurd hle (by have := Stmt.szS_pos st; omega)
    · exact absurd hle (by have := StmtList.szSL_pos sts; omega)
  | succ n ih =>
    obtain ⟨ihS, ihL⟩ := ih
    have hS : ∀ (ctx : Ctx) (st : Stmt) (s t : GenState), st.szS ≤ n + 1 →
        st.pfree = true → writeStatement ctx st s = .ok t →
        ∃ tr, writeStatementTrace ctx st s.needColorSpaceHelper s.varCount
            s.functionHeader = .ok (tr, t.varCount, t.functionHeader) ∧ TCorr tr s t := by
      intro ctx st s t hle hw h
      cases st with
      | exprStmt e =>
        simp only [Stmt.pfree] at hw
        simp only [writeStatement] at h
        unfold writeStatementTrace
        obtain ⟨s1, hE, h⟩ := except_bind_inv h
        cases h
        obtain ⟨etr, hET, hEC⟩ := writeExpression_tcorr ctx e _ s s1 hw hE
        refine ⟨etr ++ [EmitItem.txt ";"], ?_,
          tcorr_trans hEC (tcorr_txt ";" (by decide))⟩
        simp only [hET]
        simp [stWrite]
      | block stmts =>
        simp only [Stmt.pfree] at hw
        simp only [Stmt.szS] at hle
        simp only [writeStatement] at h
        unfold writeStatementTrace
        obtain ⟨s1, hL, h⟩ := except_bind_inv h
        cases h
        obtain ⟨btr, hBT, hBC⟩ := ihL ctx stmts _ s1 (by omega) hw hL
        simp only [writeLine, stWrite] at hBT
        refine ⟨[EmitItem.txt "\x7b"] ++ ([EmitItem.txt fLineEnding] ++
          (btr ++ [EmitItem.txt "\x7d"])), ?_, ?_⟩
        · simp only [hBT]
          simp [stWrite, List.append_assoc]
        · exact tcorr_trans (tcorr_txt "\x7b" (by decide))
            (tcorr_trans (tcorr_txt fLineEnding (by decide))
              (tcorr_trans hBC (tcorr_txt "\x7d" (by decide))))
      | ifStmt isStatic cond thenStmt =>
        simp only [Stmt.pfree, Bool.and_eq_true] at hw
        simp only [Stmt.szS] at hle
        simp only [writeStatement] at h
        unfold writeStatementTrace
        obtain ⟨s1, hCo, h⟩ := except_bind_inv h
        have pv : (stWrite (if isStatic then stWrite s "@" else s) "if (").varCount =
            s.varCount := by split <;> simp [stWrite]
        have ph : (stWrite (if isStatic then stWrite s "@" else s)
            "if (").functionHeader = s.functionHeader := by split <;> simp [stWrite]
        have pn : (stWrite (if isStatic then stWrite s "@" else s)
            "if (").needColorSpaceHelper = s.needColorSpaceHelper := by
          split <;> simp [stWrite]
        obtain ⟨ctr, hCT, hCC⟩ := writeExpression_tcorr ctx cond _ _ s1 hw.1 hCo
        rw [pv, ph, pn] at hCT
        obtain ⟨ttr, hTT, hTC⟩ := ihS ctx thenStmt _ t (by omega) hw.2 h
        have en2 : s1.needColorSpaceHelper = s.needColorSpaceHelper := by
          rw [hCC.2.2.2.1]
          exact pn
        have qv : (stWrite s1 ") ").varCount = s1.varCount := by simp [stWrite]
        have qh : (stWrite s1 ") ").functionHeader = s1.functionHeader := by
          simp [stWrite]
        have qn : (stWrite s1 ") ").needColorSpaceHelper = s1.needColorSpaceHelper := by
          simp [stWrite]
        rw [qv, qh, qn, en2] at hTT
        refine ⟨(if isStatic then [EmitItem.txt "@"] else []) ++
          ([EmitItem.txt "if ("] ++ (ctr ++ ([EmitItem.txt ") "] ++ ttr))), ?_, ?_⟩
        · simp only [hCT, hTT]
          simp [List.append_assoc]
        · refine tcorr_trans ?_ (tcorr_trans (tcorr_txt "if (" (by decide))
            (tcorr_trans hCC (tcorr_trans (tcorr_txt ") " (by decide)) hTC)))
          by_cases hst : isStatic
          · simp only [if_pos hst]
            exact tcorr_txt "@" (by decide)
          · simp only [if_neg hst]
            exact tcorr_nil s
      | ifElse isStatic cond thenStmt elseStmt =>
        simp only [Stmt.pfree, Bool.and_eq_true] at hw
        simp only [Stmt.szS] at hle
        simp only [writeStatement] at h
        unfold writeStatementTrace
        obtain ⟨s1, hCo, h⟩ := except_bind_inv h
        obtain ⟨s2, hTh, h⟩ := except_bind_inv h
        have pv : (stWrite (if isStatic then stWrite s "@" else s) "if (").varCount =
            s.varCount := by split <;> simp [stWrite]
        have ph : (stWrite (if isStatic then stWrite s "@" else s)
            "if (").functionHeader = s.functionHeader := by split <;> simp [stWrite]
        have pn : (stWrite (if isStatic then stWrite s "@" else s)
            "if (").needColorSpaceHelper = s.needColorSpaceHelper := by
          split <;> simp [stWrite]
        obtain ⟨ctr, hCT, hCC⟩ := writeExpression_tcorr ctx cond _ _ s1 hw.1.1 hCo
        rw [pv, ph, pn] at hCT
        obtain ⟨ttr, hTT, hTC⟩ := ihS ctx thenStmt _ s2 (by omega) hw.1.2 hTh
        have en2 : s1.needColorSpaceHelper = s.needColorSpaceHelper := by
          rw [hCC.2.2.2.1]
          exact pn
        have qv : (stWrite s1 ") ").varCount = s1.varCount := by simp [stWrite]
        have qh : (stWrite s1 ") ").functionHeader = s1.functionHeader := by
          simp [stWrite]
        have qn : (stWrite s1 ") ").needColorSpaceHelper = s1.needColorSpaceHelper := by
          simp [stWrite]
        rw [qv, qh, qn, en2] at hTT
        obtain ⟨etr, hETr, hETC⟩ := ihS ctx elseStmt _ t (by omega) hw.2 h
        have en3 : s2.needColorSpaceHelper = s.needColorSpaceHelper := by
          rw [hTC.2.2.2.1, qn, en2]
        have rv : (stWrite s2 " else ").varCount = s2.varCount := by simp [stWrite]
        have rh : (stWrite s2 " else ").functionHeader = s2.functionHeader := by
          simp [stWrite]
        have rn : (stWrite s2 " else ").needColorSpaceHelper =
            s2.needColorSpaceHelper := by simp [stWrite]
        rw [rv, rh, rn, en3] at hETr
        refine ⟨(if isStatic then [EmitItem.txt "@"] else []) ++
          ([EmitItem.txt "if ("] ++ (ctr ++ ([EmitItem.txt ") "] ++
            (ttr ++ ([EmitItem.txt " else "] ++ etr))))), ?_, ?_⟩
        · simp only [hCT, hTT, hETr]
          simp [List.append_assoc]
        · refine tcorr_trans ?_ (tcorr_trans (tcorr_txt "if (" (by decide))
            (tcorr_trans hCC (tcorr_trans (tcorr_txt ") " (by decide))
              (tcorr_trans hTC (tcorr_trans (tcorr_txt " else " (by decide)) hETC)))))
          by_cases hst : isStatic
          · simp only [if_pos hst]
            exact tcorr_txt "@" (by decide)
          · simp only [if_neg hst]
            exact tcorr_nil s
      | retVoid =>
        simp only [writeStatement] at h
        cases h
        unfold writeStatementTrace
        exact ⟨_, rfl, tcorr_txt "return;" (by decide)⟩
      | ret e =>
        simp only [Stmt.pfree] at hw
        simp only [writeStatement] at h
        unfold writeStatementTrace
        obtain ⟨s1, hE, h⟩ := except_bind_inv h
        cases h
        obtain ⟨etr, hET, hEC⟩ := writeExpression_tcorr ctx e _ _ s1 hw hE
        simp only [stWrite] at hET
        refine ⟨[EmitItem.txt "return "] ++ (etr ++ [EmitItem.txt ";"]), ?_, ?_⟩
        · simp only [hET]
          simp [stWrite, List.append_assoc]
        · exact tcorr_trans (tcorr_txt "return " (by decide))
            (tcorr_trans hEC (tcorr_txt ";" (by decide)))
      | varDeclStmt v =>
        simp only [Stmt.pfree] at hw
        simp only [writeStatement] at h
        cases h
        unfold writeStatementTrace
        refine ⟨_, rfl, tcorr_txt _ ?_⟩
        have hty : pctFree (getTypeName v.type) = true := by
          simpa [getTypeName] using skTypeName_pctFree v.type
        exact pctFree_append (pctFree_append (pctFree_append hty (by decide)) hw)
          (by decide)
      | varDeclInit v value =>
        simp only [Stmt.pfree, Bool.and_eq_true] at hw
        simp only [writeStatement] at h
        unfold writeStatementTrace
        obtain ⟨s1, hI, h⟩ := except_bind_inv h
        cases h
        obtain ⟨itr, hIT, hIC⟩ := writeVarInitializer_tcorr ctx v value _ s1 hw.2 hI
        simp only [stWrite] at hIT
        have hpre : pctFree (getTypeName v.type ++ " " ++ v.name ++ " = ") = true := by
          have hty : pctFree (getTypeName v.type) = true := by
            simpa [getTypeName] using skTypeName_pctFree v.type
          exact pctFree_append (pctFree_append (pctFree_append hty (by decide)) hw.1)
            (by decide)
        refine ⟨[EmitItem.txt (getTypeName v.type ++ " " ++ v.name ++ " = ")] ++
          (itr ++ [EmitItem.txt ";"]), ?_, ?_⟩
        · simp only [hIT]
          simp [stWrite, List.append_assoc]
        · exact tcorr_trans (tcorr_txt _ hpre)
            (tcorr_trans hIC (tcorr_txt ";" (by decide)))
    have hL : ∀ (ctx : Ctx) (sts : StmtList) (s t : GenState), sts.szSL ≤ n + 1 →
        sts.pfreeList = true → writeStmtList ctx sts s = .ok t →
        ∃ tr, writeStmtListTrace ctx sts s.needColorSpaceHelper s.varCount
            s.functionHeader = .ok (tr, t.varCount, t.functionHeader) ∧ TCorr tr s t := by
      intro ctx sts s t hle hw h
      cases sts with
      | nil =>
        simp only [writeStmtList] at h
        cases h
        unfold writeStmtListTrace
        exact ⟨_, rfl, tcorr_nil s⟩
      | cons st rest =>
        simp only [StmtList.pfreeList, Bool.and_eq_true] at hw
        simp only [StmtList.szSL] at hle
        simp only [writeStmtList] at h
        unfold writeStmtListTrace
        obtain ⟨s1, hSt, h⟩ := except_bind_inv h
        obtain ⟨str, hST, hSC⟩ := hS ctx st s s1 (by omega) hw.1 hSt
        obtain ⟨rtr, hRT, hRC⟩ := ihL ctx rest _ t (by omega) hw.2 h
        have en2 : s1.needColorSpaceHelper = s.needColorSpaceHelper := hSC.2.2.2.1
        simp only [writeLine, stWrite, en2] at hRT
        refine ⟨str ++ ([EmitItem.txt fLineEnding] ++ rtr), ?_, ?_⟩
        · simp only [hST, hRT]
          simp [List.append_assoc]
        · exact tcorr_trans hSC (tcorr_trans (tcorr_txt fLineEnding (by decide)) hRC)
    exact ⟨hS, hL⟩

theorem writeStmtList_tcorr (ctx : Ctx) (sts : StmtList) (s t : GenState)
    (hw : sts.pfreeList = true) (h : writeStmtList ctx sts s = .ok t) :
    ∃ tr, writeStmtListTrace ctx sts s.needColorSpaceHelper s.varCount
        s.functionHeader = .ok (tr, t.varCount, t.functionHeader) ∧ TCorr tr s t :=
  (tcorrAllStmt sts.szSL).2 ctx sts s t le_rfl hw h

/-! ### Trace correspondence: elements and the main-body capture -/

theorem writeFunction_tcorr (ctx : Ctx) (fname : String) (body : StmtList)
    (s t : GenState) (hf : pctFree fname = true) (hb : body.pfreeList = true)
    (h : writeFunction ctx fname body s = .ok t) :
    ∃ tr, writeFunctionTrace ctx fname body s.needColorSpaceHelper s.varCount
        s.functionHeader = .ok (tr, t.varCount, t.functionHeader) ∧ TCorr tr s t := by
  unfold writeFunction at h
  unfold writeFunctionTrace
  split at h
  · rename_i hm
    rw [if_pos hm]
    obtain ⟨s2, hBd, h⟩ := except_bind_inv h
    cases h
    obtain ⟨btr, hBT, hBC⟩ := writeStmtList_tcorr ctx body _ s2 hb hBd
    simp only [] at hBT
    obtain ⟨hout, hargs, herrs, hncs, hhdr, hwf⟩ := hBC
    refine ⟨EmitItem.txt s2.functionHeader :: btr, ?_, ?_⟩
    · simp only [hBT]
      simp [stWrite]
    · refine tcorr_build _ ?_ ?_ ?_ ?_ ?_ ?_
      · simp only [stWrite, traceDef, EmitItem.defText]
        rw [show s2.out = "" ++ traceDef btr from hout]
        simp [String.append_assoc]
      · simpa [stWrite, traceArgs, EmitItem.argVals] using hargs
      · simpa [stWrite, traceErrs, EmitItem.errVals] using herrs
      · simpa [stWrite] using hncs
      · intro hpf
        simp only [stWrite]
        exact hhdr rfl
      · simp only [traceWf, List.all_cons, Bool.and_eq_true]
        exact ⟨by simpa [EmitItem.wfItem] using hhdr rfl,
          by simpa [traceWf] using hwf⟩
  · rename_i hm
    rw [if_neg hm]
    obtain ⟨s2, hBd, h⟩ := except_bind_inv h
    cases h
    obtain ⟨btr, hBT, hBC⟩ := writeStmtList_tcorr ctx body _ s2 hb hBd
    simp only [writeLine, stWrite] at hBT
    refine ⟨[EmitItem.txt ("void " ++ fname ++ "() ")] ++ ([EmitItem.txt "\x7b"] ++
      ([EmitItem.txt fLineEnding] ++ (btr ++ ([EmitItem.txt "\x7d"] ++
        [EmitItem.txt fLineEnding])))), ?_, ?_⟩
    · simp only [hBT]
      simp [writeLine, stWrite, List.append_assoc]
    · exact tcorr_trans (tcorr_txt _ (pctFree_append (pctFree_append (by decide) hf)
        (by decide)))
        (tcorr_trans (tcorr_txt "\x7b" (by decide))
          (tcorr_trans (tcorr_txt fLineEnding (by decide))
            (tcorr_trans hBC (tcorr_trans (tcorr_txt "\x7d" (by decide))
              (tcorr_txt fLineEnding (by decide))))))

theorem glslWriteVarDeclsLoop_tcorr (ctx : Ctx) (decls : List (Variable × Option Expr))
    (s t : GenState) (hw : decls.all declPairPfree = true)
    (h : glslWriteVarDeclsLoop ctx decls s = .ok t) :
    ∃ tr, glslWriteVarDeclsLoopTrace ctx decls s.needColorSpaceHelper s.varCount
        s.functionHeader = .ok (tr, t.varCount, t.functionHeader) ∧ TCorr tr s t := by
  induction decls generalizing s t with
  | nil =>
    simp only [glslWriteVarDeclsLoop] at h
    cases h
    unfold glslWriteVarDeclsLoopTrace
    exact ⟨_, rfl, tcorr_nil s⟩
  | cons pr rest ih =>
    obtain ⟨v, initv⟩ := pr
    simp only [List.all_cons, Bool.and_eq_true] at hw
    simp only [declPairPfree, Bool.and_eq_true] at hw
    have hty : pctFree (getTypeName v.type) = true := by
      simpa [getTypeName] using skTypeName_pctFree v.type
    have hpre : pctFree (getTypeName v.type ++ " " ++ v.name) = true :=
      pctFree_append (pctFree_append hty (by decide)) hw.1.1
    unfold glslWriteVarDeclsLoopTrace
    cases initv with
    | some value =>
      simp only [glslWriteVarDeclsLoop] at h
      obtain ⟨s1, hIv, h⟩ := except_bind_inv h
      obtain ⟨itr, hIT, hIC⟩ := writeVarInitializer_tcorr ctx v value _ s1
        (by simpa using hw.1.2) hIv
      simp only [stWrite] at hIT
      obtain ⟨rtr, hRT, hRC⟩ := ih _ t hw.2 h
      have en2 : s1.needColorSpaceHelper = s.needColorSpaceHelper := hIC.2.2.2.1
      simp only [writeLine, stWrite, en2] at hRT
      refine ⟨([EmitItem.txt (getTypeName v.type ++ " " ++ v.name)] ++
        ([EmitItem.txt " = "] ++ itr)) ++ ([EmitItem.txt ";"] ++
          ([EmitItem.txt fLineEnding] ++ rtr)), ?_, ?_⟩
      · simp only [varDeclHeadTrace, hIT, hRT]
        simp [List.append_assoc]
      · exact tcorr_trans (tcorr_trans (tcorr_txt _ hpre)
          (tcorr_trans (tcorr_txt " = " (by decide)) hIC))
          (tcorr_trans (tcorr_txt ";" (by decide))
            (tcorr_trans (tcorr_txt fLineEnding (by decide)) hRC))
    | none =>
      simp only [glslWriteVarDeclsLoop, except_pure, except_bind_ok] at h
      obtain ⟨rtr, hRT, hRC⟩ := ih _ t hw.2 h
      simp only [writeLine, stWrite] at hRT
      refine ⟨[EmitItem.txt (getTypeName v.type ++ " " ++ v.name)] ++
        ([EmitItem.txt ";"] ++ ([EmitItem.txt fLineEnding] ++ rtr)), ?_, ?_⟩
      · simp only [varDeclHeadTrace, hRT]
        simp [List.append_assoc]
      · exact tcorr_trans (tcorr_txt _ hpre)
          (tcorr_trans (tcorr_txt ";" (by decide))
            (tcorr_trans (tcorr_txt fLineEnding (by decide)) hRC))

theorem writeProgramElement_tcorr (ctx : Ctx) (pe : ProgramElement) (s t : GenState)
    (hw : pe.pfree = true) (h : writeProgramElement ctx pe s = .ok t) :
    ∃ tr, writeProgramElementTrace ctx pe s.needColorSpaceHelper s.varCount
        s.functionHeader = .ok (tr, t.varCount, t.functionHeader) ∧ TCorr tr s t := by
  cases pe with
  | sectionElem n a txt =>
    simp only [writeProgramElement] at h
    cases h
    unfold writeProgramElementTrace
    exact ⟨_, rfl, tcorr_nil s⟩
  | varDecls decls =>
    simp only [ProgramElement.pfree] at hw
    cases decls with
    | nil =>
      simp only [writeProgramElement] at h
      cases h
      exact ⟨[], rfl, tcorr_nil s⟩
    | cons pr rest =>
      obtain ⟨v, initv⟩ := pr
      simp only [writeProgramElement] at h
      split at h
      · rename_i hskip
        cases h
        refine ⟨[], ?_, tcorr_nil s⟩
        simp only [writeProgramElementTrace]
        rw [if_pos hskip]
      · rename_i hskip
        obtain ⟨tr, hT, hC⟩ := glslWriteVarDeclsLoop_tcorr ctx _ s t hw h
        refine ⟨tr, ?_, hC⟩
        simp only [writeProgramElementTrace]
        rw [if_neg hskip]
        exact hT
  | functionDef fname body =>
    simp only [ProgramElement.pfree, Bool.and_eq_true] at hw
    simp only [writeProgramElement] at h
    unfold writeProgramElementTrace
    exact writeFunction_tcorr ctx fname body s t hw.1 hw.2 h

theorem glslGenerateCodeLoop_tcorr (ctx : Ctx) (elems : List ProgramElement)
    (s t : GenState) (hw : elems.all ProgramElement.pfree = true)
    (h : glslGenerateCodeLoop ctx elems s = .ok t) :
    ∃ tr, glslGenerateCodeLoopTrace ctx elems s.needColorSpaceHelper s.varCount
        s.functionHeader = .ok (tr, t.varCount, t.functionHeader) ∧ TCorr tr s t := by
  induction elems generalizing s t with
  | nil =>
    simp only [glslGenerateCodeLoop] at h
    cases h
    unfold glslGenerateCodeLoopTrace
    exact ⟨_, rfl, tcorr_nil s⟩
  | cons pe rest ih =>
    simp only [List.all_cons, Bool.and_eq_true] at hw
    simp only [glslGenerateCodeLoop] at h
    unfold glslGenerateCodeLoopTrace
    obtain ⟨s1, hP, h⟩ := except_bind_inv h
    obtain ⟨ptr, hPT, hPC⟩ := writeProgramElement_tcorr ctx pe s s1 hw.1 hP
    obtain ⟨rtr, hRT, hRC⟩ := ih _ t hw.2 h
    have en2 : s1.needColorSpaceHelper = s.needColorSpaceHelper := hPC.2.2.2.1
    rw [en2] at hRT
    refine ⟨ptr ++ rtr, ?_, tcorr_trans hPC hRC⟩
    simp only [hPT, hRT]

/-- The trace correspondence of the whole buffered main-body capture: the
captured text is the trace's deferred flattening, the appended format
arguments are its argument projection, and the reported errors are its
error projection. -/
theorem emitMainBody_trace (ctx : Ctx) (s : GenState)
    (hw : ctx.program.pfree = true) (r : Bool × String × GenState)
    (h : emitMainBody ctx s = .ok r) :
    ∃ tr, glslGenerateCodeLoopTrace ctx ctx.program.elements s.needColorSpaceHelper
        s.varCount s.functionHeader = .ok (tr, r.2.2.varCount, r.2.2.functionHeader) ∧
      r.2.1 = traceDef tr ∧
      r.2.2.formatArgs = s.formatArgs ++ traceArgs tr ∧
      r.2.2.errors = s.errors ++ traceErrs tr ∧
      traceWf tr = true := by
  unfold emitMainBody at h
  cases hl : glslGenerateCodeLoop ctx ctx.program.elements { s with out := "" } with
  | error e =>
    rw [hl] at h
    exact absurd h (by simp)
  | ok s2 =>
    rw [hl] at h
    cases h
    obtain ⟨tr, hT, hC⟩ := glslGenerateCodeLoop_tcorr ctx _ _ s2 hw hl
    simp only [] at hT
    obtain ⟨hout, hargs, herrs, _, _, hwf⟩ := hC
    refine ⟨tr, hT, ?_, ?_, ?_, hwf⟩
    · simpa [strEmpty_append] using hout
    · simpa using hargs
    · simpa using herrs

/-! ## Claim theorems -/

/-- C2: `writeRuntimeValue` lowers a floating scalar, the integer type and
the boolean type to one directive plus one argument (the boolean argument
being a ternary over the two fixed literals `"true"`/`"false"`), lowers a
2-component float vector of either precision tier to a constructor-call
literal with exactly two directives and the `.fX`/`.fY` component
accessors as the two arguments, and aborts fatally on every other type —
exactly the behaviour described by `runtimeValueSpec`. -/
theorem c2_writeRuntimeValue_lowering :
    ∀ (type : SkType) (cppCode : String) (s : GenState),
      writeRuntimeValue type cppCode s =
        (runtimeValueSpec type cppCode).map
          (fun pr => { s with out := s.out ++ pr.1,
                              formatArgs := s.formatArgs ++ pr.2 }) := by
  intro type cppCode s
  cases type <;>
    simp [writeRuntimeValue, runtimeValueSpec, stWrite, stPushArg, Except.map,
      SkType.isFloat, SkType.name, List.append_assoc, String.append_assoc]

/-- C7: a declaration is uniform-eligible (`needs_uniform_var`) iff it
carries the uniform modifier flag and its type is not the
color-space-transform type; `addUniform` registers nothing (returns the
state unchanged) for an ineligible declaration. -/
theorem c7_uniform_eligibility :
    (∀ var : Variable,
      needs_uniform_var var =
        (var.modifiers.flags.uniformFlag && !(var.type == SkType.colorSpaceXform))) ∧
    (∀ (var : Variable) (s : GenState), needs_uniform_var var = false →
      addUniform var s = .ok s) := by
  constructor
  · intro var
    obtain ⟨idv, namev, modsv, tyv, stv, offv⟩ := var
    cases tyv <;> rfl
  · intro var s hne
    unfold addUniform
    rw [hne]
    rfl

/-- Witness for C7 at a concrete ineligible declaration. -/
theorem c7_uniform_eligibility_witness :
    addUniform localVar initialState = .ok initialState :=
  c7_uniform_eligibility.2 localVar initialState (by decide)

/-- C8: a non-literal index into either builtin array is a reported
(recoverable) error at the index expression's source offset: the writer
returns successfully having written only the already-emitted `%s` and
appended no format argument, so generation of the rest of the program
continues. -/
theorem c8_nonliteral_index_error :
    ∀ (ctx : Ctx) (boff : Int) (v : Variable) (idx : Expr) (s : GenState),
      idx.kindIsIntLiteral = false →
      (v.modifiers.layout.builtin = SK_TRANSFORMEDCOORDS2D_BUILTIN →
        writeIndexExpression ctx (.varRef boff v) idx s =
          .ok (stError (stWrite s "%s") idx.offset
            "index into sk_TransformedCoords2D must be an integer literal")) ∧
      (v.modifiers.layout.builtin = SK_TEXTURESAMPLERS_BUILTIN →
        writeIndexExpression ctx (.varRef boff v) idx s =
          .ok (stError (stWrite s "%s") idx.offset
            "index into sk_TextureSamplers must be an integer literal")) := by
  intro ctx boff v idx s hlit
  constructor
  · intro hb
    unfold writeIndexExpression
    simp [Expr.kindIsVariableReference, Expr.variableOf, hb, hlit]
  · intro hb
    unfold writeIndexExpression
    have hne2 : (SK_TEXTURESAMPLERS_BUILTIN == SK_TRANSFORMEDCOORDS2D_BUILTIN) = false := by
      decide
    simp [Expr.kindIsVariableReference, Expr.variableOf, hb, hlit, hne2]

/-- Witness for C8: indexing the coordinates array with a variable
reference. -/
theorem c8_nonliteral_index_error_witness :
    writeIndexExpression (mkCtx "W" progGood) (.varRef 0 coordsVar)
      (.varRef 7 localVar) initialState =
      .ok (stError (stWrite initialState "%s") 7
        "index into sk_TransformedCoords2D must be an integer literal") :=
  (c8_nonliteral_index_error (mkCtx "W" progGood) 0 coordsVar (.varRef 7 localVar)
    initialState rfl).1 rfl

/-- C10: `getSamplerHandle` returns the texture-sampler accessor indexed
by the number of sampler-typed parameters strictly before the queried
variable in parameter order (non-sampler parameters do not advance the
slot, and the queried variable's own type plays no role); a variable not
in the parameter list is a fatal abort. -/
theorem c10_getSamplerHandle_slot :
    (∀ (pre post : List Variable) (var : Variable),
      (∀ p ∈ pre, p.id ≠ var.id) →
      getSamplerHandle (pre ++ var :: post) var =
        .ok ("args.fTexSamplers[" ++
          to_string (Int.ofNat (pre.countP (fun p => p.type.kind == TypeKind.sampler)))
          ++ "]")) ∧
    (∀ (params : List Variable) (var : Variable),
      (∀ p ∈ params, p.id ≠ var.id) →
      getSamplerHandle params var = .error "abort: should have found sampler in parameters") := by
  have loop : ∀ (var : Variable) (post pre : List Variable) (c : Nat),
      (∀ p ∈ pre, p.id ≠ var.id) →
      getSamplerHandleLoop var c (pre ++ var :: post) =
        .ok ("args.fTexSamplers[" ++
          to_string (Int.ofNat (c + pre.countP (fun p => p.type.kind == TypeKind.sampler)))
          ++ "]") := by
    intro var post pre
    induction pre with
    | nil =>
      intro c _
      simp [getSamplerHandleLoop]
    | cons p rest ih =>
      intro c hp
      have hne : (var.id == p.id) = false := by
        have := hp p (by simp)
        simp [Ne.symm this]
      cases hk : (p.type.kind == TypeKind.sampler) with
      | false =>
        simp only [List.cons_append, getSamplerHandleLoop, hne, hk,
          Bool.false_eq_true, if_false, List.append_eq]
        rw [ih c (fun q hq => hp q (by simp [hq]))]
        have harith : List.countP (fun p => p.type.kind == TypeKind.sampler) (p :: rest)
            = List.countP (fun p => p.type.kind == TypeKind.sampler) rest := by
          simp [List.countP_cons, hk]
        rw [harith]
      | true =>
        simp only [List.cons_append, getSamplerHandleLoop, hne, hk,
          Bool.false_eq_true, if_false, if_true, List.append_eq]
        rw [ih (c + 1) (fun q hq => hp q (by simp [hq]))]
        have harith : c + 1 + List.countP (fun p => p.type.kind == TypeKind.sampler) rest
            = c + List.countP (fun p => p.type.kind == TypeKind.sampler) (p :: rest) := by
          simp only [List.countP_cons, hk, if_true]
          omega
        rw [harith]
  have loopErr : ∀ (var : Variable) (params : List Variable),
      (∀ p ∈ params, p.id ≠ var.id) → ∀ c,
      getSamplerHandleLoop var c params =
        .error "abort: should have found sampler in parameters" := by
    intro var params
    induction params with
    | nil => intro _ c; rfl
    | cons p rest ih =>
      intro hp c
      have hne : (var.id == p.id) = false := by
        have := hp p (by simp)
        simp [Ne.symm this]
      simp only [getSamplerHandleLoop, hne, Bool.false_eq_true, if_false]
      exact ih (fun q hq => hp q (by simp [hq])) _
  constructor
  · intro pre post var hp
    have := loop var post pre 0 hp
    simpa [getSamplerHandle] using this
  · intro params var hp
    exact loopErr var params hp 0

/-- Witness for C10: a sampler and a float parameter precede the queried
variable, giving slot 1. -/
theorem c10_getSamplerHandle_slot_witness :
    getSamplerHandle [samplerParam, floatParam, samplerParam2] samplerParam2 =
      .ok ("args.fTexSamplers[" ++
        to_string (Int.ofNat (List.countP (fun p => p.type.kind == TypeKind.sampler)
          [samplerParam, floatParam])) ++ "]") ∧
    getSamplerHandle [samplerParam, floatParam] localVar =
      .error "abort: should have found sampler in parameters" :=
  ⟨c10_getSamplerHandle_slot.1 [samplerParam, floatParam] [] samplerParam2 (by decide),
   c10_getSamplerHandle_slot.2 [samplerParam, floatParam] localVar (by decide)⟩

/-- C3 (counterexample): a `half2` parameter — a 2-component vector type —
with raw key mode yields exactly one contribution statement, not the two
the claim demands. -/
theorem c3_counterexample :
    (writeGetKeyParam half2KeyParam initialState).map
      (fun st => countOccs add32Pat st.out.data) = .ok 1 ∧ (1 : Nat) ≠ 2 :=
  ⟨rfl, by decide⟩

/-- C3 (amended): for every non-color-space-transform parameter, the key
contributions follow `keyContribSpec`: with raw key mode only the
full-precision `float2` expands to 2 contributions (x then y) and only
`float4` to 4 (x, y, width, height in order); only `float4x4` is fatal;
every other type — including the half-precision vectors — yields exactly 1
contribution; key mode none yields none. -/
theorem c3_key_contributions :
    ∀ (p : Variable) (s : GenState), p.type ≠ .colorSpaceXform →
      (writeGetKeyParam p s).map GenState.out =
        (keyContribSpec p).map (fun ls => s.out ++ joinStrs ls) := by
  intro p s hcs
  have hbeq : (p.type == SkType.colorSpaceXform) = false := by
    cases htype : p.type <;> simp_all
  have hout : ∀ (c : Bool) (off : Int) (m : String),
      (if c = true then stError s off m else s).out = s.out := by
    intro c off m
    cases c <;> simp [stError]
  unfold writeGetKeyParam keyContribSpec
  simp only [hbeq, Bool.false_eq_true, if_false]
  split <;> rename_i heq
  · simp only [heq]
    split <;> rename_i h1
    · simp [h1, Except.map]
    · split <;> rename_i h2
      · simp [h1, h2, Except.map, stWrite, joinStrs, hout, String.append_assoc]
        rw [← String.append_assoc ".fX);\n" "    b->add32("]
        simp [String.append_assoc]
      · split <;> rename_i h3
        · simp [h1, h2, h3, Except.map, stWrite, joinStrs, hout,
            String.append_assoc]
          rw [← String.append_assoc ".x());\n" "    b->add32(",
              ← String.append_assoc ".y());\n" "    b->add32(",
              ← String.append_assoc ".width());\n" "    b->add32("]
          simp [String.append_assoc]
        · simp [h1, h2, h3, Except.map, stWrite, joinStrs, hout,
            String.append_assoc]
  · simp only [heq]
    split <;>
      simp [Except.map, stWrite, stError, joinStrs, hout, String.append_assoc] <;>
      split <;> rfl
  · simp only [heq]
    simp [Except.map, joinStrs, hout]

/-- Witness for C3 at a concrete `float2` raw-key parameter. -/
theorem c3_key_contributions_witness :
    (writeGetKeyParam float2KeyParam initialState).map GenState.out =
      (keyContribSpec float2KeyParam).map
        (fun ls => initialState.out ++ joinStrs ls) :=
  c3_key_contributions float2KeyParam initialState (by decide)

/-- C6 (counterexample): a color-space-transform-typed parameter carrying
both a non-`none` key mode and the uniform flag reports no error at all —
the color-space special case is taken before the key/uniform check. -/
theorem c6_counterexample :
    (writeGetKeyParam csxKeyUniformParam initialState).map GenState.errors = .ok [] ∧
    csxKeyUniformParam.modifiers.layout.key ≠ KeyMode.kNo ∧
    csxKeyUniformParam.modifiers.flags.uniformFlag = true :=
  ⟨rfl, by decide, rfl⟩

/-- C6 (amended): for every parameter whose type is not the
color-space-transform type, a non-`none` key mode combined with the
uniform flag reports the `layout(key)` error at the parameter's offset;
a color-space-transform-typed parameter always emits exactly its fixed
key contribution, with no error, regardless of key mode. -/
theorem c6_key_uniform_and_csx :
    (∀ (p : Variable) (s s' : GenState),
      p.type ≠ .colorSpaceXform → p.modifiers.layout.key ≠ KeyMode.kNo →
      p.modifiers.flags.uniformFlag = true →
      writeGetKeyParam p s = .ok s' →
      (p.offset, "layout(key) may not be specified on uniforms") ∈ s'.errors) ∧
    (∀ (p : Variable) (s : GenState), p.type = .colorSpaceXform →
      writeGetKeyParam p s = .ok (stWrite s (xformKeyLine p.name))) := by
  constructor
  · intro p s s' hcs hkey hflag h
    have hbeq : (p.type == SkType.colorSpaceXform) = false := by
      cases htype : p.type <;> simp_all
    have hbne : (p.modifiers.layout.key != KeyMode.kNo &&
        p.modifiers.flags.uniformFlag) = true := by
      cases hk2 : p.modifiers.layout.key <;> simp_all
    unfold writeGetKeyParam at h
    simp only [hbeq, Bool.false_eq_true, if_false, hbne, eq_self_iff_true,
      if_true] at h
    split at h
    · split at h
      · exact Except.noConfusion h
      · split at h
        · injection h with h
          subst h
          simp [stWrite, stError]
        · split at h
          · injection h with h
            subst h
            simp [stWrite, stError]
          · injection h with h
            subst h
            simp [stWrite, stError]
    · injection h with h
      subst h
      simp only [stWrite, stError]
      split <;> simp
    · rename_i heq
      exact absurd heq hkey
  · intro p s hp
    have hbeq : (p.type == SkType.colorSpaceXform) = true := by
      simp [hp]
    unfold writeGetKeyParam
    simp [hbeq, xformKeyLine]

/-- Witness for C6: a plain float raw-key uniform parameter gets the
error; a color-space-transform parameter gets its fixed contribution. -/
theorem c6_key_uniform_and_csx_witness :
    (∃ s', writeGetKeyParam floatKeyUniformParam initialState = .ok s' ∧
      (floatKeyUniformParam.offset, "layout(key) may not be specified on uniforms")
        ∈ s'.errors) ∧
    writeGetKeyParam csxKeyUniformParam initialState =
      .ok (stWrite initialState (xformKeyLine csxKeyUniformParam.name)) :=
  ⟨⟨_, rfl, c6_key_uniform_and_csx.1 floatKeyUniformParam initialState _ (by decide)
      (by decide) rfl rfl⟩,
   c6_key_uniform_and_csx.2 csxKeyUniformParam initialState rfl⟩

/-- C5: in the uniforms loop of `writeEmitCode`, two color-space-transform
uniforms produce exactly one reported (non-fatal) error, carrying the
second uniform's source offset; the helper's emit-code call is written for
each encounter and the helper-needed flag is set from the first one.  The
second conjunct runs the full generation on a concrete program with
exactly two such uniforms: it succeeds (no fatal abort) with exactly that
one error. -/
theorem c5_double_colorSpaceXform :
    (∀ (u1 u2 : Variable) (s : GenState),
      u1.type = .colorSpaceXform → u2.type = .colorSpaceXform →
      s.needColorSpaceHelper = false →
      processEmitUniforms [u1, u2] s = .ok { s with
        needColorSpaceHelper := true,
        out := s.out ++ csxEmitCall u1.name ++ csxEmitCall u2.name,
        errors := s.errors ++
          [(u2.offset, "only a single ColorSpaceXform is supported")] }) ∧
    (∃ r, generateProgram "Csx" progTwoCsx = .ok r ∧
      r.2.errors = [((22 : Int), "only a single ColorSpaceXform is supported")] ∧
      r.2.needColorSpaceHelper = true) := by
  constructor
  · intro u1 u2 s h1 h2 hf
    have hn1 : needs_uniform_var u1 = false := by
      simp [needs_uniform_var, h1, SkType.name]
    have hn2 : needs_uniform_var u2 = false := by
      simp [needs_uniform_var, h2, SkType.name]
    have hb1 : (u1.type == SkType.colorSpaceXform) = true := by simp [h1]
    have hb2 : (u2.type == SkType.colorSpaceXform) = true := by simp [h2]
    simp only [processEmitUniforms, processEmitUniform, addUniform, hn1, hn2,
      Bool.not_false, if_true, except_bind_ok, hb1, hb2, hf, Bool.false_eq_true,
      if_false, stWrite, stError, except_pure]
    simp [String.append_assoc, csxEmitCall]
  · exact ⟨_, rfl, rfl, rfl⟩

/-- Witness for C5 at two concrete color-space-transform uniforms. -/
theorem c5_double_colorSpaceXform_witness :
    processEmitUniforms [csxUniform 1 11, csxUniform 2 22] initialState =
      .ok { initialState with
        needColorSpaceHelper := true,
        out := initialState.out ++ csxEmitCall (csxUniform 1 11).name ++
          csxEmitCall (csxUniform 2 22).name,
        errors := initialState.errors ++
          [((csxUniform 2 22).offset, "only a single ColorSpaceXform is supported")] } :=
  c5_double_colorSpaceXform.1 (csxUniform 1 11) (csxUniform 2 22) initialState
    rfl rfl rfl

/-- C4: repeated literal indexing of the transformed-coordinates builtin
array materializes each distinct index exactly once, in first-occurrence
order, while every occurrence appends its placeholder argument — the
general shape, plus the concrete slot-0-twice/slot-1-once instance with
two distinct cache statements and slot 0 appearing once. -/
theorem c4_coordinate_caching :
    (∀ (ctx : Ctx) (l : List Int) (s : GenState),
      runCoordIndices ctx l s = .ok { s with
        out := s.out ++ joinStrs (l.map fun _ => "%s"),
        formatArgs := s.formatArgs ++ l.map coordArgStr,
        extraEmitCode := s.extraEmitCode ++
          joinStrs ((newIndices s.writtenTransformedCoords l).map cacheStmt),
        writtenTransformedCoords := s.writtenTransformedCoords ++
          newIndices s.writtenTransformedCoords l }) ∧
    (∃ s', runCoordIndices (mkCtx "W" progGood) [0, 0, 1] initialState = .ok s' ∧
      s'.extraEmitCode = cacheStmt 0 ++ cacheStmt 1 ∧
      cacheStmt 0 ≠ cacheStmt 1 ∧
      countOccs (cacheStmt 0).data s'.extraEmitCode.data = 1) := by
  have hgen : ∀ (ctx : Ctx) (l : List Int) (s : GenState),
      runCoordIndices ctx l s = .ok { s with
        out := s.out ++ joinStrs (l.map fun _ => "%s"),
        formatArgs := s.formatArgs ++ l.map coordArgStr,
        extraEmitCode := s.extraEmitCode ++
          joinStrs ((newIndices s.writtenTransformedCoords l).map cacheStmt),
        writtenTransformedCoords := s.writtenTransformedCoords ++
          newIndices s.writtenTransformedCoords l } := by
    intro ctx l
    induction l with
    | nil =>
      intro s
      simp [runCoordIndices, joinStrs, newIndices]
    | cons i rest ih =>
      intro s
      have h1 : ((Expr.varRef 0 coordsVar).kindIsVariableReference) = true := rfl
      have h2 : (coordsVar.modifiers.layout.builtin ==
        SK_TRANSFORMEDCOORDS2D_BUILTIN) = true := by decide
      have h3 : ((Expr.intLit 0 i).kindIsIntLiteral) = true := rfl
      unfold runCoordIndices writeIndexExpression
      simp only [h1, h2, h3, if_true, Bool.not_true, Bool.false_eq_true, if_false,
        Expr.intLitValue, Expr.variableOf]
      cases hc : s.writtenTransformedCoords.contains i with
      | true =>
        have hm : i ∈ s.writtenTransformedCoords := by simpa using hc
        simp only [hc, eq_self_iff_true, if_true]
        rw [ih]
        simp only [stWrite, stPushArg]
        simp [newIndices, hm, joinStrs, coordArgStr, String.append_assoc,
          List.append_assoc]
      | false =>
        have hm : i ∉ s.writtenTransformedCoords := by simpa using hc
        simp only [hc, Bool.false_eq_true, if_false]
        rw [ih]
        simp only [stWrite, stPushArg]
        simp [newIndices, hm, joinStrs, coordArgStr, cacheStmt,
          String.append_assoc, List.append_assoc]
  refine ⟨hgen, _, hgen (mkCtx "W" progGood) [0, 0, 1] initialState, ?_, ?_, ?_⟩
  · decide
  · decide
  · decide

set_option maxHeartbeats 4000000 in
/-- C1 (counterexample): a program whose main body indexes the
coordinates builtin with a non-literal index finalizes a buffered text
with one directive while the Format-Argument List is empty. -/
theorem c1_counterexample :
    (emitMainBody (mkCtx "Bad" progBad) initialState).map
      (fun r => (specCount r.2.1, r.2.2.formatArgs.length)) = .ok (1, 0) ∧
    (1 : Nat) ≠ 0 := by
  refine ⟨?_, by decide⟩
  simp [progBad, emitMainBody, glslGenerateCodeLoop, writeProgramElement, writeFunction,
    glslWriteVarDeclsLoop, writeStmtList, writeStatement, writeExpression,
    writeBinaryExpression, writeIndexExpression, writeFunctionCall, writeCallArgs,
    writeVariableReference, writeVarInitializer, writeIntLiteral, writeRuntimeValue,
    writeSetting, uniformAccessorCode, getSamplerHandle, getSamplerHandleLoop,
    stWrite, stPushArg, stError, writeLine, mkCtx, getParametersList, IsParameter,
    getSection, getSectionsAll, specCount, specsAux, scanEnd, to_string, natDigits,
    natDigitsGo, coordsVar, localVar, outColorVar, coordIndexExpr,
    initialState, Except.map, bind, Except.bind, pure, Except.pure, fLineEnding,
    Expr.description, ExprList.descriptionList, Expr.kindIsVariableReference,
    Expr.variableOf, Expr.kindIsIntLiteral, Expr.intLitValue, Expr.offset,
    SK_INCOLOR_BUILTIN, SK_OUTCOLOR_BUILTIN, SK_TRANSFORMEDCOORDS2D_BUILTIN,
    SK_TEXTURESAMPLERS_BUILTIN, digitChar, needs_uniform_var, is_private,
    getTypeName, FieldName, SkType.name, SkType.kind]

/-- C1 (amended): for every program whose identifiers are percent-free, an
accepted buffered main-body capture is described by the reference emission
trace of the program: the finalized buffered text is the trace's deferred
flattening, the Format-Argument List entries appended during the capture
are exactly the trace's deferred values and the appended reported errors
are its error placeholders, and the directive count of the buffered text
equals the number of appended arguments plus the number of reported
errors; when no error is reported the count equals the argument count and
printf-style substitution of the argument list into the buffered text
reproduces the trace's inline emission — every argument lands at its own
placeholder, in the same order as the placeholders appear. -/
theorem c1_buffer_balance :
    ∀ (ctx : Ctx) (s : GenState) (r : Bool × String × GenState),
      Program.pfree ctx.program = true → emitMainBody ctx s = .ok r →
      ∃ tr, glslGenerateCodeLoopTrace ctx ctx.program.elements
          s.needColorSpaceHelper s.varCount s.functionHeader =
            .ok (tr, r.2.2.varCount, r.2.2.functionHeader) ∧
        r.2.1 = traceDef tr ∧
        r.2.2.formatArgs = s.formatArgs ++ traceArgs tr ∧
        r.2.2.errors = s.errors ++ traceErrs tr ∧
        specCount r.2.1 = (traceArgs tr).length + (traceErrs tr).length ∧
        (traceErrs tr = [] →
          specCount r.2.1 = (traceArgs tr).length ∧
          render r.2.1.data (traceArgs tr) = (traceInl tr).data) := by
  intro ctx s r hw h
  obtain ⟨tr, hT, hout, hargs, herrs, hwf⟩ := emitMainBody_trace ctx s hw r h
  have hcc := traceClean tr hwf
  have hsc : specCount r.2.1 = (traceArgs tr).length + (traceErrs tr).length := by
    rw [hout]
    exact hcc.2
  refine ⟨tr, hT, hout, hargs, herrs, hsc, fun he => ⟨by simp [hsc, he], ?_⟩⟩
  rw [hout]
  exact renderTrace tr hwf he

set_option maxHeartbeats 4000000 in
/-- Witness for C1 at a concrete error-free program. -/
theorem c1_buffer_balance_witness :
    ∃ r, emitMainBody (mkCtx "Good" progGood) initialState = .ok r ∧
      ∃ tr, glslGenerateCodeLoopTrace (mkCtx "Good" progGood)
          (mkCtx "Good" progGood).program.elements
          initialState.needColorSpaceHelper initialState.varCount
          initialState.functionHeader =
            .ok (tr, r.2.2.varCount, r.2.2.functionHeader) ∧
        r.2.1 = traceDef tr ∧
        r.2.2.formatArgs = initialState.formatArgs ++ traceArgs tr ∧
        r.2.2.errors = initialState.errors ++ traceErrs tr ∧
        specCount r.2.1 = (traceArgs tr).length + (traceErrs tr).length ∧
        (traceErrs tr = [] →
          specCount r.2.1 = (traceArgs tr).length ∧
          render r.2.1.data (traceArgs tr) = (traceInl tr).data) := by
  cases hres : emitMainBody (mkCtx "Good" progGood) initialState with
  | error e =>
    exact absurd hres (by
      simp [progGood, emitMainBody, glslGenerateCodeLoop, writeProgramElement, writeFunction,
    glslWriteVarDeclsLoop, writeStmtList, writeStatement, writeExpression,
    writeBinaryExpression, writeIndexExpression, writeFunctionCall, writeCallArgs,
    writeVariableReference, writeVarInitializer, writeIntLiteral, writeRuntimeValue,
    writeSetting, uniformAccessorCode, getSamplerHandle, getSamplerHandleLoop,
    stWrite, stPushArg, stError, writeLine, mkCtx, getParametersList, IsParameter,
    getSection, getSectionsAll, specCount, specsAux, scanEnd, to_string, natDigits,
    natDigitsGo, coordsVar, localVar, outColorVar, coordIndexExpr,
    initialState, Except.map, bind, Except.bind, pure, Except.pure, fLineEnding,
    Expr.description, ExprList.descriptionList, Expr.kindIsVariableReference,
    Expr.variableOf, Expr.kindIsIntLiteral, Expr.intLitValue, Expr.offset,
    SK_INCOLOR_BUILTIN, SK_OUTCOLOR_BUILTIN, SK_TRANSFORMEDCOORDS2D_BUILTIN,
    SK_TEXTURESAMPLERS_BUILTIN, digitChar, needs_uniform_var, is_private,
    getTypeName, FieldName, SkType.name, SkType.kind])
  | ok r =>
    exact ⟨r, rfl, c1_buffer_balance (mkCtx "Good" progGood) initialState r
      (by decide) hres⟩

/-- C9: generation is a pure function of the program and the fresh
per-instance state (`initialState`, the constructor of lines 20-27): two
runs with fresh generator instances on the same input produce the same
result, and in particular byte-identical output text. -/
theorem c9_fresh_runs_identical :
    ∀ (name : String) (p : Program),
      generateProgram name p = generateCode (mkCtx name p) initialState ∧
      (generateProgram name p).map (fun r => r.2.out) =
        (generateCode (mkCtx name p) initialState).map (fun r => r.2.out) :=
  fun _ _ => ⟨rfl, rfl⟩

end SkSLCPP
